import Mathlib

/-!
# VMapManager2: model cache, coordinate transform, map loading and queries

A shallow embedding of `src/game/vmap/VMapManager2.cpp` (namespace `VMAP`).

* `std::map` members are association lists holding at most one entry per key
  (`StdMap`); the iteration order of the keys is not used by any embedded
  method.
* `WorldModel*` values are addresses into an explicit heap of `WorldModel`
  objects; address `0` is `NULL`.
* Calls into other translation units (`WorldModel::ReadFile`,
  `StaticMapTree::*`, the logging calls) are explicit parameters or explicit
  outputs of the embedded methods.
* `float` is IEEE 754 binary32 with round-to-nearest-even (`F32`).
-/

namespace VMAP

/-! ## `std::map` as an association list -/

/-- An association list standing for a `std::map`: at most one entry per key. -/
abbrev StdMap (κ : Type) (ν : Type) := List (κ × ν)

namespace StdMap

variable {κ ν : Type} [DecidableEq κ]

/-- The value stored under `k`, as reached by `map.find(k)`; `none` is `map.end()`. -/
def find (k : κ) : StdMap κ ν → Option ν
  | [] => none
  | (k', v) :: rest => if k' = k then some v else find k rest

/-- The call `map.insert(value_type(k, v))`: adds the pair unless the key is present. -/
def insert (k : κ) (v : ν) (m : StdMap κ ν) : StdMap κ ν :=
  match find k m with
  | some _ => m
  | none => m ++ [(k, v)]

/-- In-place update through an iterator to key `k`: `it->second = g(it->second)`. -/
def modify (k : κ) (g : ν → ν) (m : StdMap κ ν) : StdMap κ ν :=
  m.map (fun e => if e.1 = k then (e.1, g e.2) else e)

/-- The call `map.erase(k)` (or `erase` of the iterator to key `k`). -/
def erase (k : κ) (m : StdMap κ ν) : StdMap κ ν :=
  m.filter (fun e => decide (e.1 ≠ k))

/-- The keys of the map, in list order. -/
def keys (m : StdMap κ ν) : List κ := m.map Prod.fst

end StdMap

/-! ## Heap of `WorldModel` objects -/

/-- A heap address; `NULL` is `0`. -/
abbrev Ptr := Nat

/-- The null pointer. -/
def NULL : Ptr := 0

/-- A `WorldModel` object: the geometry parsed by `ReadFile` (kept as an
uninterpreted payload) and the public `Flags` member written by
`acquireModelInstance`. -/
structure WorldModel where
  /-- Whatever `ReadFile` parsed from the `.vmo` file. -/
  payload : List Nat := []
  /-- The member `Flags`. -/
  Flags : Nat := 0
  deriving DecidableEq

/-- The allocator state: the live objects and the number of allocations made
so far. `new` hands out address `allocs + 1`, so an address is never `NULL`
and never handed out twice. -/
structure Heap where
  objs : StdMap Ptr WorldModel := []
  allocs : Nat := 0
  deriving DecidableEq

namespace Heap

/-- The expression `new WorldModel()`: a fresh default-constructed object. -/
def alloc (h : Heap) : Ptr × Heap :=
  (h.allocs + 1, { objs := (h.allocs + 1, ({} : WorldModel)) :: h.objs, allocs := h.allocs + 1 })

/-- The object at address `p`, if it is live. -/
def get (h : Heap) (p : Ptr) : Option WorldModel := StdMap.find p h.objs

/-- Overwrite the object at address `p`. -/
def set (h : Heap) (p : Ptr) (w : WorldModel) : Heap :=
  { h with objs := StdMap.modify p (fun _ => w) h.objs }

/-- The statement `delete p`. -/
def free (h : Heap) (p : Ptr) : Heap :=
  { h with objs := StdMap.erase p h.objs }

end Heap

/-! ## The model cache -/

/-- Modelled from the spec: class `ManagedModel` is declared in
`VMapManager2.h`, which is not among the sources. The spec describes a cache
entry as `(filename) -> (Mesh Store, refcount)` whose count is incremented on
acquire and decremented on release; the accessor names are the ones
`VMapManager2.cpp` calls. The count is a signed integer so that a decrement
below zero would be visible. -/
structure ManagedModel where
  iModel : Ptr := NULL
  iRefCount : Int := 0
  deriving DecidableEq

namespace ManagedModel

/-- The call `setModel(model)`. -/
def setModel (model : Ptr) (m : ManagedModel) : ManagedModel := { m with iModel := model }

/-- The call `getModel()`. -/
def getModel (m : ManagedModel) : Ptr := m.iModel

/-- The call `incRefCount()`. -/
def incRefCount (m : ManagedModel) : ManagedModel := { m with iRefCount := m.iRefCount + 1 }

/-- The call `decRefCount()`; its return value is the new `iRefCount`. -/
def decRefCount (m : ManagedModel) : ManagedModel := { m with iRefCount := m.iRefCount - 1 }

end ManagedModel

/-- A line handed to the logging calls. -/
inductive LogLine where
  | error (msg : String)
  | debug (msg : String)
  deriving DecidableEq

/-- The part of `VMapManager2` that `acquireModelInstance` and
`releaseModelInstance` read and write: the member `iLoadedModelFiles` and the
heap of `WorldModel` objects it points into. -/
structure ModelCache where
  iLoadedModelFiles : StdMap String ManagedModel := []
  heap : Heap := {}
  deriving DecidableEq

/-- What a method call yields: its return value, the state it leaves and the
lines it logged. -/
structure Outcome (ρ : Type) where
  ret : ρ
  vm : ModelCache
  log : List LogLine

/-- The file system as seen through `WorldModel::ReadFile(path)`: `none` when
the call returns `false`, otherwise the parsed payload. -/
abbrev FileSystem := String → Option (List Nat)

/-- The tail shared by both paths of `acquireModelInstance`:
`model->second.incRefCount(); return model->second.getModel();`. -/
def acquireFound (vm : ModelCache) (filename : String) (log : List LogLine) : Outcome Ptr :=
  let files := StdMap.modify filename ManagedModel.incRefCount vm.iLoadedModelFiles
  { ret := match StdMap.find filename files with
           | some m => m.getModel
           | none => NULL,
    vm := { vm with iLoadedModelFiles := files },
    log := log }

/-- The method `VMapManager2::acquireModelInstance`. -/
def acquireModelInstance (fs : FileSystem) (vm : ModelCache) (basepath filename : String)
    (flags : Nat) : Outcome Ptr :=
  match StdMap.find filename vm.iLoadedModelFiles with
  | none =>
    let (worldmodel, heap1) := vm.heap.alloc
    match fs (basepath ++ filename ++ ".vmo") with
    | none =>
      { ret := NULL,
        vm := { vm with heap := heap1.free worldmodel },
        log := [.error ("VMapManager2: could not load \x27" ++ basepath ++ filename ++ ".vmo\x27!")] }
    | some payload =>
      let heap2 := heap1.set worldmodel { payload := payload, Flags := flags }
      let files := StdMap.insert filename ({} : ManagedModel) vm.iLoadedModelFiles
      let files := StdMap.modify filename (ManagedModel.setModel worldmodel) files
      acquireFound { iLoadedModelFiles := files, heap := heap2 } filename
        [.debug ("VMapManager2: loading file \x27" ++ basepath ++ filename ++ "\x27.")]
  | some _ => acquireFound vm filename []

/-- The method `VMapManager2::releaseModelInstance`. -/
def releaseModelInstance (vm : ModelCache) (filename : String) : Outcome Unit :=
  match StdMap.find filename vm.iLoadedModelFiles with
  | none =>
    { ret := (), vm := vm,
      log := [.error ("VMapManager2: trying to unload non-loaded file \x27" ++ filename ++ "\x27!")] }
  | some m =>
    let files := StdMap.modify filename ManagedModel.decRefCount vm.iLoadedModelFiles
    if m.decRefCount.iRefCount = 0 then
      { ret := (),
        vm := { iLoadedModelFiles := StdMap.erase filename files,
                heap := vm.heap.free m.decRefCount.getModel },
        log := [.debug ("VMapManager2: unloading file \x27" ++ filename ++ "\x27")] }
    else
      { ret := (), vm := { vm with iLoadedModelFiles := files }, log := [] }

/-- One call on the model cache, with the file system as it is at that call. -/
inductive CacheCall where
  | acquire (fs : FileSystem) (basepath filename : String) (flags : Nat)
  | release (filename : String)

/-- The state after one call. -/
def CacheCall.apply (vm : ModelCache) : CacheCall → ModelCache
  | .acquire fs basepath filename flags => (acquireModelInstance fs vm basepath filename flags).vm
  | .release filename => (releaseModelInstance vm filename).vm

/-- The state reached from the freshly constructed manager (empty cache) by a
sequence of calls, first call first. -/
def runCalls (calls : List CacheCall) : ModelCache :=
  calls.foldl CacheCall.apply {}

/-- Number of `acquireModelInstance` calls for `filename` in a call sequence. -/
def acquires (filename : String) (calls : List CacheCall) : Nat :=
  calls.countP (fun c => match c with
    | .acquire _ _ f _ => decide (f = filename)
    | .release _ => false)

/-- Number of `releaseModelInstance` calls for `filename` in a call sequence. -/
def releases (filename : String) (calls : List CacheCall) : Nat :=
  calls.countP (fun c => match c with
    | .acquire _ _ _ _ => false
    | .release f => decide (f = filename))

/-- The check `P pre c` holds at every call `c` of the sequence, where `pre`
is the list of calls made before `c` (starting with the calls `pre` already
made). -/
def everyCall (P : List CacheCall → CacheCall → Bool) (pre : List CacheCall) :
    List CacheCall → Bool
  | [] => true
  | c :: rest => P pre c && everyCall P (pre ++ [c]) rest

/-- A release of `filename` is preceded by an unmatched acquire of it: more
acquires than releases of `filename` were made before. Acquires pass. -/
def releaseMatched (pre : List CacheCall) : CacheCall → Bool
  | .acquire _ _ _ _ => true
  | .release f => decide (releases f pre < acquires f pre)

/-- An acquire is successful: made in the state the earlier calls lead to, it
returns a model rather than `NULL`. Releases pass. -/
def acquireSucceeds (pre : List CacheCall) : CacheCall → Bool
  | .acquire fs basepath f flags =>
    decide ((acquireModelInstance fs (runCalls pre) basepath f flags).ret ≠ NULL)
  | .release _ => true

/-- The state invariant of the model cache: one entry per file name, each
with a reference count of at least 1. -/
def RefsPositive (vm : ModelCache) : Prop :=
  (StdMap.keys vm.iLoadedModelFiles).Nodup ∧ ∀ e ∈ vm.iLoadedModelFiles, 1 ≤ e.2.iRefCount

/-- The reference counts agree with the call history `pre`: for every file
name the releases do not outnumber the acquires, the cache has no entry
exactly when both numbers are equal, and an entry carries their difference. -/
def CountsMatch (pre : List CacheCall) : Prop :=
  ∀ f : String, releases f pre ≤ acquires f pre ∧
    (StdMap.find f (runCalls pre).iLoadedModelFiles = none ↔ acquires f pre = releases f pre) ∧
    ∀ m, StdMap.find f (runCalls pre).iLoadedModelFiles = some m →
      m.iRefCount = (acquires f pre : Int) - (releases f pre : Int)

/-- A file system holding the single model file `vmaps/tree.vmo`. -/
def sampleFs : FileSystem := fun path => if path = "vmaps/tree.vmo" then some [1, 2, 3] else none

/-! ## IEEE 754 binary32 arithmetic

`float` is IEEE 754 binary32 and every operation is rounded to nearest, ties
to even, in binary32 (no excess precision), as on the x86-64 and ARM ABIs. -/

/-- A binary32 value. A finite value is a sign bit and a magnitude counted in
units of `2^-149`, the smallest positive subnormal: every finite binary32
value is a whole number of such units. -/
inductive F32 where
  | finite (neg : Bool) (mag : Nat)
  | inf (neg : Bool)
  | nan
  deriving DecidableEq

/-- Position of the leading one bit of `n` (`0` for `n < 2`), by halving. -/
def ilog2Aux : Nat → Nat → Nat
  | 0, _ => 0
  | fuel + 1, n => if n < 2 then 0 else 1 + ilog2Aux fuel (n / 2)

/-- The integer binary logarithm `⌊log₂ n⌋` of a positive `n`. -/
def ilog2 (n : Nat) : Nat := ilog2Aux n n

/-- Round the non-negative rational `a / b` units to the nearest binary32
magnitude, ties to even: the result keeps 24 significant bits, so it is a
multiple of `2^s` units with `s = ⌊log₂ (a / b)⌋ - 23` (and `s = 0` in the
subnormal and lowest normal range). `none` is overflow: the rounded value is
`2^128` or more. -/
def roundUnits (a b : Nat) : Option Nat :=
  let s := ilog2 (a / b) - 23
  let q := a / (b * 2 ^ s)
  let r := a % (b * 2 ^ s)
  let q' := if b * 2 ^ s < 2 * r ∨ (2 * r = b * 2 ^ s ∧ q % 2 = 1) then q + 1 else q
  if q' * 2 ^ s < 2 ^ 128 * 2 ^ 149 then some (q' * 2 ^ s) else none

namespace F32

/-- The value of a finite binary32 in units of `2^-149`. -/
def signed (neg : Bool) (mag : Nat) : Int := if neg then -(mag : Int) else (mag : Int)

/-- The value in units of `2^-149`; `none` for infinities and NaN. -/
def units : F32 → Option Int
  | finite neg mag => some (signed neg mag)
  | _ => none

/-- The binary32 with the given sign for a rounded magnitude; overflow gives
an infinity. -/
def ofRounded (neg : Bool) : Option Nat → F32
  | some mag => finite neg mag
  | none => inf neg

/-- A non-negative decimal literal `num / den` with suffix `f`: the nearest
binary32. -/
def lit (num den : Nat) : F32 := ofRounded false (roundUnits (num * 2 ^ 149) den)

/-- The binary32 difference `a - b`. -/
def sub : F32 → F32 → F32
  | finite na ma, finite nb mb =>
    let d : Int := signed na ma - signed nb mb
    if d = 0 then finite (na && !nb) 0
    else ofRounded (decide (d < 0)) (roundUnits d.natAbs 1)
  | finite _ _, inf b => inf (!b)
  | inf a, finite _ _ => inf a
  | inf a, inf b => if a = b then nan else inf a
  | _, _ => nan

/-- The binary32 product `a * b`. -/
def mul : F32 → F32 → F32
  | finite na ma, finite nb mb =>
    if ma * mb = 0 then finite (xor na nb) 0
    else ofRounded (xor na nb) (roundUnits (ma * mb) (2 ^ 149))
  | finite na ma, inf b => if ma = 0 then nan else inf (xor na b)
  | inf a, finite nb mb => if mb = 0 then nan else inf (xor a nb)
  | inf a, inf b => inf (xor a b)
  | _, _ => nan

/-- A finite value whose magnitude is a binary32 magnitude: rounding leaves
it as it is. -/
def Representable : F32 → Prop
  | finite _ mag => roundUnits mag 1 = some mag
  | _ => False

instance decRepresentable : (f : F32) → Decidable f.Representable
  | finite _ mag => inferInstanceAs (Decidable (roundUnits mag 1 = some mag))
  | inf _ => isFalse (fun h => h)
  | nan => isFalse (fun h => h)

/-- The subtraction `a - b` involves no rounding: both operands and the
result are finite and the result is the exact difference. -/
def SubExact (a b : F32) : Prop :=
  ∃ va vb : Int, a.units = some va ∧ b.units = some vb ∧ (sub a b).units = some (va - vb)

end F32

/-- The class `G3D::Vector3`, as far as used here: three `float` members. -/
structure Vector3 where
  x : F32
  y : F32
  z : F32
  deriving DecidableEq

/-- The literal `533.33333333f`. -/
def tileSize : F32 := F32.lit 53333333333 100000000

/-- The constant `mid = 0.5f * 64.0f * 533.33333333f` of
`convertPositionToInternalRep`. -/
def mid : F32 := F32.mul (F32.mul (F32.lit 5 10) (F32.lit 64 1)) tileSize

/-- The method `VMapManager2::convertPositionToInternalRep`. -/
def convertPositionToInternalRep (x y z : F32) : Vector3 :=
  let mid : F32 := F32.mul (F32.mul (F32.lit 5 10) (F32.lit 64 1)) (F32.lit 53333333333 100000000)
  { x := F32.sub mid x, y := F32.sub mid y, z := z }

/-! ## Loading maps -/

/-- The enumeration `VMAPLoadResult` returned by `loadMap`. -/
inductive VMAPLoadResult where
  | VMAP_LOAD_RESULT_ERROR
  | VMAP_LOAD_RESULT_OK
  | VMAP_LOAD_RESULT_IGNORED
  deriving DecidableEq

/-- Modelled from the spec: class `StaticMapTree` (`MapTree.h`) is not among
the sources. The Tile Index of one map is kept abstract: a type `Tree` of
index states and the member functions `VMapManager2.cpp` calls on it. The
spec lets the Tile Index reach the manager only through the Model Cache
(`loadTile` acquires, `unloadTile` releases), so a member that is handed the
manager pointer maps a `ModelCache` to a `ModelCache`; the `Bool` is the
C++ return value. -/
structure StaticMapTreeOps (Tree : Type) where
  /-- The constructor `StaticMapTree(mapId, basePath)`. -/
  create : Nat → String → Tree
  /-- The call `tree->InitMap(fname, vm)`. -/
  InitMap : Tree → String → ModelCache → Bool × Tree × ModelCache
  /-- The call `tree->LoadMapTile(tileX, tileY, vm)`. -/
  LoadMapTile : Tree → Nat → Nat → ModelCache → Bool × Tree × ModelCache
  /-- The call `tree->UnloadMap(vm)`. -/
  UnloadMap : Tree → ModelCache → Tree × ModelCache
  /-- The call `tree->UnloadMapTile(x, y, vm)`. -/
  UnloadMapTile : Tree → Int → Int → ModelCache → Tree × ModelCache
  /-- The call `tree->numLoadedTiles()`. -/
  numLoadedTiles : Tree → Nat

/-- The state of a `VMapManager2`: the registry `iInstanceMapTrees` (the
trees are held by value; no method compares tree pointers) and the model
cache. -/
structure VMapManager2 (Tree : Type) where
  iInstanceMapTrees : StdMap Nat Tree := []
  models : ModelCache := {}

/-- Conversion of an `int` argument to a `uint32` parameter. -/
def toUInt32 (x : Int) : Nat := (x % 2 ^ 32).toNat

/-- The method `VMapManager2::getMapFileName`: the stream has width 3 and fill
character `0` when the map id is written; `ext` is the constant
`MAP_FILENAME_EXTENSION2` (`VMapDefinitions.h`, not among the sources). -/
def getMapFileName (ext : String) (pMapId : Nat) : String :=
  let digits := Nat.repr pMapId
  String.mk (List.replicate (3 - digits.length) '0') ++ digits ++ ext

section

variable {Tree : Type}

/-- The last statement of `_loadMap`,
`return instanceTree->second->LoadMapTile(tileX, tileY, this);`, for the
registered tree `tree` of `pMapId`. -/
def loadMapTileOf (T : StaticMapTreeOps Tree) (vm : VMapManager2 Tree) (pMapId : Nat)
    (tree : Tree) (tileX tileY : Nat) : Bool × VMapManager2 Tree :=
  let r := T.LoadMapTile tree tileX tileY vm.models
  (r.1, { iInstanceMapTrees := StdMap.modify pMapId (fun _ => r.2.1) vm.iInstanceMapTrees,
          models := r.2.2 })

/-- The method `VMapManager2::_loadMap`. -/
def _loadMap (T : StaticMapTreeOps Tree) (ext : String) (vm : VMapManager2 Tree)
    (pMapId : Nat) (basePath : String) (tileX tileY : Nat) : Bool × VMapManager2 Tree :=
  match StdMap.find pMapId vm.iInstanceMapTrees with
  | none =>
    let mapFileName := getMapFileName ext pMapId
    let newTree := T.create pMapId basePath
    let init := T.InitMap newTree mapFileName vm.models
    if !init.1 then
      (false, { vm with models := init.2.2 })
    else
      loadMapTileOf T
        { iInstanceMapTrees := StdMap.insert pMapId init.2.1 vm.iInstanceMapTrees,
          models := init.2.2 }
        pMapId init.2.1 tileX tileY
  | some tree => loadMapTileOf T vm pMapId tree tileX tileY

/-- The method `VMapManager2::loadMap`; `isMapLoadingEnabled` is the value of
the inherited getter of that name. -/
def loadMap (T : StaticMapTreeOps Tree) (ext : String) (isMapLoadingEnabled : Bool)
    (vm : VMapManager2 Tree) (pBasePath : String) (pMapId : Nat) (x y : Int) :
    VMAPLoadResult × VMapManager2 Tree :=
  if isMapLoadingEnabled then
    let r := _loadMap T ext vm pMapId pBasePath (toUInt32 x) (toUInt32 y)
    if r.1 then (.VMAP_LOAD_RESULT_OK, r.2) else (.VMAP_LOAD_RESULT_ERROR, r.2)
  else
    (.VMAP_LOAD_RESULT_IGNORED, vm)

/-- The tail of both `unloadMap` overloads: erase the tree of `pMapId` when
it reports no loaded tiles. -/
def eraseIfEmpty (T : StaticMapTreeOps Tree) (pMapId : Nat) (r : Tree × ModelCache)
    (vm : VMapManager2 Tree) : VMapManager2 Tree :=
  if T.numLoadedTiles r.1 = 0 then
    { iInstanceMapTrees := StdMap.erase pMapId vm.iInstanceMapTrees, models := r.2 }
  else
    { iInstanceMapTrees := StdMap.modify pMapId (fun _ => r.1) vm.iInstanceMapTrees,
      models := r.2 }

/-- The method `VMapManager2::unloadMap(unsigned int pMapId)`. -/
def unloadMap (T : StaticMapTreeOps Tree) (vm : VMapManager2 Tree) (pMapId : Nat) :
    VMapManager2 Tree :=
  match StdMap.find pMapId vm.iInstanceMapTrees with
  | none => vm
  | some tree => eraseIfEmpty T pMapId (T.UnloadMap tree vm.models) vm

/-- The method `VMapManager2::unloadMap(unsigned int pMapId, int x, int y)`. -/
def unloadMapTile (T : StaticMapTreeOps Tree) (vm : VMapManager2 Tree) (pMapId : Nat)
    (x y : Int) : VMapManager2 Tree :=
  match StdMap.find pMapId vm.iInstanceMapTrees with
  | none => vm
  | some tree => eraseIfEmpty T pMapId (T.UnloadMapTile tree x y vm.models) vm

end

/-- A small Tile Index for exercising the manager: the state is the list of
loaded tiles. Only the map file `000.vmtree` can be initialised, a tile loads
when both coordinates are below 64 and its model `tree` can be acquired, and
unloading releases one reference per tile. -/
def sampleTreeOps : StaticMapTreeOps (List (Nat × Nat)) where
  create := fun _ _ => []
  InitMap := fun t fname models => (decide (fname = "000.vmtree"), t, models)
  LoadMapTile := fun t tileX tileY models =>
    if tileX < 64 ∧ tileY < 64 then
      let r := acquireModelInstance sampleFs models "vmaps/" "tree" 0
      if r.ret = NULL then (false, t, r.vm) else (true, (tileX, tileY) :: t, r.vm)
    else (false, t, models)
  UnloadMap := fun t models =>
    ([], t.foldl (fun m _ => (releaseModelInstance m "tree").vm) models)
  UnloadMapTile := fun t x y models =>
    if (toUInt32 x, toUInt32 y) ∈ t then
      (t.filter (fun e => decide (e ≠ (toUInt32 x, toUInt32 y))),
        (releaseModelInstance models "tree").vm)
    else (t, models)
  numLoadedTiles := fun t => t.length

/-! ## Queries -/

namespace F32

/-- The comparison `a < b` of two `float`s; false when either is NaN. -/
def lt : F32 → F32 → Bool
  | finite na ma, finite nb mb => decide (signed na ma < signed nb mb)
  | finite _ _, inf b => !b
  | inf a, finite _ _ => a
  | inf a, inf b => a && !b
  | _, _ => false

/-- The comparison `a != b` of two `float`s; true when either is NaN, false
for the two zeros. -/
def ne : F32 → F32 → Bool
  | finite na ma, finite nb mb => decide (signed na ma ≠ signed nb mb)
  | finite _ _, inf _ => true
  | inf _, finite _ _ => true
  | inf a, inf b => a != b
  | _, _ => true

/-- The real value of a finite binary32, as a rational. -/
def toRat : F32 → Option ℚ
  | finite neg mag => some ((signed neg mag : ℚ) / 2 ^ 149)
  | _ => none

end F32

/-- The function `G3D::inf()`: positive infinity. -/
def G3D_inf : F32 := .inf false

/-- The default constructor `Vector3()`: all members zero. -/
def Vector3.zero : Vector3 := { x := .finite false 0, y := .finite false 0, z := .finite false 0 }

/-- The operator `Vector3::operator!=` of G3D: some member differs. -/
def Vector3.ne (a b : Vector3) : Bool := a.x.ne b.x || a.y.ne b.y || a.z.ne b.z

/-- The kinds of per-map disabling asked of `IsVMAPDisabledForPtr`. -/
inductive DisableTypes where
  | VMAP_DISABLE_AREAFLAG
  | VMAP_DISABLE_HEIGHT
  | VMAP_DISABLE_LOS
  | VMAP_DISABLE_LIQUIDSTATUS
  deriving DecidableEq

/-- The configuration the query methods read: the inherited getters
`isLineOfSightCalcEnabled()` and `isHeightCalcEnabled()`, the callback
`IsVMAPDisabledForPtr(mapId, kind)` and the constant `VMAP_INVALID_HEIGHT_VALUE`
(all declared in headers that are not among the sources, so they are
parameters). -/
structure QueryConfig where
  isLineOfSightCalcEnabled : Bool
  isHeightCalcEnabled : Bool
  IsVMAPDisabledForPtr : Nat → DisableTypes → Bool
  VMAP_INVALID_HEIGHT_VALUE : F32

/-- The output parameters `flags`, `adtId`, `rootId`, `groupId` of
`getAreaInfo`. -/
structure AreaIds where
  flags : Nat
  adtId : Int
  rootId : Int
  groupId : Int
  deriving DecidableEq

/-- Modelled from the spec: the query members of class `StaticMapTree` and of
the `LocationInfo` it fills (`MapTree.h`, not among the sources). They are
read-only (the spec calls the query primitives pure) and receive no manager
pointer. Reference parameters are passed in and returned: `getObjectHitPos`
gets the default-constructed `resultPos`, `getAreaInfo` gets `pos` and the
four ids, `GetLiquidLevel` gets `level`. `Info` is a filled `LocationInfo`:
`ground_Z` is its member, `GetLiquidType` is `info.hitModel->GetLiquidType()`
and `GetLiquidLevel` is `info.hitInstance->GetLiquidLevel(pos, info, level)`. -/
structure StaticMapTreeQueries (Tree Info : Type) where
  isInLineOfSight : Tree → Vector3 → Vector3 → Bool
  getObjectHitPos : Tree → Vector3 → Vector3 → Vector3 → F32 → Bool × Vector3
  getHeight : Tree → Vector3 → F32 → F32
  getAreaInfo : Tree → Vector3 → AreaIds → Bool × Vector3 × AreaIds
  GetLocationInfo : Tree → Vector3 → Option Info
  ground_Z : Info → F32
  GetLiquidType : Info → Nat
  GetLiquidLevel : Info → Vector3 → F32 → Bool × F32

/-- What `getObjectHitPos` hands back: the return value and `rx`, `ry`, `rz`. -/
structure HitPos where
  result : Bool
  rx : F32
  ry : F32
  rz : F32
  deriving DecidableEq

/-- What `getAreaInfo` hands back: the return value, `z` and the four ids. -/
structure AreaInfo where
  result : Bool
  z : F32
  ids : AreaIds
  deriving DecidableEq

/-- What `GetLiquidLevel` hands back: the return value and `level`, `floor`,
`type`. -/
structure LiquidLevel where
  result : Bool
  level : F32
  floor : F32
  type : Nat
  deriving DecidableEq

section

variable {Tree Info : Type}

/-- The method `VMapManager2::isInLineOfSight`. -/
def isInLineOfSight (Q : StaticMapTreeQueries Tree Info) (cfg : QueryConfig)
    (vm : VMapManager2 Tree) (pMapId : Nat) (x1 y1 z1 x2 y2 z2 : F32) : Bool :=
  if !cfg.isLineOfSightCalcEnabled || cfg.IsVMAPDisabledForPtr pMapId .VMAP_DISABLE_LOS then
    true
  else
    match StdMap.find pMapId vm.iInstanceMapTrees with
    | some tree =>
      let pos1 := convertPositionToInternalRep x1 y1 z1
      let pos2 := convertPositionToInternalRep x2 y2 z2
      if Vector3.ne pos1 pos2 then Q.isInLineOfSight tree pos1 pos2 else true
    | none => true

/-- The method `VMapManager2::getObjectHitPos`. -/
def getObjectHitPos (Q : StaticMapTreeQueries Tree Info) (cfg : QueryConfig)
    (vm : VMapManager2 Tree) (pMapId : Nat) (x1 y1 z1 x2 y2 z2 : F32) (pModifyDist : F32) :
    HitPos :=
  if cfg.isLineOfSightCalcEnabled && !cfg.IsVMAPDisabledForPtr pMapId .VMAP_DISABLE_LOS then
    match StdMap.find pMapId vm.iInstanceMapTrees with
    | some tree =>
      let pos1 := convertPositionToInternalRep x1 y1 z1
      let pos2 := convertPositionToInternalRep x2 y2 z2
      let r := Q.getObjectHitPos tree pos1 pos2 Vector3.zero pModifyDist
      let resultPos := convertPositionToInternalRep r.2.x r.2.y r.2.z
      { result := r.1, rx := resultPos.x, ry := resultPos.y, rz := resultPos.z }
    | none => { result := false, rx := x2, ry := y2, rz := z2 }
  else
    { result := false, rx := x2, ry := y2, rz := z2 }

/-- The method `VMapManager2::getHeight`. -/
def getHeight (Q : StaticMapTreeQueries Tree Info) (cfg : QueryConfig)
    (vm : VMapManager2 Tree) (pMapId : Nat) (x y z : F32) (maxSearchDist : F32) : F32 :=
  if cfg.isHeightCalcEnabled && !cfg.IsVMAPDisabledForPtr pMapId .VMAP_DISABLE_HEIGHT then
    match StdMap.find pMapId vm.iInstanceMapTrees with
    | some tree =>
      let pos := convertPositionToInternalRep x y z
      let height := Q.getHeight tree pos maxSearchDist
      if !(F32.lt height G3D_inf) then cfg.VMAP_INVALID_HEIGHT_VALUE else height
    | none => cfg.VMAP_INVALID_HEIGHT_VALUE
  else
    cfg.VMAP_INVALID_HEIGHT_VALUE

/-- The method `VMapManager2::getAreaInfo`. -/
def getAreaInfo (Q : StaticMapTreeQueries Tree Info) (cfg : QueryConfig)
    (vm : VMapManager2 Tree) (pMapId : Nat) (x y z : F32) (ids : AreaIds) : AreaInfo :=
  if !cfg.IsVMAPDisabledForPtr pMapId .VMAP_DISABLE_AREAFLAG then
    match StdMap.find pMapId vm.iInstanceMapTrees with
    | some tree =>
      let pos := convertPositionToInternalRep x y z
      let r := Q.getAreaInfo tree pos ids
      { result := r.1, z := r.2.1.z, ids := r.2.2 }
    | none => { result := false, z := z, ids := ids }
  else
    { result := false, z := z, ids := ids }

/-- The method `VMapManager2::GetLiquidLevel`. -/
def GetLiquidLevel (Q : StaticMapTreeQueries Tree Info) (cfg : QueryConfig)
    (vm : VMapManager2 Tree) (pMapId : Nat) (x y z : F32) (ReqLiquidType : Nat)
    (level floor : F32) (type : Nat) : LiquidLevel :=
  if !cfg.IsVMAPDisabledForPtr pMapId .VMAP_DISABLE_LIQUIDSTATUS then
    match StdMap.find pMapId vm.iInstanceMapTrees with
    | some tree =>
      let pos := convertPositionToInternalRep x y z
      match Q.GetLocationInfo tree pos with
      | some info =>
        let floor' := Q.ground_Z info
        let type' := Q.GetLiquidType info
        if ReqLiquidType ≠ 0 ∧ type' &&& ReqLiquidType = 0 then
          { result := false, level := level, floor := floor', type := type' }
        else
          let r := Q.GetLiquidLevel info pos level
          { result := r.1, level := r.2, floor := floor', type := type' }
      | none => { result := false, level := level, floor := floor, type := type }
    | none => { result := false, level := level, floor := floor, type := type }
  else
    { result := false, level := level, floor := floor, type := type }

end

/-! ### The line-of-sight contract of the Tile Index -/

/-- A point of space with rational coordinates. -/
structure Point3 where
  x : ℚ
  y : ℚ
  z : ℚ

/-- A triangle of the static geometry. -/
structure Triangle where
  v0 : Point3
  v1 : Point3
  v2 : Point3

/-- The point a `Vector3` with finite members stands for. -/
def Vector3.point (v : Vector3) : Option Point3 :=
  match v.x.toRat, v.y.toRat, v.z.toRat with
  | some x, some y, some z => some { x := x, y := y, z := z }
  | _, _, _ => none

/-- The segment from `p` to `q` and the triangle `tri` have a point in common:
some point `p + t (q - p)` with `0 ≤ t ≤ 1` is a point
`v0 + u (v1 - v0) + v (v2 - v0)` with `0 ≤ u`, `0 ≤ v`, `u + v ≤ 1`. -/
def Triangle.meetsSegment (tri : Triangle) (p q : Point3) : Prop :=
  ∃ t u v : ℚ, 0 ≤ t ∧ t ≤ 1 ∧ 0 ≤ u ∧ 0 ≤ v ∧ u + v ≤ 1 ∧
    p.x + t * (q.x - p.x) = tri.v0.x + u * (tri.v1.x - tri.v0.x) + v * (tri.v2.x - tri.v0.x) ∧
    p.y + t * (q.y - p.y) = tri.v0.y + u * (tri.v1.y - tri.v0.y) + v * (tri.v2.y - tri.v0.y) ∧
    p.z + t * (q.z - p.z) = tri.v0.z + u * (tri.v1.z - tri.v0.z) + v * (tri.v2.z - tri.v0.z)

/-- Modelled from the spec: `StaticMapTree::isInLineOfSight` (`MapTree.cpp`)
is not among the sources. The spec gives its contract: the answer is `true`
iff no blocking triangle intersects the segment between the two points.
`blocking tree` is the set of blocking triangles of the loaded geometry. -/
def LineOfSightContract {Tree Info : Type} (Q : StaticMapTreeQueries Tree Info)
    (blocking : Tree → List Triangle) : Prop :=
  ∀ (tree : Tree) (a b : Vector3),
    Q.isInLineOfSight tree a b = true ↔
      ¬ ∃ tri ∈ blocking tree, ∃ p q, a.point = some p ∧ b.point = some q ∧
        tri.meetsSegment p q

/-- The query side of a Tile Index without geometry below the queried
points: nothing blocks, no hit (the destination is reported as result), the
height is `G3D::inf()`, no area and no location info. -/
def sampleTreeQueries : StaticMapTreeQueries (List (Nat × Nat)) Unit where
  isInLineOfSight := fun _ _ _ => true
  getObjectHitPos := fun _ _ pos2 _ _ => (false, pos2)
  getHeight := fun _ _ _ => G3D_inf
  getAreaInfo := fun _ pos ids => (false, pos, ids)
  GetLocationInfo := fun _ _ => none
  ground_Z := fun _ => .finite false 0
  GetLiquidType := fun _ => 0
  GetLiquidLevel := fun _ _ level => (false, level)

/-- A configuration with every calculation enabled and no map disabled; the
invalid height is `-200000.0f`. -/
def sampleConfig : QueryConfig where
  isLineOfSightCalcEnabled := true
  isHeightCalcEnabled := true
  IsVMAPDisabledForPtr := fun _ _ => false
  VMAP_INVALID_HEIGHT_VALUE := .finite true (200000 * 2 ^ 149)

/-- The value a string of decimal digits stands for. -/
def decimalValue (digits : List Char) : Nat :=
  digits.foldl (fun acc c => 10 * acc + (c.toNat - 48)) 0

/-! ### A Tile Index with floor geometry -/

/-- The members of a `Vector3` with finite members, in units of `2^-149`. -/
def Vector3.units (v : Vector3) : Option (Int × Int × Int) :=
  match v.x.units, v.y.units, v.z.units with
  | some x, some y, some z => some (x, y, z)
  | _, _, _ => none

/-- Whether the constraints `0 ≤ c.1 + c.2 * t` on a rational parameter `t`
have a common solution: every constraint without `t` holds, and every lower
bound for `t` is at most every upper bound. -/
def feasible (cs : List (Int × Int)) : Bool :=
  cs.all fun c1 =>
    decide (c1.2 = 0 → 0 ≤ c1.1) &&
    cs.all fun c2 => decide (0 < c1.2 → c2.2 < 0 → 0 ≤ c1.2 * c2.1 - c2.2 * c1.1)

/-- A piece of floor: the horizontal right triangle with the right angle at
`(cx, cy, cz)` and legs of length `w` along the x axis and `h` along the y
axis, all whole numbers. -/
structure FloorTriangle where
  cx : Int
  cy : Int
  cz : Int
  w : Int
  h : Int
  w_pos : 0 < w
  h_pos : 0 < h

/-- The triangle a piece of floor stands for. -/
def FloorTriangle.triangle (f : FloorTriangle) : Triangle :=
  { v0 := { x := f.cx, y := f.cy, z := f.cz },
    v1 := { x := f.cx + f.w, y := f.cy, z := f.cz },
    v2 := { x := f.cx, y := f.cy + f.h, z := f.cz } }

/-- The conditions on the parameter `t` under which the point `p + t (q - p)`
of the segment lies in the piece of floor, each as `0 ≤ a + b * t`: `0 ≤ t`,
`t ≤ 1`, the height is that of the floor (two conditions), and the point is
on the inner side of the two legs and of the hypotenuse. The points are given
in units of `2^-149`, and the last five conditions are scaled by `2^149`. -/
def FloorTriangle.constraints (f : FloorTriangle) (p q : Int × Int × Int) :
    List (Int × Int) :=
  [(0, 1), (1, -1),
   (p.2.2 - f.cz * 2 ^ 149, q.2.2 - p.2.2),
   (f.cz * 2 ^ 149 - p.2.2, p.2.2 - q.2.2),
   (p.1 - f.cx * 2 ^ 149, q.1 - p.1),
   (p.2.1 - f.cy * 2 ^ 149, q.2.1 - p.2.1),
   (f.w * f.h * 2 ^ 149 - f.h * (p.1 - f.cx * 2 ^ 149) - f.w * (p.2.1 - f.cy * 2 ^ 149),
    -(f.h * (q.1 - p.1) + f.w * (q.2.1 - p.2.1)))]

/-- Whether the segment from `p` to `q` meets the piece of floor. -/
def FloorTriangle.blocks (f : FloorTriangle) (p q : Int × Int × Int) : Bool :=
  feasible (f.constraints p q)

/-- Modelled from the spec: the query side of a Tile Index whose loaded
geometry is a list of floor pieces (`MapTree.cpp` is not among the sources).
`isInLineOfSight` follows the spec: `true` iff no triangle meets the segment
between the two points; the other members are those of a Tile Index that
finds nothing. -/
def floorTreeQueries : StaticMapTreeQueries (List FloorTriangle) Unit where
  isInLineOfSight := fun tree a b =>
    match a.units, b.units with
    | some p, some q => !tree.any (fun f => f.blocks p q)
    | _, _ => true
  getObjectHitPos := fun _ _ pos2 _ _ => (false, pos2)
  getHeight := fun _ _ _ => G3D_inf
  getAreaInfo := fun _ pos ids => (false, pos, ids)
  GetLocationInfo := fun _ _ => none
  ground_Z := fun _ => .finite false 0
  GetLiquidType := fun _ => 0
  GetLiquidLevel := fun _ _ level => (false, level)

/-- A floor at height 0 in internal coordinates; the world points with `x`
and `y` between 0 and 60 lie above or below it. -/
def sampleFloor : FloorTriangle where
  cx := 17000
  cy := 17000
  cz := 0
  w := 1000
  h := 1000
  w_pos := by decide
  h_pos := by decide

/-! ### Sequences of load and unload calls -/

/-- One load or unload call on the manager; a load carries the value of
`isMapLoadingEnabled()` at that call. -/
inductive MapCall where
  | load (isMapLoadingEnabled : Bool) (pBasePath : String) (pMapId : Nat) (x y : Int)
  | unload (pMapId : Nat)
  | unloadTile (pMapId : Nat) (x y : Int)

/-- The manager state after one call. -/
def MapCall.apply {Tree : Type} (T : StaticMapTreeOps Tree) (ext : String)
    (vm : VMapManager2 Tree) : MapCall → VMapManager2 Tree
  | .load enabled pBasePath pMapId x y => (loadMap T ext enabled vm pBasePath pMapId x y).2
  | .unload pMapId => unloadMap T vm pMapId
  | .unloadTile pMapId x y => unloadMapTile T vm pMapId x y

/-- The manager state after a sequence of calls, first call first. -/
def runMapCalls {Tree : Type} (T : StaticMapTreeOps Tree) (ext : String)
    (vm : VMapManager2 Tree) (calls : List MapCall) : VMapManager2 Tree :=
  calls.foldl (MapCall.apply T ext) vm

/-- The call is a `loadMap` of map `mapId`. -/
def MapCall.loads (mapId : Nat) : MapCall → Bool
  | .load _ _ pMapId _ _ => decide (pMapId = mapId)
  | _ => false

/-- Modelled from the spec: `MapTree.cpp` is not among the sources, so what the
members of `StaticMapTree` do to the number of loaded tiles is taken from the
spec of the Tile Index. A tile is created by a load operation, so a newly
constructed index has none; `initMap` loads the routing structure without
loading tile geometry; `loadTile` fails without partial insertion. -/
def TileIndexContract {Tree : Type} (T : StaticMapTreeOps Tree) : Prop :=
  (∀ mapId basePath, T.numLoadedTiles (T.create mapId basePath) = 0) ∧
  (∀ tree fname models,
    T.numLoadedTiles (T.InitMap tree fname models).2.1 = T.numLoadedTiles tree) ∧
  (∀ tree tileX tileY models, (T.LoadMapTile tree tileX tileY models).1 = false →
    T.numLoadedTiles (T.LoadMapTile tree tileX tileY models).2.1 = T.numLoadedTiles tree)

/-! ### The query methods as calls on the manager object -/

/-- Modelled from the spec: the query members of class `StaticMapTree` as
calls through the pointer the registry holds. `MapTree.h` is not among the
sources, so it is not visible which members are `const`; each call gives its
result and the Tile Index after the call. No member is handed the manager.
The members of a filled `LocationInfo` are those of `StaticMapTreeQueries`. -/
structure StaticMapTreeCalls (Tree Info : Type) where
  isInLineOfSight : Tree → Vector3 → Vector3 → Bool × Tree
  getObjectHitPos : Tree → Vector3 → Vector3 → Vector3 → F32 → (Bool × Vector3) × Tree
  getHeight : Tree → Vector3 → F32 → F32 × Tree
  getAreaInfo : Tree → Vector3 → AreaIds → (Bool × Vector3 × AreaIds) × Tree
  GetLocationInfo : Tree → Vector3 → Option Info × Tree
  ground_Z : Info → F32
  GetLiquidType : Info → Nat
  GetLiquidLevel : Info → Vector3 → F32 → Bool × F32

/-- The results of the member calls, without the Tile Index after them. -/
def StaticMapTreeCalls.results {Tree Info : Type} (C : StaticMapTreeCalls Tree Info) :
    StaticMapTreeQueries Tree Info where
  isInLineOfSight := fun tree pos1 pos2 => (C.isInLineOfSight tree pos1 pos2).1
  getObjectHitPos := fun tree pos1 pos2 resultPos pModifyDist =>
    (C.getObjectHitPos tree pos1 pos2 resultPos pModifyDist).1
  getHeight := fun tree pos maxSearchDist => (C.getHeight tree pos maxSearchDist).1
  getAreaInfo := fun tree pos ids => (C.getAreaInfo tree pos ids).1
  GetLocationInfo := fun tree pos => (C.GetLocationInfo tree pos).1
  ground_Z := C.ground_Z
  GetLiquidType := C.GetLiquidType
  GetLiquidLevel := C.GetLiquidLevel

/-- Read-only query members, as the spec describes them, seen as calls: the
Tile Index after the call is the one before. -/
def StaticMapTreeQueries.calls {Tree Info : Type} (Q : StaticMapTreeQueries Tree Info) :
    StaticMapTreeCalls Tree Info where
  isInLineOfSight := fun tree pos1 pos2 => (Q.isInLineOfSight tree pos1 pos2, tree)
  getObjectHitPos := fun tree pos1 pos2 resultPos pModifyDist =>
    (Q.getObjectHitPos tree pos1 pos2 resultPos pModifyDist, tree)
  getHeight := fun tree pos maxSearchDist => (Q.getHeight tree pos maxSearchDist, tree)
  getAreaInfo := fun tree pos ids => (Q.getAreaInfo tree pos ids, tree)
  GetLocationInfo := fun tree pos => (Q.GetLocationInfo tree pos, tree)
  ground_Z := Q.ground_Z
  GetLiquidType := Q.GetLiquidType
  GetLiquidLevel := Q.GetLiquidLevel

section

variable {Tree Info : Type}

/-- The manager after a member call through `instanceTree->second` left the
Tile Index of `pMapId` as `tree`: the registry holds the pointer, so its entry
shows the index after the call. -/
def afterTreeCall (vm : VMapManager2 Tree) (pMapId : Nat) (tree : Tree) : VMapManager2 Tree :=
  { vm with iInstanceMapTrees := StdMap.modify pMapId (fun _ => tree) vm.iInstanceMapTrees }

/-- The method `VMapManager2::isInLineOfSight` as a call on the manager
object: the return value and the manager after the call. -/
def VMapManager2.isInLineOfSight (C : StaticMapTreeCalls Tree Info) (cfg : QueryConfig)
    (vm : VMapManager2 Tree) (pMapId : Nat) (x1 y1 z1 x2 y2 z2 : F32) :
    Bool × VMapManager2 Tree :=
  if !cfg.isLineOfSightCalcEnabled || cfg.IsVMAPDisabledForPtr pMapId .VMAP_DISABLE_LOS then
    (true, vm)
  else
    match StdMap.find pMapId vm.iInstanceMapTrees with
    | some tree =>
      let pos1 := convertPositionToInternalRep x1 y1 z1
      let pos2 := convertPositionToInternalRep x2 y2 z2
      if Vector3.ne pos1 pos2 then
        let r := C.isInLineOfSight tree pos1 pos2
        (r.1, afterTreeCall vm pMapId r.2)
      else (true, vm)
    | none => (true, vm)

/-- The method `VMapManager2::getObjectHitPos` as a call on the manager
object. -/
def VMapManager2.getObjectHitPos (C : StaticMapTreeCalls Tree Info) (cfg : QueryConfig)
    (vm : VMapManager2 Tree) (pMapId : Nat) (x1 y1 z1 x2 y2 z2 : F32) (pModifyDist : F32) :
    HitPos × VMapManager2 Tree :=
  if cfg.isLineOfSightCalcEnabled && !cfg.IsVMAPDisabledForPtr pMapId .VMAP_DISABLE_LOS then
    match StdMap.find pMapId vm.iInstanceMapTrees with
    | some tree =>
      let pos1 := convertPositionToInternalRep x1 y1 z1
      let pos2 := convertPositionToInternalRep x2 y2 z2
      let r := C.getObjectHitPos tree pos1 pos2 Vector3.zero pModifyDist
      let resultPos := convertPositionToInternalRep r.1.2.x r.1.2.y r.1.2.z
      ({ result := r.1.1, rx := resultPos.x, ry := resultPos.y, rz := resultPos.z },
       afterTreeCall vm pMapId r.2)
    | none => ({ result := false, rx := x2, ry := y2, rz := z2 }, vm)
  else
    ({ result := false, rx := x2, ry := y2, rz := z2 }, vm)

/-- The method `VMapManager2::getHeight` as a call on the manager object. -/
def VMapManager2.getHeight (C : StaticMapTreeCalls Tree Info) (cfg : QueryConfig)
    (vm : VMapManager2 Tree) (pMapId : Nat) (x y z : F32) (maxSearchDist : F32) :
    F32 × VMapManager2 Tree :=
  if cfg.isHeightCalcEnabled && !cfg.IsVMAPDisabledForPtr pMapId .VMAP_DISABLE_HEIGHT then
    match StdMap.find pMapId vm.iInstanceMapTrees with
    | some tree =>
      let pos := convertPositionToInternalRep x y z
      let r := C.getHeight tree pos maxSearchDist
      let height := r.1
      (if !(F32.lt height G3D_inf) then cfg.VMAP_INVALID_HEIGHT_VALUE else height,
       afterTreeCall vm pMapId r.2)
    | none => (cfg.VMAP_INVALID_HEIGHT_VALUE, vm)
  else
    (cfg.VMAP_INVALID_HEIGHT_VALUE, vm)

/-- The method `VMapManager2::getAreaInfo` as a call on the manager object. -/
def VMapManager2.getAreaInfo (C : StaticMapTreeCalls Tree Info) (cfg : QueryConfig)
    (vm : VMapManager2 Tree) (pMapId : Nat) (x y z : F32) (ids : AreaIds) :
    AreaInfo × VMapManager2 Tree :=
  if !cfg.IsVMAPDisabledForPtr pMapId .VMAP_DISABLE_AREAFLAG then
    match StdMap.find pMapId vm.iInstanceMapTrees with
    | some tree =>
      let pos := convertPositionToInternalRep x y z
      let r := C.getAreaInfo tree pos ids
      ({ result := r.1.1, z := r.1.2.1.z, ids := r.1.2.2 }, afterTreeCall vm pMapId r.2)
    | none => ({ result := false, z := z, ids := ids }, vm)
  else
    ({ result := false, z := z, ids := ids }, vm)

/-- The method `VMapManager2::GetLiquidLevel` as a call on the manager
object. -/
def VMapManager2.GetLiquidLevel (C : StaticMapTreeCalls Tree Info) (cfg : QueryConfig)
    (vm : VMapManager2 Tree) (pMapId : Nat) (x y z : F32) (ReqLiquidType : Nat)
    (level floor : F32) (type : Nat) : LiquidLevel × VMapManager2 Tree :=
  if !cfg.IsVMAPDisabledForPtr pMapId .VMAP_DISABLE_LIQUIDSTATUS then
    match StdMap.find pMapId vm.iInstanceMapTrees with
    | some tree =>
      let pos := convertPositionToInternalRep x y z
      let located := C.GetLocationInfo tree pos
      let vm' := afterTreeCall vm pMapId located.2
      match located.1 with
      | some info =>
        let floor' := C.ground_Z info
        let type' := C.GetLiquidType info
        if ReqLiquidType ≠ 0 ∧ type' &&& ReqLiquidType = 0 then
          ({ result := false, level := level, floor := floor', type := type' }, vm')
        else
          let r := C.GetLiquidLevel info pos level
          ({ result := r.1, level := r.2, floor := floor', type := type' }, vm')
      | none => ({ result := false, level := level, floor := floor, type := type }, vm')
    | none => ({ result := false, level := level, floor := floor, type := type }, vm)
  else
    ({ result := false, level := level, floor := floor, type := type }, vm)

/-- What a query on map `pMapId` that started in `vm` and ended in `vm'` has
left alone whatever the Tile Index members do: the model cache, the registered
map ids and their order, and the Tile Index of every other map id. -/
def SameOutsideIndex (pMapId : Nat) (vm vm' : VMapManager2 Tree) : Prop :=
  vm'.models = vm.models ∧
  StdMap.keys vm'.iInstanceMapTrees = StdMap.keys vm.iInstanceMapTrees ∧
  ∀ id, id ≠ pMapId →
    StdMap.find id vm'.iInstanceMapTrees = StdMap.find id vm.iInstanceMapTrees

end

/-- A Tile Index whose line-of-sight member is not read-only: every call
records a tile. -/
def countingTreeCalls : StaticMapTreeCalls (List (Nat × Nat)) Unit :=
  { sampleTreeQueries.calls with
    isInLineOfSight := fun tree _ _ => (true, (0, 0) :: tree) }

end VMAP

/-! # Mail items (`src/game/WorldHandlers/Mail.h`) -/

namespace Mangos

/-- The constant `MAX_MAIL_ITEMS`. -/
def MAX_MAIL_ITEMS : Nat := 12

/-- The enumeration `MailState`. -/
inductive MailState where
  | MAIL_STATE_UNCHANGED
  | MAIL_STATE_CHANGED
  | MAIL_STATE_DELETED
  deriving DecidableEq

/-- The structure `MailItemInfo`. -/
structure MailItemInfo where
  item_guid : Nat := 0
  item_template : Nat := 0
  deriving DecidableEq

/-- The structure `Mail`, with the default member initialisers of the
source. -/
structure Mail where
  messageID : Nat := 0
  messageType : Nat := 0
  stationery : Nat := 0
  mailTemplateId : Nat := 0
  sender : Nat := 0
  receiverGuid : Nat := 0
  subject : String := ""
  body : String := ""
  has_items : Bool := false
  items : List MailItemInfo := []
  removedItems : List Nat := []
  expire_time : Int := 0
  deliver_time : Int := 0
  money : Nat := 0
  COD : Nat := 0
  checked : Nat := 0
  state : MailState := .MAIL_STATE_UNCHANGED
  deriving DecidableEq

/-- The method `Mail::AddItem`. -/
def Mail.AddItem (m : Mail) (itemGuidLow item_template : Nat) : Mail :=
  let mii : MailItemInfo := { item_guid := itemGuidLow, item_template := item_template }
  { m with items := m.items ++ [mii], has_items := true }

/-- The loop of `Mail::RemoveItem` over `items`: the return value and the
vector after the loop. -/
def removeItemLoop (item_guid : Nat) : List MailItemInfo → Bool × List MailItemInfo
  | [] => (false, [])
  | itr :: rest =>
    if itr.item_guid = item_guid then (true, rest)
    else ((removeItemLoop item_guid rest).1, itr :: (removeItemLoop item_guid rest).2)

/-- The method `Mail::RemoveItem`: the return value and the mail after the
call. -/
def Mail.RemoveItem (m : Mail) (item_guid : Nat) : Bool × Mail :=
  ((removeItemLoop item_guid m.items).1, { m with items := (removeItemLoop item_guid m.items).2 })

/-- The method `Mail::HasItems`. -/
def Mail.HasItems (m : Mail) : Bool := m.has_items

/-- One `AddItem` or `RemoveItem` call. -/
inductive MailCall where
  | AddItem (itemGuidLow item_template : Nat)
  | RemoveItem (item_guid : Nat)

/-- The mail after one call. -/
def MailCall.apply (m : Mail) : MailCall → Mail
  | .AddItem itemGuidLow item_template => m.AddItem itemGuidLow item_template
  | .RemoveItem item_guid => (m.RemoveItem item_guid).2

/-- The mail reached from a default-constructed `Mail` by a sequence of
calls, first call first. -/
def runMailCalls (calls : List MailCall) : Mail := calls.foldl MailCall.apply {}

end Mangos

/-! # Thread priorities (`src/shared/Threading/Threading.cpp`) -/

namespace ACE_Based

/-- The enumeration `Priority` without its end marker (`Threading.h`, not
among the sources): the seven values the constructor's comment counts. -/
inductive Priority where
  | Idle
  | Lowest
  | Low
  | Normal
  | High
  | Highest
  | Realtime
  deriving DecidableEq

/-- The end marker `MAXPRIORITYNUM` of `enum Priority`: the number of its
values, seven by the constructor's comment. -/
def MAXPRIORITYNUM : Nat := 7

/-- The array `m_priority`, one entry per `Priority`. -/
structure ThreadPriority where
  Idle : Int
  Lowest : Int
  Low : Int
  Normal : Int
  High : Int
  Highest : Int
  Realtime : Int
  deriving DecidableEq

/-- What the constructor reads from ACE: the constant `ACE_THR_PRI_OTHER_DEF`,
`ACE_Sched_Params::priority_min` and `priority_max` for `ACE_SCHED_OTHER`, and
the priorities the `ACE_Sched_Priority_Iterator` yields, in order. -/
structure SchedParams where
  ACE_THR_PRI_OTHER_DEF : Int
  priority_min : Int
  priority_max : Int
  priorities : List Int

/-- Subtraction of `size_t` values (64 bits), which wraps around. -/
def sizeSub (a b : Nat) : Nat := (a % 2 ^ 64 + 2 ^ 64 - b % 2 ^ 64) % 2 ^ 64

/-- Addition of `size_t` values (64 bits), which wraps around. -/
def sizeAdd (a b : Nat) : Nat := (a + b) % 2 ^ 64

/-- The loop that searches `_tmp` for `ACE_THR_PRI_OTHER_DEF` from index `i`
on: the value of `norm_pos` after it (`0` when the value is not found). -/
def normPos (d : Int) : List Int → Nat → Nat
  | [], _ => 0
  | p :: rest, i => if p = d then i + 1 else normPos d rest (i + 1)

/-- The four indices into `_tmp` that the constructor reads, in the order
`Low`, `Lowest`, `High`, `Highest`. -/
structure PriorityPositions where
  low : Nat
  lowest : Nat
  high : Nat
  highest : Nat
  deriving DecidableEq

/-- The index computation of the constructor for `max_pos = _tmp.size()` and
the `norm_pos` found by the search loop. -/
def priorityPositions (max_pos norm_pos : Nat) : PriorityPositions :=
  let _divider := 4
  let min_pos := 1
  let _div := sizeSub norm_pos min_pos / _divider
  let _div := if _div = 0 then 1 else _div
  let min_pos := sizeSub norm_pos 1
  let low := sizeSub min_pos _div
  let lowest := sizeSub low _div
  let _div2 := sizeSub max_pos norm_pos / _divider
  let _div2 := if _div2 = 0 then 1 else _div2
  let min_pos := sizeSub norm_pos 1
  let high := sizeAdd min_pos _div2
  let highest := sizeAdd high _div2
  { low := low, lowest := lowest, high := high, highest := highest }

/-- How the constructor ends: with the filled array, in `MANGOS_ASSERT`, or
with a read of `_tmp` outside its bounds (undefined behaviour). -/
inductive Constructed where
  | done (tp : ThreadPriority)
  | assertionFailed
  | outOfBounds
  deriving DecidableEq

/-- The constructor `ThreadPriority::ThreadPriority`. -/
def ThreadPriority.construct (E : SchedParams) : Constructed :=
  let filled : ThreadPriority :=
    { Idle := E.priority_min, Lowest := E.ACE_THR_PRI_OTHER_DEF,
      Low := E.ACE_THR_PRI_OTHER_DEF, Normal := E.ACE_THR_PRI_OTHER_DEF,
      High := E.ACE_THR_PRI_OTHER_DEF, Highest := E.ACE_THR_PRI_OTHER_DEF,
      Realtime := E.priority_max }
  let _tmp := E.priorities
  if _tmp.isEmpty then .assertionFailed
  else if MAXPRIORITYNUM ≤ _tmp.length then
    let pos := priorityPositions _tmp.length (normPos E.ACE_THR_PRI_OTHER_DEF _tmp 0)
    match _tmp[pos.low]?, _tmp[pos.lowest]?, _tmp[pos.high]?, _tmp[pos.highest]? with
    | some low, some lowest, some high, some highest =>
      .done { filled with Low := low, Lowest := lowest, High := high, Highest := highest }
    | _, _, _, _ => .outOfBounds
  else .done filled

end ACE_Based

/-! # Account data handlers (`src/game/WorldHandlers/MiscHandler.cpp`) -/

namespace Mangos

/-- The zlib return code `Z_OK`. -/
def Z_OK : Int := 0

/-- The zlib return code `Z_STREAM_END`. -/
def Z_STREAM_END : Int := 1

/-- The zlib flush value `Z_NO_FLUSH`. -/
def Z_NO_FLUSH : Int := 0

/-- The zlib flush value `Z_FINISH`. -/
def Z_FINISH : Int := 4

/-- The opcodes of `Opcodes.h` (not among the sources) that the embedded
code names, and the opcode of a fresh `WorldPacket`. -/
inductive Opcodes where
  | MSG_NULL_ACTION
  | SMSG_UPDATE_OBJECT
  | SMSG_COMPRESSED_UPDATE_OBJECT
  | SMSG_UPDATE_ACCOUNT_DATA
  | SMSG_UPDATE_ACCOUNT_DATA_COMPLETE
  deriving DecidableEq

/-- The method `ByteBuffer::resize` on the stored bytes: `std::vector::resize`,
which cuts or pads with zero bytes. -/
def resize (newsize : Nat) (storage : List Nat) : List Nat :=
  storage.take newsize ++ List.replicate (newsize - storage.length) 0

/-- A memory region after a library call wrote `written` from its start (no
byte is written behind the end of the region). -/
def memWrite (region written : List Nat) : List Nat :=
  written.take region.length ++ region.drop written.length

/-- A value written to a packet with `operator<<` or `append`. -/
inductive PacketField where
  | uint32 (v : Nat)
  | guid (g : Nat)
  | bytes (b : List Nat)
  deriving DecidableEq

/-- The structure `AccountData` (`WorldSession.h`, not among the sources),
with the two members the handlers read. -/
structure AccountData where
  Time : Nat
  Data : List Nat
  deriving DecidableEq

/-- What a handler does, in order: the calls of `SetAccountData`,
`GetAccountData` and `SendPacket`, and the log lines. -/
inductive SessionEvent where
  | DETAIL_LOG (msg : String)
  | DEBUG_LOG (msg : String)
  | outError (msg : String)
  | SetAccountData (type : Nat) (time_ : Nat) (data : List Nat)
  | GetAccountData (type : Nat)
  | SendPacket (opcode : Opcodes) (fields : List PacketField)
  deriving DecidableEq

/-- What the handlers take from outside `MiscHandler.cpp`: the end marker
`NUM_ACCOUNT_DATA_TYPES` of `enum AccountDataType` (`WorldSession.h`, not among
the sources), zlib (`uncompress` and `compress` give the return code and the
bytes written, `compressBound` the bound), the stored account data and the
guid of `_player` when there is one. -/
structure SessionEnv where
  NUM_ACCOUNT_DATA_TYPES : Nat
  uncompress : Nat → List Nat → Int × List Nat
  compress : Nat → List Nat → Int × List Nat
  compressBound : Nat → Nat
  GetAccountData : Nat → AccountData
  _player : Option Nat

/-- The handler `WorldSession::HandleUpdateAccountData` for a packet that
holds the three `uint32` values `type`, `timestamp`, `decompressedSize` and
then `rest`. -/
def HandleUpdateAccountData (S : SessionEnv) (type timestamp decompressedSize : Nat)
    (rest : List Nat) : List SessionEvent :=
  [.DETAIL_LOG "WORLD: Received opcode CMSG_UPDATE_ACCOUNT_DATA",
   .DEBUG_LOG ("UAD: type " ++ toString type ++ ", time " ++ toString timestamp
      ++ ", decompressedSize " ++ toString decompressedSize)] ++
  if type > S.NUM_ACCOUNT_DATA_TYPES then []
  else if decompressedSize = 0 then
    [.SetAccountData type 0 [],
     .SendPacket .SMSG_UPDATE_ACCOUNT_DATA_COMPLETE [.uint32 type, .uint32 0]]
  else if decompressedSize > 0xFFFF then
    [.outError ("UAD: Account data packet too big, size " ++ toString decompressedSize)]
  else
    let dest := List.replicate decompressedSize 0
    let r := S.uncompress decompressedSize rest
    if r.1 ≠ Z_OK then [.outError "UAD: Failed to decompress account data"]
    else
      let dest := memWrite dest r.2
      let adata := dest.takeWhile (fun c => c ≠ 0)
      [.SetAccountData type timestamp adata,
       .SendPacket .SMSG_UPDATE_ACCOUNT_DATA_COMPLETE [.uint32 type, .uint32 0]]

/-- The handler `WorldSession::HandleRequestAccountData` for a packet that
holds the `uint32` value `type`. -/
def HandleRequestAccountData (S : SessionEnv) (type : Nat) : List SessionEvent :=
  [.DETAIL_LOG "WORLD: Received opcode CMSG_REQUEST_ACCOUNT_DATA",
   .DEBUG_LOG ("RAD: type " ++ toString type)] ++
  if type > S.NUM_ACCOUNT_DATA_TYPES then []
  else
    let adata := S.GetAccountData type
    let size := adata.Data.length % 2 ^ 32
    let destSize := S.compressBound size
    let dest := List.replicate destSize 0
    let r := S.compress destSize adata.Data
    if size ≠ 0 ∧ r.1 ≠ Z_OK then
      [.GetAccountData type, .DEBUG_LOG "RAD: Failed to compress account data"]
    else
      let dest := if size ≠ 0 then resize r.2.length (memWrite dest r.2) else dest
      [.GetAccountData type,
       .SendPacket .SMSG_UPDATE_ACCOUNT_DATA
         [.guid (S._player.getD 0), .uint32 type, .uint32 (adata.Time % 2 ^ 32), .uint32 size,
          .bytes dest]]

/-- A session environment with eight account data types and a zlib stand-in
that copies its input. -/
def sampleSessionEnv : SessionEnv :=
  { NUM_ACCOUNT_DATA_TYPES := 8,
    uncompress := fun destLen source =>
      if source.length ≤ destLen then (Z_OK, source) else (-5, []),
    compress := fun destLen source =>
      if source.length ≤ destLen then (Z_OK, source) else (-5, []),
    compressBound := fun n => n + 13,
    GetAccountData := fun type => { Time := 1000 + type, Data := [type + 1, 2, 3] },
    _player := some 42 }

end Mangos

/-! # Update packets (`src/game/WorldHandlers/UpdateData.cpp`) -/

namespace Mangos

/-- The bytes `ByteBuffer::operator<<` appends for a `uint32` (`ByteBuffer.h`
is not among the sources): the value in 32 bits, lowest byte first. -/
def putUint32 (v : Nat) : List Nat :=
  [v % 256, v / 256 % 256, v / 65536 % 256, v / 16777216 % 256]

/-- The byte `ByteBuffer::operator<<` appends for a `uint8`. -/
def putUint8 (v : Nat) : List Nat := [v % 256]

/-- The `uint32` that `ByteBuffer::read` finds in four bytes, lowest byte
first. -/
def getUint32 : List Nat → Nat
  | [b0, b1, b2, b3] => b0 + 256 * b1 + 65536 * b2 + 16777216 * b3
  | _ => 0

/-- The members of the zlib structure `z_stream` that `Compress` touches: the input at
`next_in`, `avail_in`, the bytes written from the first `next_out` on,
`avail_out`, `total_out`, and the state that zlib keeps for itself. -/
structure z_stream (σ : Type) where
  next_in : List Nat
  avail_in : Nat
  next_out : List Nat
  avail_out : Nat
  total_out : Nat
  state : σ

/-- The functions of zlib that `UpdateData.cpp` calls; each gives its return
code, `deflateInit` and `deflate` also the stream after the call. -/
structure Zlib (σ : Type) where
  deflateInit : Nat → Int × z_stream σ
  deflate : z_stream σ → Int → Int × z_stream σ
  deflateEnd : z_stream σ → Int
  zError : Int → String
  compressBound : Nat → Nat

/-- What `UpdateData.cpp` takes from the rest of the build: whether `CLASSIC`
or `TBC` is defined, the enumerator `UPDATETYPE_OUT_OF_RANGE_OBJECTS`
(`UpdateData.h`), the bytes of `ObjectGuid::WriteAsPacked` (`ObjectGuid.h`) and
the configured `CONFIG_UINT32_COMPRESSION`; none of them is among the
sources. -/
structure UpdateEnv where
  classicOrTbc : Bool
  UPDATETYPE_OUT_OF_RANGE_OBJECTS : Nat
  WriteAsPacked : Nat → List Nat
  CONFIG_UINT32_COMPRESSION : Nat

/-- The members of `UpdateData`: `m_blockCount` (a `uint32`),
`m_outOfRangeGUIDs` (the guids of the set in iteration order) and the written
bytes of `m_data`. -/
structure UpdateData where
  m_blockCount : Nat := 0
  m_outOfRangeGUIDs : List Nat := []
  m_data : List Nat := []
  deriving DecidableEq

/-- A `WorldPacket`: its opcode and the bytes of its storage. -/
structure WorldPacket where
  opcode : Opcodes := .MSG_NULL_ACTION
  storage : List Nat := []
  deriving DecidableEq

/-- What `UpdateData::Compress` leaves behind: the value of `*dst_size`, the
bytes written to `dst` and the lines given to `sLog.outError`. -/
structure Compressed where
  dst_size : Nat
  dst : List Nat
  log : List String
  deriving DecidableEq

/-- The function `UpdateData::Compress`, called with `*dst_size = dst_size`. -/
def UpdateData.Compress {σ : Type} (E : UpdateEnv) (Z : Zlib σ) (dst_size : Nat)
    (src : List Nat) (src_size : Nat) : Compressed :=
  let r := Z.deflateInit E.CONFIG_UINT32_COMPRESSION
  let z_res := r.1
  if z_res ≠ Z_OK then
    { dst_size := 0, dst := [],
      log := ["Can\x27t compress update packet (zlib: deflateInit) Error code: "
        ++ toString z_res ++ " (" ++ Z.zError z_res ++ ")"] }
  else
    let c_stream : z_stream σ :=
      { r.2 with next_out := [], avail_out := dst_size, next_in := src,
                 avail_in := src_size % 2 ^ 32 }
    let r := Z.deflate c_stream Z_NO_FLUSH
    let z_res := r.1
    let c_stream := r.2
    if z_res ≠ Z_OK then
      { dst_size := 0, dst := c_stream.next_out,
        log := ["Can\x27t compress update packet (zlib: deflate) Error code: "
          ++ toString z_res ++ " (" ++ Z.zError z_res ++ ")"] }
    else if c_stream.avail_in ≠ 0 then
      { dst_size := 0, dst := c_stream.next_out,
        log := ["Can\x27t compress update packet (zlib: deflate not greedy)"] }
    else
      let r := Z.deflate c_stream Z_FINISH
      let z_res := r.1
      let c_stream := r.2
      if z_res ≠ Z_STREAM_END then
        { dst_size := 0, dst := c_stream.next_out,
          log := ["Can\x27t compress update packet (zlib: deflate should report "
            ++ "Z_STREAM_END instead " ++ toString z_res ++ " (" ++ Z.zError z_res ++ ")"] }
      else
        let z_res := Z.deflateEnd c_stream
        if z_res ≠ Z_OK then
          { dst_size := 0, dst := c_stream.next_out,
            log := ["Can\x27t compress update packet (zlib: deflateEnd) Error code: "
              ++ toString z_res ++ " (" ++ Z.zError z_res ++ ")"] }
        else
          { dst_size := c_stream.total_out % 2 ^ 32, dst := c_stream.next_out, log := [] }

/-- The buffer `buf` that `UpdateData::BuildPacket` assembles before it
looks at the size. -/
def UpdateData.buf (E : UpdateEnv) (u : UpdateData) (hasTransport : Bool) : List Nat :=
  let buf : List Nat := []
  let buf := buf ++ putUint32
    (if ¬ u.m_outOfRangeGUIDs.isEmpty then u.m_blockCount + 1 else u.m_blockCount)
  let buf := if E.classicOrTbc then buf ++ putUint8 (if hasTransport then 1 else 0) else buf
  let buf :=
    if ¬ u.m_outOfRangeGUIDs.isEmpty then
      let buf := buf ++ putUint8 E.UPDATETYPE_OUT_OF_RANGE_OBJECTS
      let buf := buf ++ putUint32 u.m_outOfRangeGUIDs.length
      u.m_outOfRangeGUIDs.foldl (fun buf i => buf ++ E.WriteAsPacked i) buf
    else buf
  buf ++ u.m_data

/-- The function `UpdateData::BuildPacket`: the return value, the packet
after the call and what `Compress` logged; `none` when `MANGOS_ASSERT` fails
because the packet is not empty. -/
def UpdateData.BuildPacket {σ : Type} (E : UpdateEnv) (Z : Zlib σ) (u : UpdateData)
    (packet : WorldPacket) (hasTransport : Bool) : Option (Bool × WorldPacket × List String) :=
  if ¬ packet.storage.isEmpty then none
  else
    let buf := u.buf E hasTransport
    let pSize := buf.length
    if pSize > 100 then
      let destsize := Z.compressBound pSize % 2 ^ 32
      let packet := { packet with storage := resize (destsize + 4) packet.storage }
      let packet :=
        { packet with storage := putUint32 pSize ++ packet.storage.drop 4 }
      let c := UpdateData.Compress E Z destsize buf pSize
      let packet :=
        { packet with
          storage := packet.storage.take 4 ++ memWrite (packet.storage.drop 4) c.dst }
      let destsize := c.dst_size
      if destsize = 0 then some (false, packet, c.log)
      else
        let packet := { packet with storage := resize (destsize + 4) packet.storage }
        let packet := { packet with opcode := Opcodes.SMSG_COMPRESSED_UPDATE_OBJECT }
        some (true, packet, c.log)
    else
      let packet :=
        if buf.length ≠ 0 then { packet with storage := packet.storage ++ buf } else packet
      let packet := { packet with opcode := Opcodes.SMSG_UPDATE_OBJECT }
      some (true, packet, [])

/-- A zlib stand-in that stores: `deflate` keeps the input until `Z_FINISH`
and then writes a marker byte and the input. -/
def sampleZlib : Zlib (List Nat) :=
  { deflateInit := fun level =>
      (if level ≤ 9 then Z_OK else -2,
       { next_in := [], avail_in := 0, next_out := [], avail_out := 0, total_out := 0,
         state := [] }),
    deflate := fun s flush =>
      let held := s.state ++ s.next_in.take s.avail_in
      let s := { s with next_in := s.next_in.drop s.avail_in, avail_in := 0, state := held }
      if flush = Z_FINISH then
        let out := 120 :: held
        if out.length ≤ s.avail_out then
          (Z_STREAM_END,
           { s with next_out := s.next_out ++ out, avail_out := s.avail_out - out.length,
                    total_out := s.total_out + out.length, state := [] })
        else (-5, s)
      else (Z_OK, s),
    deflateEnd := fun _ => Z_OK,
    zError := fun _ => "error",
    compressBound := fun n => n + 13 }

/-- A build of the update packets without the transport byte. -/
def sampleUpdateEnv : UpdateEnv :=
  { classicOrTbc := false,
    UPDATETYPE_OUT_OF_RANGE_OBJECTS := 4,
    WriteAsPacked := fun g => [1, g % 256],
    CONFIG_UINT32_COMPRESSION := 1 }

end Mangos

set_option maxRecDepth 100000

namespace VMAP
namespace StdMap

variable {κ ν : Type} [DecidableEq κ]

theorem find_nil (k : κ) : find k ([] : StdMap κ ν) = none := rfl

theorem find_cons (k k' : κ) (v : ν) (m : StdMap κ ν) :
    find k ((k', v) :: m) = if k' = k then some v else find k m := rfl

theorem find_eq_none_iff (k : κ) (m : StdMap κ ν) : find k m = none ↔ k ∉ keys m := by
  induction m with
  | nil => simp [find, keys]
  | cons e rest ih =>
    obtain ⟨k', v⟩ := e
    by_cases h : k' = k
    · simp [find, keys, h]
    · have h' : ¬ k = k' := fun g => h g.symm
      simpa [find, keys, h, h'] using ih

theorem mem_of_find (k : κ) (v : ν) (m : StdMap κ ν) (h : find k m = some v) : (k, v) ∈ m := by
  induction m with
  | nil => simp [find] at h
  | cons e rest ih =>
    obtain ⟨k', v'⟩ := e
    by_cases hk : k' = k
    · simp [find, hk] at h
      simp [hk, h]
    · simp [find, hk] at h
      exact List.mem_cons_of_mem _ (ih h)

theorem find_of_mem (k : κ) (v : ν) (m : StdMap κ ν) (hnd : (keys m).Nodup) (h : (k, v) ∈ m) :
    find k m = some v := by
  induction m with
  | nil => simp at h
  | cons e rest ih =>
    obtain ⟨k', v'⟩ := e
    simp only [keys, List.map_cons, List.nodup_cons] at hnd
    rcases List.mem_cons.mp h with h | h
    · cases h
      simp [find]
    · have hne : k' ≠ k := by
        intro hk
        apply hnd.1
        rw [hk]
        exact List.mem_map_of_mem Prod.fst h
      simp only [find, hne, if_false]
      exact ih hnd.2 h

theorem find_append (k : κ) (m₁ m₂ : StdMap κ ν) :
    find k (m₁ ++ m₂) = match find k m₁ with
      | some v => some v
      | none => find k m₂ := by
  induction m₁ with
  | nil => simp [find]
  | cons e rest ih =>
    obtain ⟨k', v⟩ := e
    by_cases h : k' = k
    · simp [find, h]
    · simpa [find, h] using ih

theorem find_modify (k k' : κ) (g : ν → ν) (m : StdMap κ ν) :
    find k' (modify k g m) = if k' = k then (find k m).map g else find k' m := by
  induction m with
  | nil => simp [find, modify]
  | cons e rest ih =>
    obtain ⟨k₀, v⟩ := e
    have hcons : modify k g ((k₀, v) :: rest)
        = (if k₀ = k then (k₀, g v) else (k₀, v)) :: modify k g rest := rfl
    rw [hcons]
    by_cases h0 : k₀ = k
    · rw [if_pos h0, find_cons, ih]
      by_cases h1 : k' = k
      · rw [if_pos (h0.trans h1.symm), if_pos h1, find_cons, if_pos h0]; rfl
      · have : ¬ k₀ = k' := fun g => h1 (g.symm.trans h0)
        rw [if_neg this, if_neg h1, if_neg h1, find_cons, if_neg this]
    · rw [if_neg h0, find_cons, ih]
      by_cases h1 : k' = k
      · have : ¬ k₀ = k' := fun g => h0 (g.trans h1)
        rw [if_neg this, if_pos h1, if_pos h1, find_cons, if_neg h0]
      · rw [if_neg h1, if_neg h1, find_cons]

theorem find_erase (k k' : κ) (m : StdMap κ ν) :
    find k' (erase k m) = if k' = k then none else find k' m := by
  induction m with
  | nil => simp [find, erase]
  | cons e rest ih =>
    obtain ⟨k₀, v⟩ := e
    simp only [erase] at ih ⊢
    by_cases h0 : k₀ = k
    · subst h0
      by_cases h1 : k' = k₀
      · simpa [List.filter, h1] using ih
      · have : ¬ k₀ = k' := fun g => h1 g.symm
        simpa [List.filter, h1, find, this] using ih
    · by_cases h1 : k' = k
      · subst h1
        simpa [List.filter, h0, find] using ih
      · by_cases h2 : k₀ = k'
        · simp [List.filter, h0, find, h2, h1]
        · simpa [List.filter, h0, find, h2, h1] using ih

theorem find_insert_absent (k k' : κ) (v : ν) (m : StdMap κ ν) (h : find k m = none) :
    find k' (insert k v m) = if k' = k then some v else find k' m := by
  simp only [insert, h, find_append]
  by_cases h1 : k' = k
  · subst h1
    simp [h, find]
  · have : ¬ k = k' := fun g => h1 g.symm
    simp only [h1, if_false]
    cases hf : find k' m <;> simp [find, this]

theorem keys_modify (k : κ) (g : ν → ν) (m : StdMap κ ν) : keys (modify k g m) = keys m := by
  induction m with
  | nil => rfl
  | cons e rest ih =>
    simp only [keys, modify, List.map_cons] at ih ⊢
    rw [ih]
    by_cases h : e.1 = k <;> simp [h]

theorem keys_erase (k : κ) (m : StdMap κ ν) :
    keys (erase k m) = (keys m).filter (fun k' => decide (k' ≠ k)) := by
  induction m with
  | nil => rfl
  | cons e rest ih =>
    simp only [keys, erase] at ih ⊢
    by_cases h : e.1 = k
    · simpa [List.filter, h] using ih
    · simpa [List.filter, h] using ih

theorem keys_insert_absent (k : κ) (v : ν) (m : StdMap κ ν) (h : find k m = none) :
    keys (insert k v m) = keys m ++ [k] := by
  simp [insert, h, keys]

theorem mem_modify (k : κ) (g : ν → ν) (m : StdMap κ ν) (e : κ × ν) (h : e ∈ modify k g m) :
    ∃ e₀ ∈ m, e.1 = e₀.1 ∧ (e = e₀ ∨ (e₀.1 = k ∧ e.2 = g e₀.2)) := by
  simp only [modify, List.mem_map] at h
  obtain ⟨e₀, hm, he⟩ := h
  refine ⟨e₀, hm, ?_⟩
  by_cases hk : e₀.1 = k
  · simp only [hk, if_true] at he
    subst he
    exact ⟨hk.symm, Or.inr ⟨hk, rfl⟩⟩
  · simp only [hk, if_false] at he
    subst he
    exact ⟨rfl, Or.inl rfl⟩

theorem mem_erase (k : κ) (m : StdMap κ ν) (e : κ × ν) (h : e ∈ erase k m) :
    e ∈ m ∧ e.1 ≠ k := by
  simpa [erase, List.mem_filter] using h

theorem mem_insert (k : κ) (v : ν) (m : StdMap κ ν) (e : κ × ν) (h : e ∈ insert k v m) :
    e ∈ m ∨ e = (k, v) := by
  unfold insert at h
  cases hf : find k m with
  | some w => rw [hf] at h; exact Or.inl h
  | none =>
    rw [hf] at h
    simpa using h

end StdMap

/-! ## The model cache: one call -/

theorem acquire_cached (fs : FileSystem) (vm : ModelCache) (basepath filename : String)
    (flags : Nat) (m : ManagedModel) (h : StdMap.find filename vm.iLoadedModelFiles = some m) :
    acquireModelInstance fs vm basepath filename flags = acquireFound vm filename [] := by
  unfold acquireModelInstance
  rw [h]

theorem acquire_failed (fs : FileSystem) (vm : ModelCache) (basepath filename : String)
    (flags : Nat) (h : StdMap.find filename vm.iLoadedModelFiles = none)
    (hfs : fs (basepath ++ filename ++ ".vmo") = none) :
    acquireModelInstance fs vm basepath filename flags =
      { ret := NULL,
        vm := { vm with heap := (vm.heap.alloc).2.free (vm.heap.alloc).1 },
        log := [.error ("VMapManager2: could not load \x27" ++ basepath ++ filename
                  ++ ".vmo\x27!")] } := by
  unfold acquireModelInstance
  rw [h]
  simp only [hfs]

theorem acquire_loaded (fs : FileSystem) (vm : ModelCache) (basepath filename : String)
    (flags : Nat) (payload : List Nat) (h : StdMap.find filename vm.iLoadedModelFiles = none)
    (hfs : fs (basepath ++ filename ++ ".vmo") = some payload) :
    acquireModelInstance fs vm basepath filename flags =
      acquireFound
        { iLoadedModelFiles :=
            StdMap.modify filename (ManagedModel.setModel (vm.heap.allocs + 1))
              (StdMap.insert filename ({} : ManagedModel) vm.iLoadedModelFiles),
          heap := (vm.heap.alloc).2.set (vm.heap.allocs + 1)
            { payload := payload, Flags := flags } }
        filename
        [.debug ("VMapManager2: loading file \x27" ++ basepath ++ filename ++ "\x27.")] := by
  unfold acquireModelInstance
  rw [h]
  simp only [hfs]
  rfl

theorem release_unknown (vm : ModelCache) (filename : String)
    (h : StdMap.find filename vm.iLoadedModelFiles = none) :
    releaseModelInstance vm filename =
      { ret := (), vm := vm,
        log := [.error ("VMapManager2: trying to unload non-loaded file \x27" ++ filename
                  ++ "\x27!")] } := by
  unfold releaseModelInstance
  rw [h]

theorem release_last (vm : ModelCache) (filename : String) (m : ManagedModel)
    (h : StdMap.find filename vm.iLoadedModelFiles = some m) (h0 : m.iRefCount - 1 = 0) :
    (releaseModelInstance vm filename).vm =
      { iLoadedModelFiles := StdMap.erase filename
          (StdMap.modify filename ManagedModel.decRefCount vm.iLoadedModelFiles),
        heap := vm.heap.free m.iModel } := by
  unfold releaseModelInstance
  rw [h]
  simp only [ManagedModel.decRefCount, h0, if_true, ManagedModel.getModel]

theorem release_shared (vm : ModelCache) (filename : String) (m : ManagedModel)
    (h : StdMap.find filename vm.iLoadedModelFiles = some m) (h0 : m.iRefCount - 1 ≠ 0) :
    (releaseModelInstance vm filename).vm =
      { vm with iLoadedModelFiles :=
          StdMap.modify filename ManagedModel.decRefCount vm.iLoadedModelFiles } := by
  unfold releaseModelInstance
  rw [h]
  simp only [ManagedModel.decRefCount, h0, if_false]

theorem find_acquire_cached (fs : FileSystem) (vm : ModelCache) (basepath filename : String)
    (flags : Nat) (m : ManagedModel) (h : StdMap.find filename vm.iLoadedModelFiles = some m)
    (k : String) :
    StdMap.find k (acquireModelInstance fs vm basepath filename flags).vm.iLoadedModelFiles =
      if k = filename then some m.incRefCount else StdMap.find k vm.iLoadedModelFiles := by
  rw [acquire_cached fs vm basepath filename flags m h]
  simp only [acquireFound, StdMap.find_modify]
  by_cases hk : k = filename
  · simp [hk, h]
  · simp [hk]

theorem find_acquire_loaded (fs : FileSystem) (vm : ModelCache) (basepath filename : String)
    (flags : Nat) (payload : List Nat) (h : StdMap.find filename vm.iLoadedModelFiles = none)
    (hfs : fs (basepath ++ filename ++ ".vmo") = some payload) (k : String) :
    StdMap.find k (acquireModelInstance fs vm basepath filename flags).vm.iLoadedModelFiles =
      if k = filename then some { iModel := vm.heap.allocs + 1, iRefCount := 1 }
      else StdMap.find k vm.iLoadedModelFiles := by
  rw [acquire_loaded fs vm basepath filename flags payload h hfs]
  simp only [acquireFound, StdMap.find_modify]
  by_cases hk : k = filename
  · subst hk
    simp [StdMap.find_insert_absent _ _ _ _ h, ManagedModel.setModel, ManagedModel.incRefCount]
  · simp [hk, StdMap.find_insert_absent _ _ _ _ h]

theorem find_release (vm : ModelCache) (filename : String) (m : ManagedModel)
    (h : StdMap.find filename vm.iLoadedModelFiles = some m) (k : String) :
    StdMap.find k (releaseModelInstance vm filename).vm.iLoadedModelFiles =
      if k = filename then (if m.iRefCount - 1 = 0 then none else some m.decRefCount)
      else StdMap.find k vm.iLoadedModelFiles := by
  by_cases h0 : m.iRefCount - 1 = 0
  · rw [release_last vm filename m h h0]
    simp only [StdMap.find_erase, StdMap.find_modify]
    by_cases hk : k = filename
    · simp [hk, h0]
    · simp [hk]
  · rw [release_shared vm filename m h h0]
    simp only [StdMap.find_modify]
    by_cases hk : k = filename
    · simp [hk, h0, h]
    · simp [hk]

theorem keys_acquire (fs : FileSystem) (vm : ModelCache) (basepath filename : String)
    (flags : Nat) (hnd : (StdMap.keys vm.iLoadedModelFiles).Nodup) :
    (StdMap.keys (acquireModelInstance fs vm basepath filename flags).vm.iLoadedModelFiles).Nodup := by
  cases h : StdMap.find filename vm.iLoadedModelFiles with
  | some m =>
    rw [acquire_cached fs vm basepath filename flags m h]
    simpa [acquireFound, StdMap.keys_modify] using hnd
  | none =>
    cases hfs : fs (basepath ++ filename ++ ".vmo") with
    | none =>
      rw [acquire_failed fs vm basepath filename flags h hfs]
      exact hnd
    | some payload =>
      rw [acquire_loaded fs vm basepath filename flags payload h hfs]
      simp only [acquireFound, StdMap.keys_modify, StdMap.keys_insert_absent _ _ _ h]
      have hnot : filename ∉ StdMap.keys vm.iLoadedModelFiles :=
        (StdMap.find_eq_none_iff _ _).mp h
      rw [List.nodup_append]
      refine ⟨hnd, List.nodup_singleton _, ?_⟩
      intro a ha hb
      rw [List.mem_singleton] at hb
      exact hnot (hb ▸ ha)

theorem keys_release (vm : ModelCache) (filename : String)
    (hnd : (StdMap.keys vm.iLoadedModelFiles).Nodup) :
    (StdMap.keys (releaseModelInstance vm filename).vm.iLoadedModelFiles).Nodup := by
  cases h : StdMap.find filename vm.iLoadedModelFiles with
  | none =>
    rw [release_unknown vm filename h]
    exact hnd
  | some m =>
    by_cases h0 : m.iRefCount - 1 = 0
    · rw [release_last vm filename m h h0]
      simp only [StdMap.keys_erase, StdMap.keys_modify]
      exact hnd.filter _
    · rw [release_shared vm filename m h h0]
      simpa [StdMap.keys_modify] using hnd

theorem refsPositive_iff (vm : ModelCache) :
    RefsPositive vm ↔ (StdMap.keys vm.iLoadedModelFiles).Nodup ∧
      ∀ k m, StdMap.find k vm.iLoadedModelFiles = some m → 1 ≤ m.iRefCount := by
  constructor
  · rintro ⟨hnd, hall⟩
    exact ⟨hnd, fun k m hf => hall (k, m) (StdMap.mem_of_find k m _ hf)⟩
  · rintro ⟨hnd, hall⟩
    exact ⟨hnd, fun e he => hall e.1 e.2 (StdMap.find_of_mem e.1 e.2 _ hnd he)⟩

theorem refsPositive_acquire (fs : FileSystem) (vm : ModelCache) (basepath filename : String)
    (flags : Nat) (hinv : RefsPositive vm) :
    RefsPositive (acquireModelInstance fs vm basepath filename flags).vm := by
  rw [refsPositive_iff] at hinv ⊢
  refine ⟨keys_acquire fs vm basepath filename flags hinv.1, ?_⟩
  intro k m' hk
  cases h : StdMap.find filename vm.iLoadedModelFiles with
  | some m =>
    rw [find_acquire_cached fs vm basepath filename flags m h] at hk
    by_cases hkf : k = filename
    · simp only [hkf, if_true, Option.some.injEq] at hk
      subst hk
      have := hinv.2 filename m h
      simp only [ManagedModel.incRefCount]
      omega
    · simp only [hkf, if_false] at hk
      exact hinv.2 k m' hk
  | none =>
    cases hfs : fs (basepath ++ filename ++ ".vmo") with
    | none =>
      rw [acquire_failed fs vm basepath filename flags h hfs] at hk
      exact hinv.2 k m' hk
    | some payload =>
      rw [find_acquire_loaded fs vm basepath filename flags payload h hfs] at hk
      by_cases hkf : k = filename
      · simp only [hkf, if_true, Option.some.injEq] at hk
        subst hk
        exact le_refl _
      · simp only [hkf, if_false] at hk
        exact hinv.2 k m' hk

theorem refsPositive_release (vm : ModelCache) (filename : String) (hinv : RefsPositive vm) :
    RefsPositive (releaseModelInstance vm filename).vm := by
  rw [refsPositive_iff] at hinv ⊢
  refine ⟨keys_release vm filename hinv.1, ?_⟩
  intro k m' hk
  cases h : StdMap.find filename vm.iLoadedModelFiles with
  | none =>
    rw [release_unknown vm filename h] at hk
    exact hinv.2 k m' hk
  | some m =>
    rw [find_release vm filename m h] at hk
    by_cases hkf : k = filename
    · simp only [hkf, if_true] at hk
      by_cases h0 : m.iRefCount - 1 = 0
      · simp [h0] at hk
      · simp only [h0, if_false, Option.some.injEq] at hk
        subst hk
        have := hinv.2 filename m h
        simp only [ManagedModel.decRefCount]
        omega
    · simp only [hkf, if_false] at hk
      exact hinv.2 k m' hk

theorem refsPositive_apply (vm : ModelCache) (c : CacheCall) (hinv : RefsPositive vm) :
    RefsPositive (c.apply vm) := by
  cases c with
  | acquire fs basepath filename flags => exact refsPositive_acquire fs vm basepath filename flags hinv
  | release filename => exact refsPositive_release vm filename hinv

theorem refsPositive_foldl (calls : List CacheCall) (vm : ModelCache) (hinv : RefsPositive vm) :
    RefsPositive (calls.foldl CacheCall.apply vm) := by
  induction calls generalizing vm with
  | nil => exact hinv
  | cons c rest ih => exact ih _ (refsPositive_apply vm c hinv)

theorem refsPositive_runCalls (calls : List CacheCall) : RefsPositive (runCalls calls) :=
  refsPositive_foldl calls {} ⟨List.nodup_nil, fun _ he => absurd he (List.not_mem_nil _)⟩

/-! ## The model cache: call sequences -/

theorem runCalls_snoc (pre : List CacheCall) (c : CacheCall) :
    runCalls (pre ++ [c]) = c.apply (runCalls pre) := by
  simp [runCalls, List.foldl_append]

theorem acquires_snoc_acquire (f : String) (pre : List CacheCall) (fs : FileSystem)
    (basepath filename : String) (flags : Nat) :
    acquires f (pre ++ [.acquire fs basepath filename flags]) =
      acquires f pre + (if filename = f then 1 else 0) := by
  simp only [acquires, List.countP_append, List.countP_cons, List.countP_nil]
  by_cases h : filename = f <;> simp [h]

theorem acquires_snoc_release (f : String) (pre : List CacheCall) (filename : String) :
    acquires f (pre ++ [.release filename]) = acquires f pre := by
  simp [acquires, List.countP_append, List.countP_cons]

theorem releases_snoc_acquire (f : String) (pre : List CacheCall) (fs : FileSystem)
    (basepath filename : String) (flags : Nat) :
    releases f (pre ++ [.acquire fs basepath filename flags]) = releases f pre := by
  simp [releases, List.countP_append, List.countP_cons]

theorem releases_snoc_release (f : String) (pre : List CacheCall) (filename : String) :
    releases f (pre ++ [.release filename]) =
      releases f pre + (if filename = f then 1 else 0) := by
  simp only [releases, List.countP_append, List.countP_cons, List.countP_nil]
  by_cases h : filename = f <;> simp [h]

theorem countsMatch_nil : CountsMatch [] := by
  intro f
  simp [acquires, releases, runCalls, StdMap.find]

theorem acquire_ret_null_of_failed (fs : FileSystem) (vm : ModelCache)
    (basepath filename : String) (flags : Nat)
    (h : StdMap.find filename vm.iLoadedModelFiles = none)
    (hfs : fs (basepath ++ filename ++ ".vmo") = none) :
    (acquireModelInstance fs vm basepath filename flags).ret = NULL := by
  rw [acquire_failed fs vm basepath filename flags h hfs]

theorem countsMatch_snoc (pre : List CacheCall) (c : CacheCall) (hinv : CountsMatch pre)
    (hrel : releaseMatched pre c = true) (hacq : acquireSucceeds pre c = true) :
    CountsMatch (pre ++ [c]) := by
  intro f
  obtain ⟨hle, hnone, hsome⟩ := hinv f
  cases c with
  | acquire fs basepath filename flags =>
    rw [runCalls_snoc, acquires_snoc_acquire, releases_snoc_acquire]
    simp only [CacheCall.apply]
    simp only [acquireSucceeds, decide_eq_true_eq] at hacq
    cases h : StdMap.find filename (runCalls pre).iLoadedModelFiles with
    | some m =>
      rw [find_acquire_cached fs _ basepath filename flags m h]
      by_cases hf : f = filename
      · subst hf
        have hm := hsome m h
        simp only [if_true]
        refine ⟨by omega, ?_, ?_⟩
        · constructor
          · intro hc; cases hc
          · intro hc; omega
        · intro m' hm'
          cases hm'
          simp only [ManagedModel.incRefCount]
          push_cast
          omega
      · have hf' : ¬ filename = f := fun g => hf g.symm
        simp only [hf, hf', if_false, Nat.add_zero]
        exact ⟨hle, hnone, hsome⟩
    | none =>
      cases hfs : fs (basepath ++ filename ++ ".vmo") with
      | none => exact absurd (acquire_ret_null_of_failed fs _ basepath filename flags h hfs) hacq
      | some payload =>
        rw [find_acquire_loaded fs _ basepath filename flags payload h hfs]
        by_cases hf : f = filename
        · subst hf
          have heq := hnone.mp h
          simp only [if_true]
          refine ⟨by omega, ?_, ?_⟩
          · constructor
            · intro hc; cases hc
            · intro hc; omega
          · intro m' hm'
            cases hm'
            push_cast
            omega
        · have hf' : ¬ filename = f := fun g => hf g.symm
          simp only [hf, hf', if_false, Nat.add_zero]
          exact ⟨hle, hnone, hsome⟩
  | release filename =>
    rw [runCalls_snoc, acquires_snoc_release, releases_snoc_release]
    simp only [CacheCall.apply]
    simp only [releaseMatched, decide_eq_true_eq] at hrel
    by_cases hf : f = filename
    · subst hf
      obtain ⟨_, hnone', hsome'⟩ := hinv f
      cases h : StdMap.find f (runCalls pre).iLoadedModelFiles with
      | none =>
        have := hnone'.mp h
        omega
      | some m =>
        have hm := hsome' m h
        rw [find_release _ f m h]
        simp only [if_true]
        refine ⟨by omega, ?_, ?_⟩
        · by_cases h0 : m.iRefCount - 1 = 0
          · simp only [h0, if_true, true_iff]
            omega
          · simp only [h0, if_false]
            constructor
            · intro hc; cases hc
            · intro hc; omega
        · intro m' hm'
          by_cases h0 : m.iRefCount - 1 = 0
          · simp [h0] at hm'
          · simp only [h0, if_false, Option.some.injEq] at hm'
            subst hm'
            simp only [ManagedModel.decRefCount]
            push_cast
            omega
    · have hf' : ¬ filename = f := fun g => hf g.symm
      simp only [hf', if_false, Nat.add_zero]
      cases h : StdMap.find filename (runCalls pre).iLoadedModelFiles with
      | none =>
        rw [release_unknown _ filename h]
        exact ⟨hle, hnone, hsome⟩
      | some m =>
        rw [find_release _ filename m h]
        simp only [hf, if_false]
        exact ⟨hle, hnone, hsome⟩

theorem countsMatch_append (calls pre : List CacheCall) (hinv : CountsMatch pre)
    (hrel : everyCall releaseMatched pre calls = true)
    (hacq : everyCall acquireSucceeds pre calls = true) : CountsMatch (pre ++ calls) := by
  induction calls generalizing pre with
  | nil => simpa using hinv
  | cons c rest ih =>
    simp only [everyCall, Bool.and_eq_true] at hrel hacq
    have := ih (pre ++ [c]) (countsMatch_snoc pre c hinv hrel.1 hacq.1) hrel.2 hacq.2
    simpa [List.append_assoc] using this

/-! ## Claims about the model cache -/

/-- C1: in every state reached from the empty cache by any sequence of
`acquireModelInstance` and `releaseModelInstance` calls, whatever the file
system answers at each call, every entry present in `iLoadedModelFiles` has a
reference count of at least 1. -/
theorem modelCache_refcount_ge_one (calls : List CacheCall) (e : String × ManagedModel)
    (he : e ∈ (runCalls calls).iLoadedModelFiles) : 1 ≤ e.2.iRefCount :=
  (refsPositive_runCalls calls).2 e he

theorem modelCache_refcount_ge_one_witness :
    (1 : Int) ≤ (("tree", { iModel := 1, iRefCount := 2 }) : String × ManagedModel).2.iRefCount :=
  modelCache_refcount_ge_one
    [.acquire sampleFs "vmaps/" "tree" 0, .acquire (fun _ => none) "vmaps/" "bush" 0,
     .acquire sampleFs "vmaps/" "tree" 0, .release "bush"]
    ("tree", { iModel := 1, iRefCount := 2 }) (by decide)

/-- C2: `acquireModelInstance(basepath, filename, flags)`. If `filename` is
not cached and the file loads, the call returns a non-null model holding the
parsed file and `flags`, and the cache gets an entry for `filename` with that
model and reference count exactly 1 (other entries unchanged); any later
acquire of `filename` in that state returns the same model. If `filename` is
cached with entry `m`, the outcome does not depend on the file system (the
file is not read), the model of `m` is returned, the count becomes
`m.iRefCount + 1`, and the heap and the other entries are unchanged. -/
theorem acquireModelInstance_spec (fs : FileSystem) (vm : ModelCache)
    (basepath filename : String) (flags : Nat) :
    (StdMap.find filename vm.iLoadedModelFiles = none →
      ∀ payload, fs (basepath ++ filename ++ ".vmo") = some payload →
        (acquireModelInstance fs vm basepath filename flags).ret ≠ NULL ∧
        StdMap.find filename (acquireModelInstance fs vm basepath filename flags).vm.iLoadedModelFiles
          = some { iModel := (acquireModelInstance fs vm basepath filename flags).ret,
                   iRefCount := 1 } ∧
        (acquireModelInstance fs vm basepath filename flags).vm.heap.get
            (acquireModelInstance fs vm basepath filename flags).ret
          = some { payload := payload, Flags := flags } ∧
        (∀ other, other ≠ filename →
          StdMap.find other (acquireModelInstance fs vm basepath filename flags).vm.iLoadedModelFiles
            = StdMap.find other vm.iLoadedModelFiles) ∧
        (∀ (fs' : FileSystem) (basepath' : String) (flags' : Nat),
          (acquireModelInstance fs' (acquireModelInstance fs vm basepath filename flags).vm
              basepath' filename flags').ret
            = (acquireModelInstance fs vm basepath filename flags).ret)) ∧
    (∀ m, StdMap.find filename vm.iLoadedModelFiles = some m →
        (∀ fs' : FileSystem, acquireModelInstance fs' vm basepath filename flags
          = acquireModelInstance fs vm basepath filename flags) ∧
        (acquireModelInstance fs vm basepath filename flags).ret = m.iModel ∧
        StdMap.find filename (acquireModelInstance fs vm basepath filename flags).vm.iLoadedModelFiles
          = some { iModel := m.iModel, iRefCount := m.iRefCount + 1 } ∧
        (acquireModelInstance fs vm basepath filename flags).vm.heap = vm.heap ∧
        (∀ other, other ≠ filename →
          StdMap.find other (acquireModelInstance fs vm basepath filename flags).vm.iLoadedModelFiles
            = StdMap.find other vm.iLoadedModelFiles)) := by
  -- the return value of an acquire that finds `filename` cached
  have hret : ∀ (fs' : FileSystem) (vm' : ModelCache) (bp : String) (fl : Nat) (m : ManagedModel),
      StdMap.find filename vm'.iLoadedModelFiles = some m →
      (acquireModelInstance fs' vm' bp filename fl).ret = m.iModel := by
    intro fs' vm' bp fl m hm
    rw [acquire_cached fs' vm' bp filename fl m hm]
    simp [acquireFound, StdMap.find_modify, hm, ManagedModel.getModel, ManagedModel.incRefCount]
  constructor
  · intro h payload hfs
    have hfind := find_acquire_loaded fs vm basepath filename flags payload h hfs
    have hr : (acquireModelInstance fs vm basepath filename flags).ret = vm.heap.allocs + 1 := by
      rw [acquire_loaded fs vm basepath filename flags payload h hfs]
      simp [acquireFound, StdMap.find_modify, StdMap.find_insert_absent _ _ _ _ h,
        ManagedModel.getModel, ManagedModel.incRefCount, ManagedModel.setModel]
    refine ⟨?_, ?_, ?_, ?_, ?_⟩
    · rw [hr]; exact Nat.succ_ne_zero _
    · rw [hfind filename, hr]; simp
    · rw [hr, acquire_loaded fs vm basepath filename flags payload h hfs]
      simp only [acquireFound, Heap.get, Heap.set, Heap.alloc, StdMap.find_modify,
        StdMap.find_cons, if_true, Option.map_some']
    · intro other hne
      rw [hfind other]; simp [hne]
    · intro fs' basepath' flags'
      rw [hret fs' _ basepath' flags' { iModel := vm.heap.allocs + 1, iRefCount := 1 }
        (by rw [hfind filename]; simp), hr]
  · intro m hm
    have hfind := find_acquire_cached fs vm basepath filename flags m hm
    refine ⟨?_, hret fs vm basepath flags m hm, ?_, ?_, ?_⟩
    · intro fs'
      rw [acquire_cached fs' vm basepath filename flags m hm,
        acquire_cached fs vm basepath filename flags m hm]
    · rw [hfind filename]; simp [ManagedModel.incRefCount]
    · rw [acquire_cached fs vm basepath filename flags m hm]; rfl
    · intro other hne
      rw [hfind other]; simp [hne]

theorem acquireModelInstance_spec_witness :
    (acquireModelInstance sampleFs {} "vmaps/" "tree" 4).ret ≠ NULL ∧
    StdMap.find "tree" (acquireModelInstance sampleFs {} "vmaps/" "tree" 4).vm.iLoadedModelFiles
      = some { iModel := (acquireModelInstance sampleFs {} "vmaps/" "tree" 4).ret,
               iRefCount := 1 } :=
  have h := (acquireModelInstance_spec sampleFs {} "vmaps/" "tree" 4).1 (by decide)
    [1, 2, 3] (by decide)
  ⟨h.1, h.2.1⟩

/-- C3: `releaseModelInstance(filename)` on a cached file name with entry `m`
lowers the count by exactly 1. The entry is gone afterwards if and only if
`m.iRefCount - 1 = 0`, and then the model object is deleted from the heap;
otherwise the entry stays with the same model and count `m.iRefCount - 1`,
and the heap is untouched. The entries of all other file names are
unchanged. -/
theorem releaseModelInstance_spec (vm : ModelCache) (filename : String) (m : ManagedModel)
    (h : StdMap.find filename vm.iLoadedModelFiles = some m) :
    (StdMap.find filename (releaseModelInstance vm filename).vm.iLoadedModelFiles = none
      ↔ m.iRefCount - 1 = 0) ∧
    (m.iRefCount - 1 = 0 → (releaseModelInstance vm filename).vm.heap.get m.iModel = none) ∧
    (m.iRefCount - 1 ≠ 0 →
      StdMap.find filename (releaseModelInstance vm filename).vm.iLoadedModelFiles
        = some { iModel := m.iModel, iRefCount := m.iRefCount - 1 } ∧
      (releaseModelInstance vm filename).vm.heap = vm.heap) ∧
    (∀ other, other ≠ filename →
      StdMap.find other (releaseModelInstance vm filename).vm.iLoadedModelFiles
        = StdMap.find other vm.iLoadedModelFiles) := by
  have hfind := find_release vm filename m h
  refine ⟨?_, ?_, ?_, ?_⟩
  · rw [hfind filename]
    by_cases h0 : m.iRefCount - 1 = 0 <;> simp [h0]
  · intro h0
    rw [release_last vm filename m h h0]
    simp [Heap.get, Heap.free, StdMap.find_erase]
  · intro h0
    constructor
    · rw [hfind filename]; simp [h0, ManagedModel.decRefCount]
    · rw [release_shared vm filename m h h0]
  · intro other hne
    rw [hfind other]; simp [hne]

theorem releaseModelInstance_spec_witness :
    (StdMap.find "tree" (releaseModelInstance
        { iLoadedModelFiles := [("tree", { iModel := 1, iRefCount := 2 })],
          heap := { objs := [(1, { payload := [1, 2, 3], Flags := 4 })], allocs := 1 } }
        "tree").vm.iLoadedModelFiles
      = some { iModel := 1, iRefCount := 2 - 1 }) :=
  ((releaseModelInstance_spec
      { iLoadedModelFiles := [("tree", { iModel := 1, iRefCount := 2 })],
        heap := { objs := [(1, { payload := [1, 2, 3], Flags := 4 })], allocs := 1 } }
      "tree" { iModel := 1, iRefCount := 2 } (by decide)).2.2.1 (by decide)).1

/-- C4: starting from the empty cache, for every sequence of calls in which
each acquire succeeds and each release of a file name is preceded by an
unmatched acquire of it, the releases of a file name never outnumber its
acquires; while the difference is positive the cache holds exactly one entry
for the name and its reference count is that difference; once the difference
is 0 the cache holds no entry for it. -/
theorem modelCache_refcount_counts (calls : List CacheCall)
    (hrel : everyCall releaseMatched [] calls = true)
    (hacq : everyCall acquireSucceeds [] calls = true) (f : String) :
    releases f calls ≤ acquires f calls ∧
    (releases f calls < acquires f calls →
      ∃ m, StdMap.find f (runCalls calls).iLoadedModelFiles = some m ∧
        m.iRefCount = (acquires f calls : Int) - (releases f calls : Int) ∧
        (StdMap.keys (runCalls calls).iLoadedModelFiles).count f = 1) ∧
    (acquires f calls = releases f calls →
      StdMap.find f (runCalls calls).iLoadedModelFiles = none ∧
        (StdMap.keys (runCalls calls).iLoadedModelFiles).count f = 0) := by
  have hinv : CountsMatch calls := by
    simpa using countsMatch_append calls [] countsMatch_nil hrel hacq
  obtain ⟨hle, hnone, hsome⟩ := hinv f
  have hnd := (refsPositive_runCalls calls).1
  refine ⟨hle, ?_, ?_⟩
  · intro hlt
    cases hf : StdMap.find f (runCalls calls).iLoadedModelFiles with
    | none =>
      have := hnone.mp hf
      omega
    | some m =>
      refine ⟨m, rfl, hsome m hf, ?_⟩
      apply List.count_eq_one_of_mem hnd
      have hmem := StdMap.mem_of_find f m _ hf
      exact List.mem_map_of_mem Prod.fst hmem
  · intro heq
    have hf := hnone.mpr heq
    exact ⟨hf, List.count_eq_zero_of_not_mem ((StdMap.find_eq_none_iff _ _).mp hf)⟩

theorem modelCache_refcount_counts_witness :
    (∃ m, StdMap.find "tree" (runCalls [.acquire sampleFs "vmaps/" "tree" 0,
          .acquire sampleFs "vmaps/" "tree" 0]).iLoadedModelFiles = some m ∧
        m.iRefCount = 2 ∧
        (StdMap.keys (runCalls [.acquire sampleFs "vmaps/" "tree" 0,
          .acquire sampleFs "vmaps/" "tree" 0]).iLoadedModelFiles).count "tree" = 1) ∧
    (∃ m, StdMap.find "tree" (runCalls [.acquire sampleFs "vmaps/" "tree" 0,
          .acquire sampleFs "vmaps/" "tree" 0, .release "tree"]).iLoadedModelFiles = some m ∧
        m.iRefCount = 1 ∧
        (StdMap.keys (runCalls [.acquire sampleFs "vmaps/" "tree" 0,
          .acquire sampleFs "vmaps/" "tree" 0, .release "tree"]).iLoadedModelFiles).count "tree"
          = 1) :=
  ⟨(modelCache_refcount_counts
      [.acquire sampleFs "vmaps/" "tree" 0, .acquire sampleFs "vmaps/" "tree" 0]
      (by decide) (by decide) "tree").2.1 (by decide),
   (modelCache_refcount_counts
      [.acquire sampleFs "vmaps/" "tree" 0, .acquire sampleFs "vmaps/" "tree" 0, .release "tree"]
      (by decide) (by decide) "tree").2.1 (by decide)⟩

/-- C5: when `acquireModelInstance` is called for a file name that is not
cached and `ReadFile` fails, it returns `NULL`, logs one error line, and
leaves `iLoadedModelFiles` exactly as it was. -/
theorem acquireModelInstance_load_failure (fs : FileSystem) (vm : ModelCache)
    (basepath filename : String) (flags : Nat)
    (h : StdMap.find filename vm.iLoadedModelFiles = none)
    (hfs : fs (basepath ++ filename ++ ".vmo") = none) :
    (acquireModelInstance fs vm basepath filename flags).ret = NULL ∧
    (acquireModelInstance fs vm basepath filename flags).vm.iLoadedModelFiles
      = vm.iLoadedModelFiles ∧
    (acquireModelInstance fs vm basepath filename flags).log
      = [.error ("VMapManager2: could not load \x27" ++ basepath ++ filename ++ ".vmo\x27!")] := by
  rw [acquire_failed fs vm basepath filename flags h hfs]
  exact ⟨rfl, rfl, rfl⟩

theorem acquireModelInstance_load_failure_witness :
    (acquireModelInstance sampleFs
        { iLoadedModelFiles := [("tree", { iModel := 1, iRefCount := 2 })],
          heap := { objs := [(1, { payload := [1, 2, 3], Flags := 4 })], allocs := 1 } }
        "vmaps/" "bush" 0).ret = NULL ∧
    (acquireModelInstance sampleFs
        { iLoadedModelFiles := [("tree", { iModel := 1, iRefCount := 2 })],
          heap := { objs := [(1, { payload := [1, 2, 3], Flags := 4 })], allocs := 1 } }
        "vmaps/" "bush" 0).vm.iLoadedModelFiles
      = [("tree", { iModel := 1, iRefCount := 2 })] :=
  have h := acquireModelInstance_load_failure sampleFs
    { iLoadedModelFiles := [("tree", { iModel := 1, iRefCount := 2 })],
      heap := { objs := [(1, { payload := [1, 2, 3], Flags := 4 })], allocs := 1 } }
    "vmaps/" "bush" 0 (by decide) (by decide)
  ⟨h.1, h.2.1⟩

/-- C6, as stated, fails: releasing the file name `tree`, which the empty
cache does not hold, returns normally and leaves the cache exactly as it
was; the only trace is one error log line. -/
theorem releaseModelInstance_unknown_returns_normally :
    StdMap.find "tree" ({} : ModelCache).iLoadedModelFiles = none ∧
    (releaseModelInstance {} "tree").ret = () ∧
    (releaseModelInstance {} "tree").vm = {} := by
  decide

/-- C6, amended: `releaseModelInstance` with a file name that is not in the
cache returns normally (the method is `void`, nothing is signalled to the
caller), leaves the whole cache state unchanged, and logs exactly one error
line naming the file. -/
theorem releaseModelInstance_unknown_logs_only (vm : ModelCache) (filename : String)
    (h : StdMap.find filename vm.iLoadedModelFiles = none) :
    (releaseModelInstance vm filename).vm = vm ∧
    (releaseModelInstance vm filename).log
      = [.error ("VMapManager2: trying to unload non-loaded file \x27" ++ filename ++ "\x27!")] := by
  rw [release_unknown vm filename h]
  exact ⟨rfl, rfl⟩

theorem releaseModelInstance_unknown_logs_only_witness :
    (releaseModelInstance
        { iLoadedModelFiles := [("tree", { iModel := 1, iRefCount := 2 })],
          heap := { objs := [(1, { payload := [1, 2, 3], Flags := 4 })], allocs := 1 } }
        "bush").vm
      = { iLoadedModelFiles := [("tree", { iModel := 1, iRefCount := 2 })],
          heap := { objs := [(1, { payload := [1, 2, 3], Flags := 4 })], allocs := 1 } } :=
  (releaseModelInstance_unknown_logs_only
    { iLoadedModelFiles := [("tree", { iModel := 1, iRefCount := 2 })],
      heap := { objs := [(1, { payload := [1, 2, 3], Flags := 4 })], allocs := 1 } }
    "bush" (by decide)).1

/-! ## Binary32 rounding -/

theorem ilog2Aux_spec (fuel n : Nat) (hfuel : n ≤ fuel) (hn : 0 < n) :
    2 ^ ilog2Aux fuel n ≤ n ∧ n < 2 ^ (ilog2Aux fuel n + 1) := by
  induction fuel generalizing n with
  | zero => omega
  | succ fuel ih =>
    unfold ilog2Aux
    by_cases h2 : n < 2
    · rw [if_pos h2]
      simp only [pow_zero, zero_add, pow_one]
      omega
    · rw [if_neg h2]
      obtain ⟨hlo, hhi⟩ := ih (n / 2) (by omega) (by omega)
      have e1 : 2 ^ (1 + ilog2Aux fuel (n / 2)) = 2 * 2 ^ ilog2Aux fuel (n / 2) := by
        rw [Nat.add_comm, pow_succ, Nat.mul_comm]
      have e2 : 2 ^ (1 + ilog2Aux fuel (n / 2) + 1) = 2 * 2 ^ (ilog2Aux fuel (n / 2) + 1) := by
        rw [pow_succ, Nat.mul_comm, Nat.add_comm 1]
      rw [e1, e2]
      omega

/-- The function `ilog2` is the integer binary logarithm. -/
theorem ilog2_spec (n : Nat) (hn : 0 < n) : 2 ^ ilog2 n ≤ n ∧ n < 2 ^ (ilog2 n + 1) :=
  ilog2Aux_spec n n (le_refl n) hn

/-- The rounded magnitude is a multiple `q * 2^s` of the quantum `2^s` that
lies within half a quantum of `a / b`, and on a tie `q` is even. -/
theorem roundUnits_nearest (a b m : Nat) (hb : 0 < b) (h : roundUnits a b = some m) :
    ∃ q : Nat, m = q * 2 ^ (ilog2 (a / b) - 23) ∧
      2 * ((m * b : Int) - a).natAbs ≤ b * 2 ^ (ilog2 (a / b) - 23) ∧
      (2 * ((m * b : Int) - a).natAbs = b * 2 ^ (ilog2 (a / b) - 23) → q % 2 = 0) := by
  unfold roundUnits at h
  simp only at h
  generalize ilog2 (a / b) - 23 = s at h ⊢
  set P := b * 2 ^ s with hP
  have hdiv := Nat.div_add_mod a P
  have hPpos : 0 < P := Nat.mul_pos hb (Nat.two_pow_pos s)
  have hr : a % P < P := Nat.mod_lt _ hPpos
  by_cases hup : P < 2 * (a % P) ∨ (2 * (a % P) = P ∧ a / P % 2 = 1)
  · rw [if_pos hup] at h
    split_ifs at h
    simp only [Option.some.injEq] at h
    refine ⟨a / P + 1, h.symm, ?_, ?_⟩
    · have hmb : (m * b : Int) = (P : Int) * (a / P : Nat) + P := by
        rw [← h, hP]; push_cast; ring
      have ha : (a : Int) = (P : Int) * (a / P : Nat) + (a % P : Nat) := by
        exact_mod_cast hdiv.symm
      rw [hmb, ha]
      rcases hup with hup | hup <;> omega
    · intro htie
      have hmb : (m * b : Int) = (P : Int) * (a / P : Nat) + P := by
        rw [← h, hP]; push_cast; ring
      have ha : (a : Int) = (P : Int) * (a / P : Nat) + (a % P : Nat) := by
        exact_mod_cast hdiv.symm
      rw [hmb, ha] at htie
      rcases hup with hup | hup <;> omega
  · rw [if_neg hup] at h
    split_ifs at h
    simp only [Option.some.injEq] at h
    refine ⟨a / P, h.symm, ?_, ?_⟩
    · have hmb : (m * b : Int) = (P : Int) * (a / P : Nat) := by
        rw [← h, hP]; push_cast; ring
      have ha : (a : Int) = (P : Int) * (a / P : Nat) + (a % P : Nat) := by
        exact_mod_cast hdiv.symm
      rw [hmb, ha]
      omega
    · intro htie
      have hmb : (m * b : Int) = (P : Int) * (a / P : Nat) := by
        rw [← h, hP]; push_cast; ring
      have ha : (a : Int) = (P : Int) * (a / P : Nat) + (a % P : Nat) := by
        exact_mod_cast hdiv.symm
      rw [hmb, ha] at htie
      have : ¬ a / P % 2 = 1 := fun h1 => hup (Or.inr ⟨by omega, h1⟩)
      omega

/-- The rounded magnitude has at most 24 significant bits: it is at most
`2^24` quanta. -/
theorem roundUnits_significand (a b m : Nat) (h : roundUnits a b = some m) :
    m ≤ 2 ^ 24 * 2 ^ (ilog2 (a / b) - 23) := by
  have hq : a / (b * 2 ^ (ilog2 (a / b) - 23)) < 2 ^ 24 := by
    rw [← Nat.div_div_eq_div_mul, Nat.div_lt_iff_lt_mul (Nat.two_pow_pos _), ← pow_add]
    rcases Nat.eq_zero_or_pos (a / b) with h0 | hpos
    · rw [h0]; exact Nat.two_pow_pos _
    · exact lt_of_lt_of_le (ilog2_spec _ hpos).2
        (Nat.pow_le_pow_right (by norm_num) (by omega))
  unfold roundUnits at h
  simp only at h
  generalize ilog2 (a / b) - 23 = s at h hq ⊢
  have hle : ∀ q', q' ≤ a / (b * 2 ^ s) + 1 → q' * 2 ^ s ≤ 2 ^ 24 * 2 ^ s := fun q' hq' =>
    Nat.mul_le_mul_right _ (by omega)
  split_ifs at h with h1 h2 h2
  · simp only [Option.some.injEq] at h
    rw [← h]; exact hle _ (le_refl _)
  · simp only [Option.some.injEq] at h
    rw [← h]; exact hle _ (Nat.le_succ _)

/-! ## The coordinate transform -/

theorem mid_eq : mid = .finite false (8738133 * 2 ^ 140) := by decide

theorem mid_representable : roundUnits (8738133 * 2 ^ 140) 1 = some (8738133 * 2 ^ 140) := by
  decide

theorem convert_eq (x y z : F32) :
    convertPositionToInternalRep x y z = { x := F32.sub mid x, y := F32.sub mid y, z := z } :=
  rfl

theorem sub_finite (na nb : Bool) (ma mb : Nat) :
    F32.sub (.finite na ma) (.finite nb mb) =
      if F32.signed na ma - F32.signed nb mb = 0 then .finite (na && !nb) 0
      else F32.ofRounded (decide (F32.signed na ma - F32.signed nb mb < 0))
        (roundUnits (F32.signed na ma - F32.signed nb mb).natAbs 1) := rfl

theorem signed_natAbs (neg : Bool) (mag : Nat) (h : F32.signed neg mag ≠ 0) :
    decide (F32.signed neg mag < 0) = neg ∧ (F32.signed neg mag).natAbs = mag := by
  cases neg
  · simp only [F32.signed] at h ⊢
    simp
  · simp only [F32.signed, if_true] at h ⊢
    simp only [Int.natAbs_neg, Int.natAbs_ofNat, and_true, decide_eq_true_eq]
    omega

/-- Subtracting twice from the same positive binary32 `c` gives back `x`,
provided the first subtraction is exact. -/
theorem sub_sub_cancel (c : Nat) (hc : 0 < c) (hcr : roundUnits c 1 = some c) (x : F32)
    (hx : x.Representable) (hnz : x ≠ .finite true 0)
    (hex : F32.SubExact (.finite false c) x) :
    F32.sub (.finite false c) (F32.sub (.finite false c) x) = x := by
  cases x with
  | inf _ => exact absurd hx (by simp [F32.Representable])
  | nan => exact absurd hx (by simp [F32.Representable])
  | finite nx mx =>
    simp only [F32.Representable] at hx
    obtain ⟨va, vb, hva, hvb, hres⟩ := hex
    simp only [F32.units, Option.some.injEq] at hva hvb
    subst hva; subst hvb
    have hsc : F32.signed false c = (c : Int) := rfl
    rw [sub_finite] at hres ⊢
    by_cases hd : F32.signed false c - F32.signed nx mx = 0
    · -- `x` is `c` itself
      have hxc : F32.signed nx mx = (c : Int) := by rw [hsc] at hd; omega
      have hne : F32.signed nx mx ≠ 0 := by rw [hxc]; exact_mod_cast hc.ne'
      obtain ⟨hs, hm⟩ := signed_natAbs nx mx hne
      have hmx : mx = c := by rw [← hm, hxc]; rfl
      have hnx : nx = false := by
        rw [← hs, hxc]; simp
      subst hmx; subst hnx
      rw [if_pos hd, sub_finite]
      have h0 : F32.signed (false && !false) 0 = 0 := rfl
      have hne' : ¬ (F32.signed false mx - F32.signed (false && !false) 0 = 0) := by
        rw [h0, hsc]; omega
      rw [if_neg hne']
      have hval : F32.signed false mx - F32.signed (false && !false) 0 = (mx : Int) := by
        rw [h0, hsc]; omega
      rw [hval]
      simp [hcr, F32.ofRounded]
    · rw [if_neg hd] at hres ⊢
      -- the first difference is not rounded
      cases hr : roundUnits (F32.signed false c - F32.signed nx mx).natAbs 1 with
      | none => rw [hr] at hres; simp [F32.ofRounded, F32.units] at hres
      | some m' =>
        rw [hr] at hres
        simp only [F32.ofRounded, F32.units, Option.some.injEq] at hres ⊢
        rw [sub_finite, hres]
        have hval : F32.signed false c - (F32.signed false c - F32.signed nx mx)
            = F32.signed nx mx := by omega
        rw [hval]
        by_cases hx0 : F32.signed nx mx = 0
        · rw [if_pos hx0]
          have hmx : mx = 0 := by
            cases nx <;> simp [F32.signed] at hx0 <;> exact hx0
          subst hmx
          have hnx : nx = false := by
            cases nx
            · rfl
            · exact absurd rfl hnz
          subst hnx
          have : decide (F32.signed false c - F32.signed false 0 < 0) = false := by
            simp [F32.signed]
          rw [this]
          rfl
        · rw [if_neg hx0]
          obtain ⟨hs, hm⟩ := signed_natAbs nx mx hx0
          rw [hs, hm, hx]
          rfl

/-! ## Claims about the coordinate transform -/

/-- C7, as stated, fails: the world coordinate `x = 0.1f` (with `y = z = 0`)
lies within the map bounds, yet transforming it twice yields
`0.099609375 = 51 * 2^-9`, not `0.1f = 13421773 * 2^-27`: the intermediate
`mid - 0.1f` is rounded to a multiple of `2^-9`. -/
theorem convertPosition_roundtrip_inexact :
    F32.lit 1 10 = .finite false (13421773 * 2 ^ 122) ∧
    (convertPositionToInternalRep
        (convertPositionToInternalRep (F32.lit 1 10) (F32.lit 0 1) (F32.lit 0 1)).x
        (convertPositionToInternalRep (F32.lit 1 10) (F32.lit 0 1) (F32.lit 0 1)).y
        (convertPositionToInternalRep (F32.lit 1 10) (F32.lit 0 1) (F32.lit 0 1)).z).x
      = .finite false (51 * 2 ^ 140) ∧
    convertPositionToInternalRep
        (convertPositionToInternalRep (F32.lit 1 10) (F32.lit 0 1) (F32.lit 0 1)).x
        (convertPositionToInternalRep (F32.lit 1 10) (F32.lit 0 1) (F32.lit 0 1)).y
        (convertPositionToInternalRep (F32.lit 1 10) (F32.lit 0 1) (F32.lit 0 1)).z
      ≠ { x := F32.lit 1 10, y := F32.lit 0 1, z := F32.lit 0 1 } := by
  decide

/-- C7, amended: applying `convertPositionToInternalRep` twice returns `z`
exactly for every `z`, and returns `x` (likewise `y`) exactly whenever `x` is
a finite binary32 other than negative zero and the first subtraction
`mid - x` is exact, that is, involves no rounding. -/
theorem convertPosition_roundtrip_exact (x y z : F32) :
    (convertPositionToInternalRep
        (convertPositionToInternalRep x y z).x
        (convertPositionToInternalRep x y z).y
        (convertPositionToInternalRep x y z).z).z = z ∧
    (x.Representable → x ≠ .finite true 0 → F32.SubExact mid x →
      (convertPositionToInternalRep
        (convertPositionToInternalRep x y z).x
        (convertPositionToInternalRep x y z).y
        (convertPositionToInternalRep x y z).z).x = x) ∧
    (y.Representable → y ≠ .finite true 0 → F32.SubExact mid y →
      (convertPositionToInternalRep
        (convertPositionToInternalRep x y z).x
        (convertPositionToInternalRep x y z).y
        (convertPositionToInternalRep x y z).z).y = y) := by
  refine ⟨rfl, ?_, ?_⟩
  · intro hr hnz hex
    simp only [convert_eq]
    rw [mid_eq] at hex ⊢
    exact sub_sub_cancel _ (by norm_num) mid_representable x hr hnz hex
  · intro hr hnz hex
    simp only [convert_eq]
    rw [mid_eq] at hex ⊢
    exact sub_sub_cancel _ (by norm_num) mid_representable y hr hnz hex

theorem convertPosition_roundtrip_exact_witness :
    (convertPositionToInternalRep
        (convertPositionToInternalRep (F32.lit 1 1) (F32.lit 2 1) (F32.lit 3 1)).x
        (convertPositionToInternalRep (F32.lit 1 1) (F32.lit 2 1) (F32.lit 3 1)).y
        (convertPositionToInternalRep (F32.lit 1 1) (F32.lit 2 1) (F32.lit 3 1)).z).x
      = F32.lit 1 1 :=
  (convertPosition_roundtrip_exact (F32.lit 1 1) (F32.lit 2 1) (F32.lit 3 1)).2.1
    (by decide) (by decide)
    ⟨8738133 * 2 ^ 140, 2 ^ 149, by decide, by decide, by decide⟩

/-- C8: for every `(x, y, z)`, `convertPositionToInternalRep(x, y, z)` is
`(mid - x, mid - y, z)` in binary32 arithmetic, where `mid` is the binary32
product `0.5f * 64.0f * 533.33333333f` (which evaluates to
`17066.666015625 = 8738133 * 2^-9`); the `z` component is passed through
unchanged. -/
theorem convertPositionToInternalRep_spec (x y z : F32) :
    convertPositionToInternalRep x y z
      = { x := F32.sub mid x, y := F32.sub mid y, z := z } ∧
    (convertPositionToInternalRep x y z).z = z ∧
    mid = F32.mul (F32.mul (F32.lit 5 10) (F32.lit 64 1)) (F32.lit 53333333333 100000000) ∧
    mid = .finite false (8738133 * 2 ^ 140) :=
  ⟨rfl, rfl, rfl, mid_eq⟩

/-! ## Loading maps -/

theorem loadMap_enabled_fst {Tree : Type} (T : StaticMapTreeOps Tree) (ext : String)
    (vm : VMapManager2 Tree) (basePath : String) (mapId : Nat) (x y : Int) :
    (loadMap T ext true vm basePath mapId x y).1 =
      if (_loadMap T ext vm mapId basePath (toUInt32 x) (toUInt32 y)).1
      then .VMAP_LOAD_RESULT_OK else .VMAP_LOAD_RESULT_ERROR := by
  simp only [loadMap, if_true]
  split <;> rfl

theorem loadMap_enabled_snd {Tree : Type} (T : StaticMapTreeOps Tree) (ext : String)
    (vm : VMapManager2 Tree) (basePath : String) (mapId : Nat) (x y : Int) :
    (loadMap T ext true vm basePath mapId x y).2 =
      (_loadMap T ext vm mapId basePath (toUInt32 x) (toUInt32 y)).2 := by
  simp only [loadMap, if_true]
  split <;> rfl

theorem _loadMap_registered {Tree : Type} (T : StaticMapTreeOps Tree) (ext : String)
    (vm : VMapManager2 Tree) (basePath : String) (mapId tileX tileY : Nat) (tree : Tree)
    (h : StdMap.find mapId vm.iInstanceMapTrees = some tree) :
    _loadMap T ext vm mapId basePath tileX tileY = loadMapTileOf T vm mapId tree tileX tileY := by
  simp only [_loadMap, h]

theorem _loadMap_init_failed {Tree : Type} (T : StaticMapTreeOps Tree) (ext : String)
    (vm : VMapManager2 Tree) (basePath : String) (mapId tileX tileY : Nat)
    (h : StdMap.find mapId vm.iInstanceMapTrees = none)
    (hinit : (T.InitMap (T.create mapId basePath) (getMapFileName ext mapId) vm.models).1
      = false) :
    _loadMap T ext vm mapId basePath tileX tileY =
      (false, { vm with models :=
        (T.InitMap (T.create mapId basePath) (getMapFileName ext mapId) vm.models).2.2 }) := by
  simp only [_loadMap, h, hinit]
  rfl

theorem _loadMap_init_ok {Tree : Type} (T : StaticMapTreeOps Tree) (ext : String)
    (vm : VMapManager2 Tree) (basePath : String) (mapId tileX tileY : Nat)
    (h : StdMap.find mapId vm.iInstanceMapTrees = none)
    (hinit : (T.InitMap (T.create mapId basePath) (getMapFileName ext mapId) vm.models).1
      = true) :
    _loadMap T ext vm mapId basePath tileX tileY =
      loadMapTileOf T
        { iInstanceMapTrees := StdMap.insert mapId
            (T.InitMap (T.create mapId basePath) (getMapFileName ext mapId) vm.models).2.1
            vm.iInstanceMapTrees,
          models :=
            (T.InitMap (T.create mapId basePath) (getMapFileName ext mapId) vm.models).2.2 }
        mapId (T.InitMap (T.create mapId basePath) (getMapFileName ext mapId) vm.models).2.1
        tileX tileY := by
  simp only [_loadMap, h, hinit]
  rfl

theorem loadMapTileOf_fst {Tree : Type} (T : StaticMapTreeOps Tree) (vm : VMapManager2 Tree)
    (mapId : Nat) (tree : Tree) (tileX tileY : Nat) :
    (loadMapTileOf T vm mapId tree tileX tileY).1 = (T.LoadMapTile tree tileX tileY vm.models).1 :=
  rfl

theorem result_ok_iff (b : Bool) :
    (if b then VMAPLoadResult.VMAP_LOAD_RESULT_OK else VMAPLoadResult.VMAP_LOAD_RESULT_ERROR)
      = .VMAP_LOAD_RESULT_OK ↔ b = true := by
  cases b <;> simp

/-! ## Claims about `loadMap` -/

/-- C9: `loadMap` returns `VMAP_LOAD_RESULT_IGNORED` if and only if map
loading is disabled, and then the manager state (registry and model cache) is
untouched. With loading enabled the result is `VMAP_LOAD_RESULT_OK` exactly
when `LoadMapTile` succeeds on the map's Tile Index (the registered one, or
the one that `InitMap` just initialised successfully), and
`VMAP_LOAD_RESULT_ERROR` otherwise. -/
theorem loadMap_result {Tree : Type} (T : StaticMapTreeOps Tree) (ext : String)
    (enabled : Bool) (vm : VMapManager2 Tree) (basePath : String) (mapId : Nat) (x y : Int) :
    ((loadMap T ext enabled vm basePath mapId x y).1 = .VMAP_LOAD_RESULT_IGNORED
      ↔ enabled = false) ∧
    (enabled = false →
      (loadMap T ext enabled vm basePath mapId x y).2.iInstanceMapTrees = vm.iInstanceMapTrees ∧
      (loadMap T ext enabled vm basePath mapId x y).2.models = vm.models) ∧
    (enabled = true →
      (∀ tree, StdMap.find mapId vm.iInstanceMapTrees = some tree →
        ((loadMap T ext enabled vm basePath mapId x y).1 = .VMAP_LOAD_RESULT_OK ↔
          (T.LoadMapTile tree (toUInt32 x) (toUInt32 y) vm.models).1 = true)) ∧
      (StdMap.find mapId vm.iInstanceMapTrees = none →
        ((loadMap T ext enabled vm basePath mapId x y).1 = .VMAP_LOAD_RESULT_OK ↔
          (T.InitMap (T.create mapId basePath) (getMapFileName ext mapId) vm.models).1 = true ∧
          (T.LoadMapTile
              (T.InitMap (T.create mapId basePath) (getMapFileName ext mapId) vm.models).2.1
              (toUInt32 x) (toUInt32 y)
              (T.InitMap (T.create mapId basePath) (getMapFileName ext mapId) vm.models).2.2).1
            = true)) ∧
      ((loadMap T ext enabled vm basePath mapId x y).1 ≠ .VMAP_LOAD_RESULT_OK →
        (loadMap T ext enabled vm basePath mapId x y).1 = .VMAP_LOAD_RESULT_ERROR)) := by
  cases enabled with
  | false => simp [loadMap]
  | true =>
    refine ⟨?_, by simp, fun _ => ⟨?_, ?_, ?_⟩⟩
    · rw [loadMap_enabled_fst]
      split <;> simp
    · intro tree htree
      rw [loadMap_enabled_fst, result_ok_iff, _loadMap_registered T ext vm basePath mapId _ _ tree
        htree, loadMapTileOf_fst]
    · intro hnone
      rw [loadMap_enabled_fst, result_ok_iff]
      cases hinit : (T.InitMap (T.create mapId basePath) (getMapFileName ext mapId) vm.models).1
      · rw [_loadMap_init_failed T ext vm basePath mapId _ _ hnone hinit]
        simp
      · rw [_loadMap_init_ok T ext vm basePath mapId _ _ hnone hinit, loadMapTileOf_fst]
        simp
    · rw [loadMap_enabled_fst]
      split <;> simp

theorem loadMap_result_witness :
    (loadMap sampleTreeOps ".vmtree" true {} "vmaps/" 0 32 32).1 = .VMAP_LOAD_RESULT_OK :=
  (((loadMap_result sampleTreeOps ".vmtree" true {} "vmaps/" 0 32 32).2.2 rfl).2.1
    (by decide)).mpr (by decide)

/-- C10: when `loadMap` (with loading enabled) is called for a map id that
is not in the registry and `InitMap` fails, the result is
`VMAP_LOAD_RESULT_ERROR`, the registry is unchanged (so the map id stays
unregistered), the model cache is the one `InitMap` left, and `LoadMapTile`
is never invoked: the outcome is the same for every Tile Index
implementation with the same constructor and `InitMap`. -/
theorem loadMap_initMap_failure {Tree : Type} (T : StaticMapTreeOps Tree) (ext : String)
    (vm : VMapManager2 Tree) (basePath : String) (mapId : Nat) (x y : Int)
    (hnone : StdMap.find mapId vm.iInstanceMapTrees = none)
    (hinit : (T.InitMap (T.create mapId basePath) (getMapFileName ext mapId) vm.models).1
      = false) :
    (loadMap T ext true vm basePath mapId x y).1 = .VMAP_LOAD_RESULT_ERROR ∧
    (loadMap T ext true vm basePath mapId x y).2.iInstanceMapTrees = vm.iInstanceMapTrees ∧
    StdMap.find mapId (loadMap T ext true vm basePath mapId x y).2.iInstanceMapTrees = none ∧
    (loadMap T ext true vm basePath mapId x y).2.models
      = (T.InitMap (T.create mapId basePath) (getMapFileName ext mapId) vm.models).2.2 ∧
    (∀ T' : StaticMapTreeOps Tree, T'.create = T.create → T'.InitMap = T.InitMap →
      (loadMap T' ext true vm basePath mapId x y).1 = (loadMap T ext true vm basePath mapId x y).1 ∧
      (loadMap T' ext true vm basePath mapId x y).2.iInstanceMapTrees
        = (loadMap T ext true vm basePath mapId x y).2.iInstanceMapTrees ∧
      (loadMap T' ext true vm basePath mapId x y).2.models
        = (loadMap T ext true vm basePath mapId x y).2.models) := by
  have key : ∀ T' : StaticMapTreeOps Tree, T'.create = T.create → T'.InitMap = T.InitMap →
      loadMap T' ext true vm basePath mapId x y =
        (.VMAP_LOAD_RESULT_ERROR,
          { vm with models :=
              (T.InitMap (T.create mapId basePath) (getMapFileName ext mapId) vm.models).2.2 }) := by
    intro T' hc hi
    have hinit' : (T'.InitMap (T'.create mapId basePath) (getMapFileName ext mapId)
        vm.models).1 = false := by rw [hc, hi]; exact hinit
    apply Prod.ext
    · rw [loadMap_enabled_fst, _loadMap_init_failed T' ext vm basePath mapId _ _ hnone hinit']
      rfl
    · rw [loadMap_enabled_snd, _loadMap_init_failed T' ext vm basePath mapId _ _ hnone hinit',
        hc, hi]
  have h0 := key T rfl rfl
  refine ⟨by rw [h0], by rw [h0], by rw [h0]; exact hnone, by rw [h0], ?_⟩
  intro T' hc hi
  rw [h0, key T' hc hi]
  exact ⟨rfl, rfl, rfl⟩

theorem loadMap_initMap_failure_witness :
    (loadMap sampleTreeOps ".vmtree" true {} "vmaps/" 7 32 32).1 = .VMAP_LOAD_RESULT_ERROR :=
  (loadMap_initMap_failure sampleTreeOps ".vmtree" {} "vmaps/" 7 32 32 (by decide)
    (by decide)).1

/-! ## Unloading maps -/

theorem find_eraseIfEmpty {Tree : Type} (T : StaticMapTreeOps Tree) (mapId : Nat)
    (r : Tree × ModelCache) (vm : VMapManager2 Tree) (k : Nat) :
    StdMap.find k (eraseIfEmpty T mapId r vm).iInstanceMapTrees =
      if k = mapId then
        (if T.numLoadedTiles r.1 = 0 then none
         else (StdMap.find mapId vm.iInstanceMapTrees).map (fun _ => r.1))
      else StdMap.find k vm.iInstanceMapTrees := by
  unfold eraseIfEmpty
  by_cases h0 : T.numLoadedTiles r.1 = 0
  · simp only [h0, if_true, StdMap.find_erase]
  · simp only [h0, if_false, StdMap.find_modify]

theorem unloadMap_registered {Tree : Type} (T : StaticMapTreeOps Tree) (vm : VMapManager2 Tree)
    (mapId : Nat) (tree : Tree) (h : StdMap.find mapId vm.iInstanceMapTrees = some tree) :
    unloadMap T vm mapId = eraseIfEmpty T mapId (T.UnloadMap tree vm.models) vm := by
  simp only [unloadMap, h]

theorem unloadMapTile_registered {Tree : Type} (T : StaticMapTreeOps Tree)
    (vm : VMapManager2 Tree) (mapId : Nat) (x y : Int) (tree : Tree)
    (h : StdMap.find mapId vm.iInstanceMapTrees = some tree) :
    unloadMapTile T vm mapId x y = eraseIfEmpty T mapId (T.UnloadMapTile tree x y vm.models) vm := by
  simp only [unloadMapTile, h]

theorem unloadMap_unregistered {Tree : Type} (T : StaticMapTreeOps Tree)
    (vm : VMapManager2 Tree) (mapId : Nat) (h : StdMap.find mapId vm.iInstanceMapTrees = none) :
    unloadMap T vm mapId = vm := by
  simp only [unloadMap, h]

theorem unloadMapTile_unregistered {Tree : Type} (T : StaticMapTreeOps Tree)
    (vm : VMapManager2 Tree) (mapId : Nat) (x y : Int)
    (h : StdMap.find mapId vm.iInstanceMapTrees = none) :
    unloadMapTile T vm mapId x y = vm := by
  simp only [unloadMapTile, h]

theorem find_unloadMap_other {Tree : Type} (T : StaticMapTreeOps Tree) (vm : VMapManager2 Tree)
    (mapId other : Nat) (hne : other ≠ mapId) :
    StdMap.find other (unloadMap T vm mapId).iInstanceMapTrees
      = StdMap.find other vm.iInstanceMapTrees := by
  cases h : StdMap.find mapId vm.iInstanceMapTrees with
  | none => rw [unloadMap_unregistered T vm mapId h]
  | some tree =>
    rw [unloadMap_registered T vm mapId tree h, find_eraseIfEmpty, if_neg hne]

theorem find_unloadMapTile_other {Tree : Type} (T : StaticMapTreeOps Tree)
    (vm : VMapManager2 Tree) (mapId other : Nat) (x y : Int) (hne : other ≠ mapId) :
    StdMap.find other (unloadMapTile T vm mapId x y).iInstanceMapTrees
      = StdMap.find other vm.iInstanceMapTrees := by
  cases h : StdMap.find mapId vm.iInstanceMapTrees with
  | none => rw [unloadMapTile_unregistered T vm mapId x y h]
  | some tree =>
    rw [unloadMapTile_registered T vm mapId x y tree h, find_eraseIfEmpty, if_neg hne]

/-! ## Claims about unloading -/

/-- C11: for `unloadMap(mapId)` and `unloadMap(mapId, x, y)` on a registered
map id, the id is still registered after the call if and only if its Tile
Index reports `numLoadedTiles() > 0` after the delegated unload (it then
holds that unloaded index), and it is removed when the count is 0. The
indices of all other map ids are unchanged, and on an unregistered map id
both calls leave the manager unchanged. -/
theorem unloadMap_registry {Tree : Type} (T : StaticMapTreeOps Tree) (vm : VMapManager2 Tree)
    (mapId : Nat) (x y : Int) :
    (∀ tree, StdMap.find mapId vm.iInstanceMapTrees = some tree →
      ((StdMap.find mapId (unloadMap T vm mapId).iInstanceMapTrees ≠ none
          ↔ 0 < T.numLoadedTiles (T.UnloadMap tree vm.models).1) ∧
        (0 < T.numLoadedTiles (T.UnloadMap tree vm.models).1 →
          StdMap.find mapId (unloadMap T vm mapId).iInstanceMapTrees
            = some (T.UnloadMap tree vm.models).1)) ∧
      ((StdMap.find mapId (unloadMapTile T vm mapId x y).iInstanceMapTrees ≠ none
          ↔ 0 < T.numLoadedTiles (T.UnloadMapTile tree x y vm.models).1) ∧
        (0 < T.numLoadedTiles (T.UnloadMapTile tree x y vm.models).1 →
          StdMap.find mapId (unloadMapTile T vm mapId x y).iInstanceMapTrees
            = some (T.UnloadMapTile tree x y vm.models).1))) ∧
    (∀ other, other ≠ mapId →
      StdMap.find other (unloadMap T vm mapId).iInstanceMapTrees
        = StdMap.find other vm.iInstanceMapTrees ∧
      StdMap.find other (unloadMapTile T vm mapId x y).iInstanceMapTrees
        = StdMap.find other vm.iInstanceMapTrees) ∧
    (StdMap.find mapId vm.iInstanceMapTrees = none →
      unloadMap T vm mapId = vm ∧ unloadMapTile T vm mapId x y = vm) := by
  refine ⟨?_, ?_, ?_⟩
  · intro tree h
    have key : ∀ r : Tree × ModelCache,
        (StdMap.find mapId (eraseIfEmpty T mapId r vm).iInstanceMapTrees ≠ none
          ↔ 0 < T.numLoadedTiles r.1) ∧
        (0 < T.numLoadedTiles r.1 →
          StdMap.find mapId (eraseIfEmpty T mapId r vm).iInstanceMapTrees = some r.1) := by
      intro r
      rw [find_eraseIfEmpty, if_pos rfl, h]
      by_cases h0 : T.numLoadedTiles r.1 = 0
      · simp [h0]
      · simp [h0, Nat.pos_of_ne_zero h0]
    rw [unloadMap_registered T vm mapId tree h, unloadMapTile_registered T vm mapId x y tree h]
    exact ⟨key _, key _⟩
  · intro other hne
    exact ⟨find_unloadMap_other T vm mapId other hne,
      find_unloadMapTile_other T vm mapId other x y hne⟩
  · intro h
    exact ⟨unloadMap_unregistered T vm mapId h, unloadMapTile_unregistered T vm mapId x y h⟩

theorem unloadMap_registry_witness :
    StdMap.find 0 (unloadMapTile sampleTreeOps
        { iInstanceMapTrees := [(0, [(32, 33), (32, 32)])],
          models := { iLoadedModelFiles := [("tree", { iModel := 1, iRefCount := 2 })],
                      heap := { objs := [(1, { payload := [1, 2, 3], Flags := 0 })],
                                allocs := 1 } } }
        0 32 32).iInstanceMapTrees
      = some [(32, 33)] :=
  (((unloadMap_registry sampleTreeOps
      { iInstanceMapTrees := [(0, [(32, 33), (32, 32)])],
        models := { iLoadedModelFiles := [("tree", { iModel := 1, iRefCount := 2 })],
                    heap := { objs := [(1, { payload := [1, 2, 3], Flags := 0 })],
                              allocs := 1 } } }
      0 32 32).1 [(32, 33), (32, 32)] (by decide)).2.2) (by decide)

/-! ## Queries -/

theorem isInLineOfSight_skipped {Tree Info : Type} (Q : StaticMapTreeQueries Tree Info)
    (cfg : QueryConfig) (vm : VMapManager2 Tree) (mapId : Nat) (x1 y1 z1 x2 y2 z2 : F32)
    (h : cfg.isLineOfSightCalcEnabled = false ∨
      cfg.IsVMAPDisabledForPtr mapId .VMAP_DISABLE_LOS = true) :
    isInLineOfSight Q cfg vm mapId x1 y1 z1 x2 y2 z2 = true := by
  unfold isInLineOfSight
  rcases h with h | h <;> simp [h]

theorem isInLineOfSight_unregistered {Tree Info : Type} (Q : StaticMapTreeQueries Tree Info)
    (cfg : QueryConfig) (vm : VMapManager2 Tree) (mapId : Nat) (x1 y1 z1 x2 y2 z2 : F32)
    (h : StdMap.find mapId vm.iInstanceMapTrees = none) :
    isInLineOfSight Q cfg vm mapId x1 y1 z1 x2 y2 z2 = true := by
  unfold isInLineOfSight
  rw [h]
  split <;> rfl

theorem isInLineOfSight_registered {Tree Info : Type} (Q : StaticMapTreeQueries Tree Info)
    (cfg : QueryConfig) (vm : VMapManager2 Tree) (mapId : Nat) (x1 y1 z1 x2 y2 z2 : F32)
    (tree : Tree) (hen : cfg.isLineOfSightCalcEnabled = true)
    (hmap : cfg.IsVMAPDisabledForPtr mapId .VMAP_DISABLE_LOS = false)
    (h : StdMap.find mapId vm.iInstanceMapTrees = some tree) :
    isInLineOfSight Q cfg vm mapId x1 y1 z1 x2 y2 z2 =
      if Vector3.ne (convertPositionToInternalRep x1 y1 z1) (convertPositionToInternalRep x2 y2 z2)
      then Q.isInLineOfSight tree (convertPositionToInternalRep x1 y1 z1)
        (convertPositionToInternalRep x2 y2 z2)
      else true := by
  unfold isInLineOfSight
  rw [h]
  simp [hen, hmap]

theorem F32.ne_symm (a b : F32) : F32.ne a b = F32.ne b a := by
  cases a with
  | finite na ma =>
    cases b with
    | finite nb mb =>
      simp only [F32.ne]
      by_cases h : F32.signed na ma = F32.signed nb mb
      · simp [h]
      · have h' : ¬ F32.signed nb mb = F32.signed na ma := fun g => h g.symm
        simp [h, h']
    | inf nb => rfl
    | nan => rfl
  | inf na =>
    cases b with
    | finite nb mb => rfl
    | inf nb => cases na <;> cases nb <;> rfl
    | nan => rfl
  | nan => cases b <;> rfl

theorem Vector3.ne_swap (a b : Vector3) : Vector3.ne a b = Vector3.ne b a := by
  simp only [Vector3.ne, F32.ne_symm a.x b.x, F32.ne_symm a.y b.y, F32.ne_symm a.z b.z]

theorem Triangle.meetsSegment_comm (tri : Triangle) (p q : Point3) :
    tri.meetsSegment p q ↔ tri.meetsSegment q p := by
  have key : ∀ p q : Point3, tri.meetsSegment p q → tri.meetsSegment q p := by
    rintro p q ⟨t, u, v, ht0, ht1, hu, hv, huv, hx, hy, hz⟩
    refine ⟨1 - t, u, v, by linarith, by linarith, hu, hv, huv, ?_, ?_, ?_⟩
    · rw [← hx]; ring
    · rw [← hy]; ring
    · rw [← hz]; ring
  exact ⟨key p q, key q p⟩

theorem lineOfSightContract_comm {Tree Info : Type} (Q : StaticMapTreeQueries Tree Info)
    (blocking : Tree → List Triangle) (hQ : LineOfSightContract Q blocking) (tree : Tree)
    (a b : Vector3) : Q.isInLineOfSight tree a b = Q.isInLineOfSight tree b a := by
  have key : ∀ a b : Vector3, Q.isInLineOfSight tree a b = true →
      Q.isInLineOfSight tree b a = true := by
    intro a b hab
    rw [hQ tree b a]
    rintro ⟨tri, htri, p, q, hp, hq, hmeet⟩
    exact (hQ tree a b).mp hab ⟨tri, htri, q, p, hq, hp, (tri.meetsSegment_comm p q).mp hmeet⟩
  cases hab : Q.isInLineOfSight tree a b with
  | true => exact (key a b hab).symm
  | false =>
    cases hba : Q.isInLineOfSight tree b a with
    | false => rfl
    | true => rw [key b a hba] at hab; cases hab

/-! ### The floor geometry meets the line-of-sight contract -/

theorem feasible_iff (cs : List (Int × Int)) (hlow : ∃ c ∈ cs, 0 < c.2) :
    feasible cs = true ↔ ∃ t : ℚ, ∀ c ∈ cs, 0 ≤ (c.1 : ℚ) + (c.2 : ℚ) * t := by
  have hunfold : feasible cs = true ↔
      ∀ c1 ∈ cs, (c1.2 = 0 → 0 ≤ c1.1) ∧
        ∀ c2 ∈ cs, 0 < c1.2 → c2.2 < 0 → 0 ≤ c1.2 * c2.1 - c2.2 * c1.1 := by
    simp only [feasible, List.all_eq_true, Bool.and_eq_true, decide_eq_true_eq]
  rw [hunfold]
  constructor
  · intro hf
    obtain ⟨c0, hc0, hpos0⟩ := hlow
    have hne : (cs.filter (fun c => decide (0 < c.2))).toFinset.Nonempty :=
      ⟨c0, by simp [hc0, hpos0]⟩
    obtain ⟨c1, hc1, hmax⟩ :=
      Finset.exists_max_image _ (fun c : Int × Int => -(c.1 : ℚ) / (c.2 : ℚ)) hne
    have hc1' : c1 ∈ cs ∧ 0 < c1.2 := by simpa using hc1
    have hb1 : (0 : ℚ) < (c1.2 : ℚ) := by exact_mod_cast hc1'.2
    refine ⟨-(c1.1 : ℚ) / (c1.2 : ℚ), fun c hc => ?_⟩
    rcases lt_trichotomy c.2 0 with hneg | hzero | hpos
    · have hpair := (hf c1 hc1'.1).2 c hc hc1'.2 hneg
      have hpair' : (0 : ℚ) ≤ (c1.2 : ℚ) * (c.1 : ℚ) - (c.2 : ℚ) * (c1.1 : ℚ) := by
        exact_mod_cast hpair
      have heq : (c.1 : ℚ) + (c.2 : ℚ) * (-(c1.1 : ℚ) / (c1.2 : ℚ))
          = ((c1.2 : ℚ) * (c.1 : ℚ) - (c.2 : ℚ) * (c1.1 : ℚ)) / (c1.2 : ℚ) := by
        field_simp
        ring
      rw [heq]
      exact div_nonneg hpair' (le_of_lt hb1)
    · have hconst := (hf c hc).1 hzero
      rw [hzero]
      simpa using hconst
    · have hb : (0 : ℚ) < (c.2 : ℚ) := by exact_mod_cast hpos
      have hle : -(c.1 : ℚ) / (c.2 : ℚ) ≤ -(c1.1 : ℚ) / (c1.2 : ℚ) :=
        hmax c (by simp [hc, hpos])
      have h1 : (c.2 : ℚ) * (-(c.1 : ℚ) / (c.2 : ℚ))
          ≤ (c.2 : ℚ) * (-(c1.1 : ℚ) / (c1.2 : ℚ)) :=
        mul_le_mul_of_nonneg_left hle (le_of_lt hb)
      have h2 : (c.2 : ℚ) * (-(c.1 : ℚ) / (c.2 : ℚ)) = -(c.1 : ℚ) := by
        field_simp
        ring
      linarith
  · rintro ⟨t, ht⟩ c1 hc1
    refine ⟨fun hzero => ?_, fun c2 hc2 hpos hneg => ?_⟩
    · have := ht c1 hc1
      rw [hzero] at this
      simpa using this
    · have hb1 : (0 : ℚ) ≤ (c1.2 : ℚ) := by exact_mod_cast le_of_lt hpos
      have hb2 : (0 : ℚ) ≤ -(c2.2 : ℚ) := by
        have : (c2.2 : ℚ) < 0 := by exact_mod_cast hneg
        linarith
      have h1 := mul_nonneg hb1 (ht c2 hc2)
      have h2 := mul_nonneg hb2 (ht c1 hc1)
      have : (0 : ℚ) ≤ (c1.2 : ℚ) * (c2.1 : ℚ) - (c2.2 : ℚ) * (c1.1 : ℚ) := by
        nlinarith [h1, h2]
      exact_mod_cast this

theorem Vector3.point_eq (v : Vector3) :
    v.point = v.units.map (fun p =>
      { x := (p.1 : ℚ) / 2 ^ 149, y := (p.2.1 : ℚ) / 2 ^ 149, z := (p.2.2 : ℚ) / 2 ^ 149 }) := by
  obtain ⟨x, y, z⟩ := v
  cases x <;> cases y <;> cases z <;> rfl

theorem FloorTriangle.blocks_iff (f : FloorTriangle) (p q : Int × Int × Int) :
    f.blocks p q = true ↔
      f.triangle.meetsSegment
        { x := (p.1 : ℚ) / 2 ^ 149, y := (p.2.1 : ℚ) / 2 ^ 149, z := (p.2.2 : ℚ) / 2 ^ 149 }
        { x := (q.1 : ℚ) / 2 ^ 149, y := (q.2.1 : ℚ) / 2 ^ 149, z := (q.2.2 : ℚ) / 2 ^ 149 } := by
  unfold FloorTriangle.blocks
  rw [feasible_iff _ ⟨(0, 1), by simp [FloorTriangle.constraints], by norm_num⟩]
  have hw : (0 : ℚ) < (f.w : ℚ) := by exact_mod_cast f.w_pos
  have hh : (0 : ℚ) < (f.h : ℚ) := by exact_mod_cast f.h_pos
  have hS : (0 : ℚ) < 2 ^ 149 := by positivity
  obtain ⟨px, py, pz⟩ := p
  obtain ⟨qx, qy, qz⟩ := q
  have hcast : (((2 : Int) ^ 149 : Int) : ℚ) = (2 : ℚ) ^ 149 := by norm_num
  simp only [FloorTriangle.triangle, Triangle.meetsSegment, FloorTriangle.constraints,
    List.forall_mem_cons, List.not_mem_nil, false_implies, implies_true, and_true,
    Int.cast_sub, Int.cast_mul, Int.cast_add, Int.cast_neg, Int.cast_zero, Int.cast_one, hcast]
  generalize (2 : ℚ) ^ 149 = S at hS ⊢
  have hS' : S ≠ 0 := ne_of_gt hS
  constructor
  · rintro ⟨t, c1, c2, c3, c4, c5, c6, c7⟩
    have hx : 0 ≤ (px : ℚ) / S - f.cx + ((qx : ℚ) / S - px / S) * t := by
      have : (px : ℚ) / S - f.cx + ((qx : ℚ) / S - px / S) * t
          = ((px : ℚ) - f.cx * S + ((qx : ℚ) - px) * t) / S := by
        field_simp
        ring
      rw [this]
      exact div_nonneg c5 (le_of_lt hS)
    have hy : 0 ≤ (py : ℚ) / S - f.cy + ((qy : ℚ) / S - py / S) * t := by
      have : (py : ℚ) / S - f.cy + ((qy : ℚ) / S - py / S) * t
          = ((py : ℚ) - f.cy * S + ((qy : ℚ) - py) * t) / S := by
        field_simp
        ring
      rw [this]
      exact div_nonneg c6 (le_of_lt hS)
    have hsum : (f.h : ℚ) * ((px : ℚ) / S - f.cx + ((qx : ℚ) / S - px / S) * t)
        + f.w * ((py : ℚ) / S - f.cy + ((qy : ℚ) / S - py / S) * t) ≤ f.w * f.h := by
      have : (f.w : ℚ) * f.h - ((f.h : ℚ) * ((px : ℚ) / S - f.cx + ((qx : ℚ) / S - px / S) * t)
          + f.w * ((py : ℚ) / S - f.cy + ((qy : ℚ) / S - py / S) * t))
          = ((f.w : ℚ) * f.h * S - f.h * ((px : ℚ) - f.cx * S) - f.w * ((py : ℚ) - f.cy * S)
              + -(f.h * ((qx : ℚ) - px) + f.w * ((qy : ℚ) - py)) * t) / S := by
        field_simp
        ring
      have hnn := div_nonneg c7 (le_of_lt hS)
      rw [← this] at hnn
      linarith
    have hz : (pz : ℚ) / S + t * ((qz : ℚ) / S - pz / S) = f.cz := by
      have h1 : (pz : ℚ) / S + t * ((qz : ℚ) / S - pz / S) - f.cz
          = ((pz : ℚ) - f.cz * S + ((qz : ℚ) - pz) * t) / S := by
        field_simp
        ring
      have h3 := div_nonneg c3 (le_of_lt hS)
      have h4 := div_nonneg c4 (le_of_lt hS)
      have h2 : ((f.cz : ℚ) * S - pz + ((pz : ℚ) - qz) * t) / S
          = -(((pz : ℚ) - f.cz * S + ((qz : ℚ) - pz) * t) / S) := by
        field_simp
        ring
      rw [h2] at h4
      rw [← h1] at h3 h4
      linarith
    refine ⟨t, ((px : ℚ) / S - f.cx + ((qx : ℚ) / S - px / S) * t) / f.w,
      ((py : ℚ) / S - f.cy + ((qy : ℚ) / S - py / S) * t) / f.h, by linarith, by linarith,
      div_nonneg hx (le_of_lt hw), div_nonneg hy (le_of_lt hh), ?_, ?_, ?_, ?_⟩
    · rw [div_add_div _ _ (ne_of_gt hw) (ne_of_gt hh), div_le_one (mul_pos hw hh)]
      linarith
    · field_simp
      ring
    · field_simp
      ring
    · rw [hz]
      ring
  · rintro ⟨t, u, v, ht0, ht1, hu, hv, huv, hx, hy, hz⟩
    have hx' : (px : ℚ) - f.cx * S + ((qx : ℚ) - px) * t = S * (u * f.w) := by
      have : (px : ℚ) - f.cx * S + ((qx : ℚ) - px) * t
          = S * ((px : ℚ) / S + t * ((qx : ℚ) / S - px / S) - f.cx) := by
        field_simp
        ring
      rw [this, hx]
      ring
    have hy' : (py : ℚ) - f.cy * S + ((qy : ℚ) - py) * t = S * (v * f.h) := by
      have : (py : ℚ) - f.cy * S + ((qy : ℚ) - py) * t
          = S * ((py : ℚ) / S + t * ((qy : ℚ) / S - py / S) - f.cy) := by
        field_simp
        ring
      rw [this, hy]
      ring
    have hz' : (pz : ℚ) - f.cz * S + ((qz : ℚ) - pz) * t = 0 := by
      have : (pz : ℚ) - f.cz * S + ((qz : ℚ) - pz) * t
          = S * ((pz : ℚ) / S + t * ((qz : ℚ) / S - pz / S) - f.cz) := by
        field_simp
        ring
      rw [this, hz]
      ring
    refine ⟨t, by linarith, by linarith, by linarith, by linarith, ?_, ?_, ?_⟩
    · rw [hx']
      exact mul_nonneg (le_of_lt hS) (mul_nonneg hu (le_of_lt hw))
    · rw [hy']
      exact mul_nonneg (le_of_lt hS) (mul_nonneg hv (le_of_lt hh))
    · have hkey : (f.w : ℚ) * f.h * S - f.h * ((px : ℚ) - f.cx * S) - f.w * ((py : ℚ) - f.cy * S)
          + -(f.h * ((qx : ℚ) - px) + f.w * ((qy : ℚ) - py)) * t
          = S * (f.w * f.h) * (1 - (u + v)) := by
        linear_combination -(f.h : ℚ) * hx' - (f.w : ℚ) * hy'
      rw [hkey]
      exact mul_nonneg (le_of_lt (mul_pos hS (mul_pos hw hh))) (by linarith)

theorem floorTreeQueries_contract :
    LineOfSightContract floorTreeQueries (fun tree => tree.map FloorTriangle.triangle) := by
  intro tree a b
  simp only [floorTreeQueries, Vector3.point_eq]
  cases ha : a.units with
  | none => simp
  | some p =>
    cases hb : b.units with
    | none => simp
    | some q =>
      simp only [Bool.not_eq_true', List.any_eq_false, List.mem_map, Option.map_some']
      constructor
      · rintro hnone ⟨tri, ⟨f, hf, rfl⟩, p', q', hp', hq', hmeet⟩
        cases hp'
        cases hq'
        exact hnone f hf ((f.blocks_iff p q).mpr hmeet)
      · intro hnone f hf hblocks
        exact hnone ⟨f.triangle, ⟨f, hf, rfl⟩, _, _, rfl, rfl, (f.blocks_iff p q).mp hblocks⟩

/-! ## Claims about line of sight -/

/-- C12: `isInLineOfSight` returns `true` whenever LOS calculation is
disabled, or the map is disabled for LOS, or the map id has no Tile Index in
the registry, or the two transformed points compare equal (`pos1 != pos2` is
false). With LOS calculation disabled it returns `true` for every Tile Index
implementation, manager state, map id and pair of points. -/
theorem isInLineOfSight_default {Tree Info : Type} (Q : StaticMapTreeQueries Tree Info)
    (cfg : QueryConfig) (vm : VMapManager2 Tree) (mapId : Nat) (x1 y1 z1 x2 y2 z2 : F32) :
    (cfg.isLineOfSightCalcEnabled = false ∨
      cfg.IsVMAPDisabledForPtr mapId .VMAP_DISABLE_LOS = true ∨
      StdMap.find mapId vm.iInstanceMapTrees = none ∨
      Vector3.ne (convertPositionToInternalRep x1 y1 z1)
        (convertPositionToInternalRep x2 y2 z2) = false →
      isInLineOfSight Q cfg vm mapId x1 y1 z1 x2 y2 z2 = true) ∧
    (cfg.isLineOfSightCalcEnabled = false →
      ∀ (Q' : StaticMapTreeQueries Tree Info) (vm' : VMapManager2 Tree) (mapId' : Nat)
        (a1 b1 c1 a2 b2 c2 : F32),
        isInLineOfSight Q' cfg vm' mapId' a1 b1 c1 a2 b2 c2 = true) := by
  constructor
  · intro h
    by_cases hen : cfg.isLineOfSightCalcEnabled = false
    · exact isInLineOfSight_skipped Q cfg vm mapId _ _ _ _ _ _ (Or.inl hen)
    by_cases hmap : cfg.IsVMAPDisabledForPtr mapId .VMAP_DISABLE_LOS = true
    · exact isInLineOfSight_skipped Q cfg vm mapId _ _ _ _ _ _ (Or.inr hmap)
    cases hfind : StdMap.find mapId vm.iInstanceMapTrees with
    | none => exact isInLineOfSight_unregistered Q cfg vm mapId _ _ _ _ _ _ hfind
    | some tree =>
      rcases h with h | h | h | h
      · exact absurd h hen
      · exact absurd h hmap
      · rw [hfind] at h; cases h
      · rw [isInLineOfSight_registered Q cfg vm mapId _ _ _ _ _ _ tree (by simpa using hen)
          (by simpa using hmap) hfind, h]
        rfl
  · intro hen Q' vm' mapId' a1 b1 c1 a2 b2 c2
    exact isInLineOfSight_skipped Q' cfg vm' mapId' _ _ _ _ _ _ (Or.inl hen)

theorem isInLineOfSight_default_witness :
    isInLineOfSight sampleTreeQueries sampleConfig
      ({ iInstanceMapTrees := [(0, [(32, 32)])] } : VMapManager2 (List (Nat × Nat)))
      7 (F32.lit 1 1) (F32.lit 2 1) (F32.lit 3 1) (F32.lit 4 1) (F32.lit 5 1) (F32.lit 6 1)
      = true :=
  (isInLineOfSight_default sampleTreeQueries sampleConfig
    ({ iInstanceMapTrees := [(0, [(32, 32)])] } : VMapManager2 (List (Nat × Nat)))
    7 (F32.lit 1 1) (F32.lit 2 1) (F32.lit 3 1) (F32.lit 4 1) (F32.lit 5 1) (F32.lit 6 1)).1
    (Or.inr (Or.inr (Or.inl (by decide))))

/-- C13: when LOS calculation is enabled, the map is not disabled for LOS,
the map id is registered and the transformed end points differ
(`pos1 != pos2`), `isInLineOfSight` returns exactly what the registered Tile
Index's `isInLineOfSight` answers for the two end points after each has been
passed through `convertPositionToInternalRep`. -/
theorem isInLineOfSight_delegates {Tree Info : Type} (Q : StaticMapTreeQueries Tree Info)
    (cfg : QueryConfig) (vm : VMapManager2 Tree) (mapId : Nat) (x1 y1 z1 x2 y2 z2 : F32)
    (tree : Tree) (hen : cfg.isLineOfSightCalcEnabled = true)
    (hmap : cfg.IsVMAPDisabledForPtr mapId .VMAP_DISABLE_LOS = false)
    (hfind : StdMap.find mapId vm.iInstanceMapTrees = some tree)
    (hne : Vector3.ne (convertPositionToInternalRep x1 y1 z1)
      (convertPositionToInternalRep x2 y2 z2) = true) :
    isInLineOfSight Q cfg vm mapId x1 y1 z1 x2 y2 z2 =
      Q.isInLineOfSight tree (convertPositionToInternalRep x1 y1 z1)
        (convertPositionToInternalRep x2 y2 z2) := by
  rw [isInLineOfSight_registered Q cfg vm mapId _ _ _ _ _ _ tree hen hmap hfind, hne]
  rfl

theorem isInLineOfSight_delegates_witness :
    isInLineOfSight { sampleTreeQueries with isInLineOfSight := fun _ _ _ => false } sampleConfig
      ({ iInstanceMapTrees := [(0, [(32, 32)])] } : VMapManager2 (List (Nat × Nat)))
      0 (F32.lit 1 1) (F32.lit 2 1) (F32.lit 3 1) (F32.lit 4 1) (F32.lit 5 1) (F32.lit 6 1)
      = false :=
  isInLineOfSight_delegates { sampleTreeQueries with isInLineOfSight := fun _ _ _ => false }
    sampleConfig
    ({ iInstanceMapTrees := [(0, [(32, 32)])] } : VMapManager2 (List (Nat × Nat)))
    0 (F32.lit 1 1) (F32.lit 2 1) (F32.lit 3 1) (F32.lit 4 1) (F32.lit 5 1) (F32.lit 6 1)
    [(32, 32)] (by decide) (by decide) (by decide) (by decide)

/-- C14: LOS symmetry. For every Tile Index whose `isInLineOfSight` meets the
spec's contract (true iff no blocking triangle intersects the segment between
the two points), every configuration, manager state, map id and pair of
points, `isInLineOfSight(m, p1, p2) = isInLineOfSight(m, p2, p1)`. -/
theorem isInLineOfSight_symm {Tree Info : Type} (Q : StaticMapTreeQueries Tree Info)
    (blocking : Tree → List Triangle) (hQ : LineOfSightContract Q blocking)
    (cfg : QueryConfig) (vm : VMapManager2 Tree) (mapId : Nat) (x1 y1 z1 x2 y2 z2 : F32) :
    isInLineOfSight Q cfg vm mapId x1 y1 z1 x2 y2 z2
      = isInLineOfSight Q cfg vm mapId x2 y2 z2 x1 y1 z1 := by
  by_cases hen : cfg.isLineOfSightCalcEnabled = false
  · rw [isInLineOfSight_skipped Q cfg vm mapId _ _ _ _ _ _ (Or.inl hen),
      isInLineOfSight_skipped Q cfg vm mapId _ _ _ _ _ _ (Or.inl hen)]
  by_cases hmap : cfg.IsVMAPDisabledForPtr mapId .VMAP_DISABLE_LOS = true
  · rw [isInLineOfSight_skipped Q cfg vm mapId _ _ _ _ _ _ (Or.inr hmap),
      isInLineOfSight_skipped Q cfg vm mapId _ _ _ _ _ _ (Or.inr hmap)]
  cases hfind : StdMap.find mapId vm.iInstanceMapTrees with
  | none =>
    rw [isInLineOfSight_unregistered Q cfg vm mapId _ _ _ _ _ _ hfind,
      isInLineOfSight_unregistered Q cfg vm mapId _ _ _ _ _ _ hfind]
  | some tree =>
    rw [isInLineOfSight_registered Q cfg vm mapId _ _ _ _ _ _ tree (by simpa using hen)
        (by simpa using hmap) hfind,
      isInLineOfSight_registered Q cfg vm mapId _ _ _ _ _ _ tree (by simpa using hen)
        (by simpa using hmap) hfind,
      Vector3.ne_swap, lineOfSightContract_comm Q blocking hQ tree]

theorem isInLineOfSight_symm_witness :
    isInLineOfSight floorTreeQueries sampleConfig
        ({ iInstanceMapTrees := [(0, [sampleFloor])] } : VMapManager2 (List FloorTriangle))
        0 (F32.lit 1 1) (F32.lit 2 1) (F32.lit 3 1)
        (F32.lit 1 1) (F32.lit 2 1) (.finite true (3 * 2 ^ 149))
      = false ∧
    isInLineOfSight floorTreeQueries sampleConfig
        ({ iInstanceMapTrees := [(0, [sampleFloor])] } : VMapManager2 (List FloorTriangle))
        0 (F32.lit 1 1) (F32.lit 2 1) (.finite true (3 * 2 ^ 149))
        (F32.lit 1 1) (F32.lit 2 1) (F32.lit 3 1)
      = false :=
  have hdown : isInLineOfSight floorTreeQueries sampleConfig
        ({ iInstanceMapTrees := [(0, [sampleFloor])] } : VMapManager2 (List FloorTriangle))
        0 (F32.lit 1 1) (F32.lit 2 1) (F32.lit 3 1)
        (F32.lit 1 1) (F32.lit 2 1) (.finite true (3 * 2 ^ 149))
      = false := by decide
  ⟨hdown,
   (isInLineOfSight_symm floorTreeQueries (fun tree => tree.map FloorTriangle.triangle)
      floorTreeQueries_contract sampleConfig
      ({ iInstanceMapTrees := [(0, [sampleFloor])] } : VMapManager2 (List FloorTriangle))
      0 (F32.lit 1 1) (F32.lit 2 1) (F32.lit 3 1)
      (F32.lit 1 1) (F32.lit 2 1) (.finite true (3 * 2 ^ 149))).symm.trans hdown⟩

theorem getObjectHitPos_unavailable {Tree Info : Type} (Q : StaticMapTreeQueries Tree Info)
    (cfg : QueryConfig) (vm : VMapManager2 Tree) (mapId : Nat) (x1 y1 z1 x2 y2 z2 dist : F32)
    (h : cfg.isLineOfSightCalcEnabled = false ∨
      cfg.IsVMAPDisabledForPtr mapId .VMAP_DISABLE_LOS = true ∨
      StdMap.find mapId vm.iInstanceMapTrees = none) :
    getObjectHitPos Q cfg vm mapId x1 y1 z1 x2 y2 z2 dist
      = { result := false, rx := x2, ry := y2, rz := z2 } := by
  unfold getObjectHitPos
  rcases h with h | h | h
  · simp [h]
  · simp [h]
  · rw [h]
    split <;> rfl

theorem getObjectHitPos_registered {Tree Info : Type} (Q : StaticMapTreeQueries Tree Info)
    (cfg : QueryConfig) (vm : VMapManager2 Tree) (mapId : Nat) (x1 y1 z1 x2 y2 z2 dist : F32)
    (tree : Tree) (hen : cfg.isLineOfSightCalcEnabled = true)
    (hmap : cfg.IsVMAPDisabledForPtr mapId .VMAP_DISABLE_LOS = false)
    (h : StdMap.find mapId vm.iInstanceMapTrees = some tree) :
    getObjectHitPos Q cfg vm mapId x1 y1 z1 x2 y2 z2 dist =
      { result := (Q.getObjectHitPos tree (convertPositionToInternalRep x1 y1 z1)
          (convertPositionToInternalRep x2 y2 z2) Vector3.zero dist).1,
        rx := F32.sub mid (Q.getObjectHitPos tree (convertPositionToInternalRep x1 y1 z1)
          (convertPositionToInternalRep x2 y2 z2) Vector3.zero dist).2.x,
        ry := F32.sub mid (Q.getObjectHitPos tree (convertPositionToInternalRep x1 y1 z1)
          (convertPositionToInternalRep x2 y2 z2) Vector3.zero dist).2.y,
        rz := (Q.getObjectHitPos tree (convertPositionToInternalRep x1 y1 z1)
          (convertPositionToInternalRep x2 y2 z2) Vector3.zero dist).2.z } := by
  unfold getObjectHitPos
  rw [h]
  simp only [hen, hmap, Bool.not_false, Bool.and_self, if_true]
  rfl

theorem getHeight_unavailable {Tree Info : Type} (Q : StaticMapTreeQueries Tree Info)
    (cfg : QueryConfig) (vm : VMapManager2 Tree) (mapId : Nat) (x y z dist : F32)
    (h : cfg.isHeightCalcEnabled = false ∨
      cfg.IsVMAPDisabledForPtr mapId .VMAP_DISABLE_HEIGHT = true ∨
      StdMap.find mapId vm.iInstanceMapTrees = none) :
    getHeight Q cfg vm mapId x y z dist = cfg.VMAP_INVALID_HEIGHT_VALUE := by
  unfold getHeight
  rcases h with h | h | h
  · simp [h]
  · simp [h]
  · rw [h]
    split <;> rfl

theorem getHeight_registered {Tree Info : Type} (Q : StaticMapTreeQueries Tree Info)
    (cfg : QueryConfig) (vm : VMapManager2 Tree) (mapId : Nat) (x y z dist : F32) (tree : Tree)
    (hen : cfg.isHeightCalcEnabled = true)
    (hmap : cfg.IsVMAPDisabledForPtr mapId .VMAP_DISABLE_HEIGHT = false)
    (h : StdMap.find mapId vm.iInstanceMapTrees = some tree) :
    getHeight Q cfg vm mapId x y z dist =
      if F32.lt (Q.getHeight tree (convertPositionToInternalRep x y z) dist) G3D_inf = true
      then Q.getHeight tree (convertPositionToInternalRep x y z) dist
      else cfg.VMAP_INVALID_HEIGHT_VALUE := by
  unfold getHeight
  rw [h]
  simp only [hen, hmap, Bool.not_false, Bool.and_self, if_true]
  cases F32.lt (Q.getHeight tree (convertPositionToInternalRep x y z) dist) G3D_inf <;> rfl

theorem F32.lt_inf_iff (h : F32) :
    F32.lt h G3D_inf = false ↔ h = .inf false ∨ h = .nan := by
  cases h with
  | finite n m => simp [F32.lt, G3D_inf]
  | inf n => cases n <;> simp [F32.lt, G3D_inf]
  | nan => simp [F32.lt, G3D_inf]

theorem getAreaInfo_unavailable {Tree Info : Type} (Q : StaticMapTreeQueries Tree Info)
    (cfg : QueryConfig) (vm : VMapManager2 Tree) (mapId : Nat) (x y z : F32) (ids : AreaIds)
    (h : cfg.IsVMAPDisabledForPtr mapId .VMAP_DISABLE_AREAFLAG = true ∨
      StdMap.find mapId vm.iInstanceMapTrees = none) :
    getAreaInfo Q cfg vm mapId x y z ids = { result := false, z := z, ids := ids } := by
  unfold getAreaInfo
  rcases h with h | h
  · simp [h]
  · rw [h]
    split <;> rfl

theorem getAreaInfo_registered {Tree Info : Type} (Q : StaticMapTreeQueries Tree Info)
    (cfg : QueryConfig) (vm : VMapManager2 Tree) (mapId : Nat) (x y z : F32) (ids : AreaIds)
    (tree : Tree) (hmap : cfg.IsVMAPDisabledForPtr mapId .VMAP_DISABLE_AREAFLAG = false)
    (h : StdMap.find mapId vm.iInstanceMapTrees = some tree) :
    getAreaInfo Q cfg vm mapId x y z ids =
      { result := (Q.getAreaInfo tree (convertPositionToInternalRep x y z) ids).1,
        z := (Q.getAreaInfo tree (convertPositionToInternalRep x y z) ids).2.1.z,
        ids := (Q.getAreaInfo tree (convertPositionToInternalRep x y z) ids).2.2 } := by
  unfold getAreaInfo
  rw [h]
  simp only [hmap, Bool.not_false, if_true]

theorem GetLiquidLevel_unavailable {Tree Info : Type} (Q : StaticMapTreeQueries Tree Info)
    (cfg : QueryConfig) (vm : VMapManager2 Tree) (mapId : Nat) (x y z : F32) (req : Nat)
    (level floor : F32) (type : Nat)
    (h : cfg.IsVMAPDisabledForPtr mapId .VMAP_DISABLE_LIQUIDSTATUS = true ∨
      StdMap.find mapId vm.iInstanceMapTrees = none) :
    GetLiquidLevel Q cfg vm mapId x y z req level floor type
      = { result := false, level := level, floor := floor, type := type } := by
  unfold GetLiquidLevel
  rcases h with h | h
  · simp [h]
  · rw [h]
    split <;> rfl

theorem GetLiquidLevel_registered {Tree Info : Type} (Q : StaticMapTreeQueries Tree Info)
    (cfg : QueryConfig) (vm : VMapManager2 Tree) (mapId : Nat) (x y z : F32) (req : Nat)
    (level floor : F32) (type : Nat) (tree : Tree)
    (hmap : cfg.IsVMAPDisabledForPtr mapId .VMAP_DISABLE_LIQUIDSTATUS = false)
    (h : StdMap.find mapId vm.iInstanceMapTrees = some tree) :
    GetLiquidLevel Q cfg vm mapId x y z req level floor type =
      match Q.GetLocationInfo tree (convertPositionToInternalRep x y z) with
      | some info =>
        if req ≠ 0 ∧ Q.GetLiquidType info &&& req = 0 then
          { result := false, level := level, floor := Q.ground_Z info,
            type := Q.GetLiquidType info }
        else
          { result := (Q.GetLiquidLevel info (convertPositionToInternalRep x y z) level).1,
            level := (Q.GetLiquidLevel info (convertPositionToInternalRep x y z) level).2,
            floor := Q.ground_Z info, type := Q.GetLiquidType info }
      | none => { result := false, level := level, floor := floor, type := type } := by
  unfold GetLiquidLevel
  rw [h]
  simp only [hmap, Bool.not_false, if_true]

theorem find_loadMapTileOf {Tree : Type} (T : StaticMapTreeOps Tree) (vm : VMapManager2 Tree)
    (mapId : Nat) (tree : Tree) (tileX tileY k : Nat) :
    StdMap.find k (loadMapTileOf T vm mapId tree tileX tileY).2.iInstanceMapTrees =
      if k = mapId then
        (StdMap.find mapId vm.iInstanceMapTrees).map
          (fun _ => (T.LoadMapTile tree tileX tileY vm.models).2.1)
      else StdMap.find k vm.iInstanceMapTrees := by
  simp only [loadMapTileOf, StdMap.find_modify]

theorem find_loadMap_other {Tree : Type} (T : StaticMapTreeOps Tree) (ext : String)
    (enabled : Bool) (vm : VMapManager2 Tree) (basePath : String) (mapId other : Nat)
    (x y : Int) (hne : other ≠ mapId) :
    StdMap.find other (loadMap T ext enabled vm basePath mapId x y).2.iInstanceMapTrees
      = StdMap.find other vm.iInstanceMapTrees := by
  cases enabled with
  | false => simp [loadMap]
  | true =>
    rw [loadMap_enabled_snd]
    cases hfind : StdMap.find mapId vm.iInstanceMapTrees with
    | some tree =>
      rw [_loadMap_registered T ext vm basePath mapId _ _ tree hfind, find_loadMapTileOf,
        if_neg hne]
    | none =>
      cases hinit : (T.InitMap (T.create mapId basePath) (getMapFileName ext mapId) vm.models).1
      · rw [_loadMap_init_failed T ext vm basePath mapId _ _ hfind hinit]
      · rw [_loadMap_init_ok T ext vm basePath mapId _ _ hfind hinit, find_loadMapTileOf,
          if_neg hne, StdMap.find_insert_absent _ _ _ _ hfind, if_neg hne]

theorem find_unloadMap_none {Tree : Type} (T : StaticMapTreeOps Tree) (vm : VMapManager2 Tree)
    (mapId k : Nat) (h : StdMap.find k vm.iInstanceMapTrees = none) :
    StdMap.find k (unloadMap T vm mapId).iInstanceMapTrees = none := by
  by_cases hk : k = mapId
  · subst hk
    rw [unloadMap_unregistered T vm k h, h]
  · rw [find_unloadMap_other T vm mapId k hk, h]

theorem find_unloadMapTile_none {Tree : Type} (T : StaticMapTreeOps Tree)
    (vm : VMapManager2 Tree) (mapId k : Nat) (x y : Int)
    (h : StdMap.find k vm.iInstanceMapTrees = none) :
    StdMap.find k (unloadMapTile T vm mapId x y).iInstanceMapTrees = none := by
  by_cases hk : k = mapId
  · subst hk
    rw [unloadMapTile_unregistered T vm k x y h, h]
  · rw [find_unloadMapTile_other T vm mapId k x y hk, h]

theorem find_runMapCalls_none {Tree : Type} (T : StaticMapTreeOps Tree) (ext : String)
    (mapId : Nat) (calls : List MapCall) (vm : VMapManager2 Tree)
    (h : StdMap.find mapId vm.iInstanceMapTrees = none)
    (hcalls : ∀ c ∈ calls, c.loads mapId = false) :
    StdMap.find mapId (runMapCalls T ext vm calls).iInstanceMapTrees = none := by
  induction calls generalizing vm with
  | nil => exact h
  | cons c rest ih =>
    have hc := hcalls c (List.mem_cons_self _ _)
    have hrest : ∀ c' ∈ rest, c'.loads mapId = false :=
      fun c' hc' => hcalls c' (List.mem_cons_of_mem _ hc')
    simp only [runMapCalls, List.foldl_cons]
    apply ih _ _ hrest
    cases c with
    | load enabled basePath pMapId x y =>
      simp only [MapCall.loads, decide_eq_false_iff_not] at hc
      simp only [MapCall.apply]
      rw [find_loadMap_other T ext enabled vm basePath pMapId mapId x y (fun g => hc g.symm), h]
    | unload pMapId => exact find_unloadMap_none T vm pMapId mapId h
    | unloadTile pMapId x y => exact find_unloadMapTile_none T vm pMapId mapId x y h

theorem find_eraseIfEmpty_zero {Tree : Type} (T : StaticMapTreeOps Tree) (mapId : Nat)
    (r : Tree × ModelCache) (vm : VMapManager2 Tree) (h0 : T.numLoadedTiles r.1 = 0) :
    StdMap.find mapId (eraseIfEmpty T mapId r vm).iInstanceMapTrees = none := by
  rw [find_eraseIfEmpty, if_pos rfl, if_pos h0]

/-! ## Claims about the hit position, height, area and liquid queries -/

/-- C15 fails on the code at this input: LOS calculation enabled, map `0`
registered, and the Tile Index finds no intersection and reports the internal
destination as result. For `p2 = (0.1f, 0, 0)` the call returns
`hit = false`, but `rx` is `0.099609375 = 51 * 2^-9` and not
`0.1f = 13421773 * 2^-27`: the destination went through
`convertPositionToInternalRep` twice. -/
theorem getObjectHitPos_no_hit_inexact :
    sampleTreeQueries.getObjectHitPos [(32, 32)]
        (convertPositionToInternalRep (F32.lit 1 1) (F32.lit 0 1) (F32.lit 0 1))
        (convertPositionToInternalRep (F32.lit 1 10) (F32.lit 0 1) (F32.lit 0 1))
        Vector3.zero (F32.lit 0 1)
      = (false, convertPositionToInternalRep (F32.lit 1 10) (F32.lit 0 1) (F32.lit 0 1)) ∧
    getObjectHitPos sampleTreeQueries sampleConfig
        ({ iInstanceMapTrees := [(0, [(32, 32)])] } : VMapManager2 (List (Nat × Nat)))
        0 (F32.lit 1 1) (F32.lit 0 1) (F32.lit 0 1) (F32.lit 1 10) (F32.lit 0 1) (F32.lit 0 1)
        (F32.lit 0 1)
      = { result := false, rx := .finite false (51 * 2 ^ 140), ry := .finite false 0,
          rz := .finite false 0 } ∧
    F32.lit 1 10 = .finite false (13421773 * 2 ^ 122) ∧
    F32.lit 1 10 ≠ .finite false (51 * 2 ^ 140) := by
  decide

/-- C16, as stated, fails: when the Tile Index produces negative infinity,
`getHeight` returns negative infinity, not `VMAP_INVALID_HEIGHT_VALUE`
(the test `height < G3D::inf()` holds for negative infinity). -/
theorem getHeight_negative_infinity :
    getHeight { sampleTreeQueries with getHeight := fun _ _ _ => .inf true } sampleConfig
        ({ iInstanceMapTrees := [(0, [(32, 32)])] } : VMapManager2 (List (Nat × Nat)))
        0 (F32.lit 1 1) (F32.lit 2 1) (F32.lit 3 1) (F32.lit 100 1)
      = .inf true ∧
    sampleConfig.VMAP_INVALID_HEIGHT_VALUE ≠ .inf true := by
  decide

/-- C16, amended: `getHeight` returns `VMAP_INVALID_HEIGHT_VALUE` whenever
height calculation is disabled, the map is disabled for height queries, the
map id is not registered, or the value the Tile Index produces for the
transformed position is positive infinity or NaN; in every other case,
negative infinity included, it returns the Tile Index's value unchanged.
Consequently the result is never positive infinity or NaN unless
`VMAP_INVALID_HEIGHT_VALUE` itself is. -/
theorem getHeight_spec {Tree Info : Type} (Q : StaticMapTreeQueries Tree Info)
    (cfg : QueryConfig) (vm : VMapManager2 Tree) (mapId : Nat) (x y z dist : F32) :
    (cfg.isHeightCalcEnabled = false ∨
      cfg.IsVMAPDisabledForPtr mapId .VMAP_DISABLE_HEIGHT = true ∨
      StdMap.find mapId vm.iInstanceMapTrees = none →
      getHeight Q cfg vm mapId x y z dist = cfg.VMAP_INVALID_HEIGHT_VALUE) ∧
    (∀ tree, cfg.isHeightCalcEnabled = true →
      cfg.IsVMAPDisabledForPtr mapId .VMAP_DISABLE_HEIGHT = false →
      StdMap.find mapId vm.iInstanceMapTrees = some tree →
      ((Q.getHeight tree (convertPositionToInternalRep x y z) dist = .inf false ∨
          Q.getHeight tree (convertPositionToInternalRep x y z) dist = .nan) →
        getHeight Q cfg vm mapId x y z dist = cfg.VMAP_INVALID_HEIGHT_VALUE) ∧
      (Q.getHeight tree (convertPositionToInternalRep x y z) dist ≠ .inf false →
        Q.getHeight tree (convertPositionToInternalRep x y z) dist ≠ .nan →
        getHeight Q cfg vm mapId x y z dist
          = Q.getHeight tree (convertPositionToInternalRep x y z) dist)) ∧
    (getHeight Q cfg vm mapId x y z dist = cfg.VMAP_INVALID_HEIGHT_VALUE ∨
      (getHeight Q cfg vm mapId x y z dist ≠ .inf false ∧
        getHeight Q cfg vm mapId x y z dist ≠ .nan)) := by
  have hreg : ∀ tree, cfg.isHeightCalcEnabled = true →
      cfg.IsVMAPDisabledForPtr mapId .VMAP_DISABLE_HEIGHT = false →
      StdMap.find mapId vm.iInstanceMapTrees = some tree →
      ((Q.getHeight tree (convertPositionToInternalRep x y z) dist = .inf false ∨
          Q.getHeight tree (convertPositionToInternalRep x y z) dist = .nan) →
        getHeight Q cfg vm mapId x y z dist = cfg.VMAP_INVALID_HEIGHT_VALUE) ∧
      (Q.getHeight tree (convertPositionToInternalRep x y z) dist ≠ .inf false →
        Q.getHeight tree (convertPositionToInternalRep x y z) dist ≠ .nan →
        getHeight Q cfg vm mapId x y z dist
          = Q.getHeight tree (convertPositionToInternalRep x y z) dist) := by
    intro tree hen hmap hfind
    rw [getHeight_registered Q cfg vm mapId x y z dist tree hen hmap hfind]
    constructor
    · intro h
      rw [if_neg]
      rw [(F32.lt_inf_iff _).mpr h]
      exact Bool.false_ne_true
    · intro h1 h2
      rw [if_pos]
      cases hlt : F32.lt (Q.getHeight tree (convertPositionToInternalRep x y z) dist) G3D_inf
      · rcases (F32.lt_inf_iff _).mp hlt with h | h
        · exact absurd h h1
        · exact absurd h h2
      · rfl
  refine ⟨getHeight_unavailable Q cfg vm mapId x y z dist, hreg, ?_⟩
  by_cases hen : cfg.isHeightCalcEnabled = false
  · exact Or.inl (getHeight_unavailable Q cfg vm mapId x y z dist (Or.inl hen))
  by_cases hmap : cfg.IsVMAPDisabledForPtr mapId .VMAP_DISABLE_HEIGHT = true
  · exact Or.inl (getHeight_unavailable Q cfg vm mapId x y z dist (Or.inr (Or.inl hmap)))
  cases hfind : StdMap.find mapId vm.iInstanceMapTrees with
  | none => exact Or.inl (getHeight_unavailable Q cfg vm mapId x y z dist (Or.inr (Or.inr hfind)))
  | some tree =>
    obtain ⟨hbad, hgood⟩ := hreg tree (by simpa using hen) (by simpa using hmap) hfind
    by_cases h1 : Q.getHeight tree (convertPositionToInternalRep x y z) dist = .inf false
    · exact Or.inl (hbad (Or.inl h1))
    by_cases h2 : Q.getHeight tree (convertPositionToInternalRep x y z) dist = .nan
    · exact Or.inl (hbad (Or.inr h2))
    right
    rw [hgood h1 h2]
    exact ⟨h1, h2⟩

theorem getHeight_spec_witness :
    getHeight sampleTreeQueries sampleConfig
        ({ iInstanceMapTrees := [(0, [(32, 32)])] } : VMapManager2 (List (Nat × Nat)))
        0 (F32.lit 1 1) (F32.lit 2 1) (F32.lit 3 1) (F32.lit 100 1)
      = sampleConfig.VMAP_INVALID_HEIGHT_VALUE :=
  ((getHeight_spec sampleTreeQueries sampleConfig
      ({ iInstanceMapTrees := [(0, [(32, 32)])] } : VMapManager2 (List (Nat × Nat)))
      0 (F32.lit 1 1) (F32.lit 2 1) (F32.lit 3 1) (F32.lit 100 1)).2.1
    [(32, 32)] (by decide) (by decide) (by decide)).1 (Or.inl (by decide))

/-- C17: after an `unloadMap(mapId, x, y)` or `unloadMap(mapId)` call on a
registered map that leaves its Tile Index with zero loaded tiles, and after
any further calls none of which is a `loadMap` of `mapId`, every query on
`mapId` returns its default for every input, configuration and Tile Index
implementation: `getHeight` gives `VMAP_INVALID_HEIGHT_VALUE`,
`isInLineOfSight` gives `true`, `getObjectHitPos` gives `false` with result
exactly `p2`, and `getAreaInfo` and `GetLiquidLevel` give `false`. -/
theorem queries_default_after_unload {Tree Info : Type} (T : StaticMapTreeOps Tree)
    (ext : String) (vm vm0 : VMapManager2 Tree) (mapId : Nat) (x y : Int) (tree : Tree)
    (hfind : StdMap.find mapId vm.iInstanceMapTrees = some tree)
    (hunload :
      (vm0 = unloadMapTile T vm mapId x y ∧
        T.numLoadedTiles (T.UnloadMapTile tree x y vm.models).1 = 0) ∨
      (vm0 = unloadMap T vm mapId ∧ T.numLoadedTiles (T.UnloadMap tree vm.models).1 = 0))
    (calls : List MapCall) (hcalls : ∀ c ∈ calls, c.loads mapId = false)
    (Q : StaticMapTreeQueries Tree Info) (cfg : QueryConfig)
    (x1 y1 z1 x2 y2 z2 dist : F32) (ids : AreaIds) (req : Nat) (level floor : F32)
    (type : Nat) :
    StdMap.find mapId (runMapCalls T ext vm0 calls).iInstanceMapTrees = none ∧
    getHeight Q cfg (runMapCalls T ext vm0 calls) mapId x1 y1 z1 dist
      = cfg.VMAP_INVALID_HEIGHT_VALUE ∧
    isInLineOfSight Q cfg (runMapCalls T ext vm0 calls) mapId x1 y1 z1 x2 y2 z2 = true ∧
    getObjectHitPos Q cfg (runMapCalls T ext vm0 calls) mapId x1 y1 z1 x2 y2 z2 dist
      = { result := false, rx := x2, ry := y2, rz := z2 } ∧
    (getAreaInfo Q cfg (runMapCalls T ext vm0 calls) mapId x1 y1 z1 ids).result = false ∧
    (GetLiquidLevel Q cfg (runMapCalls T ext vm0 calls) mapId x1 y1 z1 req level floor
      type).result = false := by
  have h0 : StdMap.find mapId vm0.iInstanceMapTrees = none := by
    rcases hunload with ⟨hvm, hz⟩ | ⟨hvm, hz⟩
    · rw [hvm, unloadMapTile_registered T vm mapId x y tree hfind]
      exact find_eraseIfEmpty_zero T mapId _ vm hz
    · rw [hvm, unloadMap_registered T vm mapId tree hfind]
      exact find_eraseIfEmpty_zero T mapId _ vm hz
  have h1 := find_runMapCalls_none T ext mapId calls vm0 h0 hcalls
  refine ⟨h1, ?_, ?_, ?_, ?_, ?_⟩
  · exact getHeight_unavailable Q cfg _ mapId _ _ _ _ (Or.inr (Or.inr h1))
  · exact isInLineOfSight_unregistered Q cfg _ mapId _ _ _ _ _ _ h1
  · exact getObjectHitPos_unavailable Q cfg _ mapId _ _ _ _ _ _ _ (Or.inr (Or.inr h1))
  · rw [getAreaInfo_unavailable Q cfg _ mapId _ _ _ _ (Or.inr h1)]
  · rw [GetLiquidLevel_unavailable Q cfg _ mapId _ _ _ _ _ _ _ (Or.inr h1)]

theorem queries_default_after_unload_witness :
    getHeight sampleTreeQueries sampleConfig
        (runMapCalls sampleTreeOps ".vmtree"
          (unloadMapTile sampleTreeOps
            { iInstanceMapTrees := [(0, [(32, 32)])],
              models := { iLoadedModelFiles := [("tree", { iModel := 1, iRefCount := 1 })],
                          heap := { objs := [(1, { payload := [1, 2, 3], Flags := 0 })],
                                    allocs := 1 } } }
            0 32 32)
          [.load true "vmaps/" 7 1 1, .unload 0])
        0 (F32.lit 1 1) (F32.lit 2 1) (F32.lit 3 1) (F32.lit 100 1)
      = sampleConfig.VMAP_INVALID_HEIGHT_VALUE :=
  (queries_default_after_unload sampleTreeOps ".vmtree"
    { iInstanceMapTrees := [(0, [(32, 32)])],
      models := { iLoadedModelFiles := [("tree", { iModel := 1, iRefCount := 1 })],
                  heap := { objs := [(1, { payload := [1, 2, 3], Flags := 0 })],
                            allocs := 1 } } }
    _ 0 32 32 [(32, 32)] (by decide) (Or.inl ⟨rfl, by decide⟩)
    [.load true "vmaps/" 7 1 1, .unload 0] (by decide)
    sampleTreeQueries sampleConfig (F32.lit 1 1) (F32.lit 2 1) (F32.lit 3 1)
    (F32.lit 4 1) (F32.lit 5 1) (F32.lit 6 1) (F32.lit 100 1)
    { flags := 0, adtId := 0, rootId := 0, groupId := 0 } 0 (F32.lit 0 1) (F32.lit 0 1) 0).2.1

/-- C18: when area lookups are not disabled for the map and the map id is
registered, `getAreaInfo` returns the Tile Index's answer and ids, and `z`
is overwritten with the `z` member of the transformed position as the Tile
Index lookup left it, whether or not an area was found. When the lookup is
disabled or the map id is not registered, the call returns `false` and leaves
`z`, `flags`, `adtId`, `rootId` and `groupId` unchanged. -/
theorem getAreaInfo_spec {Tree Info : Type} (Q : StaticMapTreeQueries Tree Info)
    (cfg : QueryConfig) (vm : VMapManager2 Tree) (mapId : Nat) (x y z : F32) (ids : AreaIds) :
    (∀ tree, cfg.IsVMAPDisabledForPtr mapId .VMAP_DISABLE_AREAFLAG = false →
      StdMap.find mapId vm.iInstanceMapTrees = some tree →
      (getAreaInfo Q cfg vm mapId x y z ids).z
        = (Q.getAreaInfo tree (convertPositionToInternalRep x y z) ids).2.1.z ∧
      (getAreaInfo Q cfg vm mapId x y z ids).result
        = (Q.getAreaInfo tree (convertPositionToInternalRep x y z) ids).1 ∧
      (getAreaInfo Q cfg vm mapId x y z ids).ids
        = (Q.getAreaInfo tree (convertPositionToInternalRep x y z) ids).2.2) ∧
    (cfg.IsVMAPDisabledForPtr mapId .VMAP_DISABLE_AREAFLAG = true ∨
      StdMap.find mapId vm.iInstanceMapTrees = none →
      getAreaInfo Q cfg vm mapId x y z ids = { result := false, z := z, ids := ids }) := by
  refine ⟨?_, getAreaInfo_unavailable Q cfg vm mapId x y z ids⟩
  intro tree hmap hfind
  rw [getAreaInfo_registered Q cfg vm mapId x y z ids tree hmap hfind]
  exact ⟨rfl, rfl, rfl⟩

theorem getAreaInfo_spec_witness :
    (getAreaInfo { sampleTreeQueries with
          getAreaInfo := fun _ pos ids => (false, { pos with z := F32.lit 9 1 }, ids) }
        sampleConfig
        ({ iInstanceMapTrees := [(0, [(32, 32)])] } : VMapManager2 (List (Nat × Nat)))
        0 (F32.lit 1 1) (F32.lit 2 1) (F32.lit 3 1)
        { flags := 0, adtId := 0, rootId := 0, groupId := 0 }).z
      = F32.lit 9 1 :=
  ((getAreaInfo_spec { sampleTreeQueries with
        getAreaInfo := fun _ pos ids => (false, { pos with z := F32.lit 9 1 }, ids) }
      sampleConfig
      ({ iInstanceMapTrees := [(0, [(32, 32)])] } : VMapManager2 (List (Nat × Nat)))
      0 (F32.lit 1 1) (F32.lit 2 1) (F32.lit 3 1)
      { flags := 0, adtId := 0, rootId := 0, groupId := 0 }).1
    [(32, 32)] (by decide) (by decide)).1

/-- C19: `GetLiquidLevel` returns `true` if and only if liquid-status lookups
are not disabled for the map, the map id is registered, the Tile Index finds
location info for the transformed point, `ReqLiquidType` is 0 or shares a bit
with the hit model's liquid type, and the hit instance's `GetLiquidLevel`
succeeds. In particular a non-zero mask that shares no bit with the liquid
type yields `false`. -/
theorem GetLiquidLevel_true_iff {Tree Info : Type} (Q : StaticMapTreeQueries Tree Info)
    (cfg : QueryConfig) (vm : VMapManager2 Tree) (mapId : Nat) (x y z : F32) (req : Nat)
    (level floor : F32) (type : Nat) :
    ((GetLiquidLevel Q cfg vm mapId x y z req level floor type).result = true ↔
      cfg.IsVMAPDisabledForPtr mapId .VMAP_DISABLE_LIQUIDSTATUS = false ∧
      ∃ tree, StdMap.find mapId vm.iInstanceMapTrees = some tree ∧
        ∃ info, Q.GetLocationInfo tree (convertPositionToInternalRep x y z) = some info ∧
          (req = 0 ∨ Q.GetLiquidType info &&& req ≠ 0) ∧
          (Q.GetLiquidLevel info (convertPositionToInternalRep x y z) level).1 = true) ∧
    (∀ tree info, StdMap.find mapId vm.iInstanceMapTrees = some tree →
      Q.GetLocationInfo tree (convertPositionToInternalRep x y z) = some info →
      req ≠ 0 → Q.GetLiquidType info &&& req = 0 →
      (GetLiquidLevel Q cfg vm mapId x y z req level floor type).result = false) := by
  have hiff : (GetLiquidLevel Q cfg vm mapId x y z req level floor type).result = true ↔
      cfg.IsVMAPDisabledForPtr mapId .VMAP_DISABLE_LIQUIDSTATUS = false ∧
      ∃ tree, StdMap.find mapId vm.iInstanceMapTrees = some tree ∧
        ∃ info, Q.GetLocationInfo tree (convertPositionToInternalRep x y z) = some info ∧
          (req = 0 ∨ Q.GetLiquidType info &&& req ≠ 0) ∧
          (Q.GetLiquidLevel info (convertPositionToInternalRep x y z) level).1 = true := by
    by_cases hmap : cfg.IsVMAPDisabledForPtr mapId .VMAP_DISABLE_LIQUIDSTATUS = true
    · rw [GetLiquidLevel_unavailable Q cfg vm mapId x y z req level floor type (Or.inl hmap)]
      simp [hmap]
    have hmap' : cfg.IsVMAPDisabledForPtr mapId .VMAP_DISABLE_LIQUIDSTATUS = false := by
      simpa using hmap
    cases hfind : StdMap.find mapId vm.iInstanceMapTrees with
    | none =>
      rw [GetLiquidLevel_unavailable Q cfg vm mapId x y z req level floor type (Or.inr hfind)]
      simp
    | some tree =>
      rw [GetLiquidLevel_registered Q cfg vm mapId x y z req level floor type tree hmap' hfind]
      cases hinfo : Q.GetLocationInfo tree (convertPositionToInternalRep x y z) with
      | none =>
        constructor
        · intro h; cases h
        · rintro ⟨_, tree', htree', info', hinfo', _, _⟩
          cases htree'
          rw [hinfo] at hinfo'
          cases hinfo'
      | some info =>
        by_cases hrej : req ≠ 0 ∧ Q.GetLiquidType info &&& req = 0
        · simp only [if_pos hrej]
          constructor
          · intro h; cases h
          · rintro ⟨_, tree', htree', info', hinfo', hmask, _⟩
            cases htree'
            rw [hinfo] at hinfo'
            cases hinfo'
            rcases hmask with h | h
            · exact absurd h hrej.1
            · exact absurd hrej.2 h
        · simp only [if_neg hrej]
          constructor
          · intro h
            refine ⟨hmap', tree, rfl, info, hinfo, ?_, h⟩
            by_cases hreq : req = 0
            · exact Or.inl hreq
            · exact Or.inr (fun h0 => hrej ⟨hreq, h0⟩)
          · rintro ⟨_, tree', htree', info', hinfo', _, hlevel⟩
            cases htree'
            rw [hinfo] at hinfo'
            cases hinfo'
            exact hlevel
  refine ⟨hiff, ?_⟩
  intro tree info hfind hinfo hreq hmask
  cases hres : (GetLiquidLevel Q cfg vm mapId x y z req level floor type).result with
  | false => rfl
  | true =>
    obtain ⟨_, tree', htree', info', hinfo', hm, _⟩ := hiff.mp hres
    rw [hfind] at htree'; cases htree'
    rw [hinfo] at hinfo'; cases hinfo'
    rcases hm with h | h
    · exact absurd h hreq
    · exact absurd hmask h

theorem GetLiquidLevel_true_iff_witness :
    (GetLiquidLevel { sampleTreeQueries with
          GetLocationInfo := fun _ _ => some (),
          GetLiquidType := fun _ => 2 }
        sampleConfig
        ({ iInstanceMapTrees := [(0, [(32, 32)])] } : VMapManager2 (List (Nat × Nat)))
        0 (F32.lit 1 1) (F32.lit 2 1) (F32.lit 3 1) 1 (F32.lit 0 1) (F32.lit 0 1) 0).result
      = false :=
  (GetLiquidLevel_true_iff { sampleTreeQueries with
        GetLocationInfo := fun _ _ => some (),
        GetLiquidType := fun _ => 2 }
      sampleConfig
      ({ iInstanceMapTrees := [(0, [(32, 32)])] } : VMapManager2 (List (Nat × Nat)))
      0 (F32.lit 1 1) (F32.lit 2 1) (F32.lit 3 1) 1 (F32.lit 0 1) (F32.lit 0 1) 0).2
    [(32, 32)] () (by decide) (by decide) (by decide) (by decide)

/-! ## Decimal digits -/

theorem toDigitsCore_append (fuel n : Nat) (ds : List Char) :
    Nat.toDigitsCore 10 fuel n ds = Nat.toDigitsCore 10 fuel n [] ++ ds := by
  induction fuel generalizing n ds with
  | zero => rfl
  | succ fuel ih =>
    simp only [Nat.toDigitsCore]
    by_cases h : n / 10 = 0
    · simp [h]
    · simp only [h, if_false]
      rw [ih (n / 10) (Nat.digitChar (n % 10) :: ds), ih (n / 10) [Nat.digitChar (n % 10)]]
      simp

theorem toDigitsCore_fuel (fuel fuel' n : Nat) (ds : List Char) (h : n < fuel) (h' : n < fuel') :
    Nat.toDigitsCore 10 fuel n ds = Nat.toDigitsCore 10 fuel' n ds := by
  induction fuel generalizing fuel' n ds with
  | zero => omega
  | succ fuel ih =>
    cases fuel' with
    | zero => omega
    | succ fuel' =>
      simp only [Nat.toDigitsCore]
      by_cases h0 : n / 10 = 0
      · simp [h0]
      · simp only [h0, if_false]
        exact ih fuel' (n / 10) _ (by omega) (by omega)

/-- The digits of `n` are the digits of `n / 10` followed by the digit of
`n % 10`. -/
theorem toDigits_eq (n : Nat) :
    Nat.toDigits 10 n =
      if n / 10 = 0 then [Nat.digitChar (n % 10)]
      else Nat.toDigits 10 (n / 10) ++ [Nat.digitChar (n % 10)] := by
  have h1 : Nat.toDigits 10 n =
      if n / 10 = 0 then [Nat.digitChar (n % 10)]
      else Nat.toDigitsCore 10 n (n / 10) [Nat.digitChar (n % 10)] := rfl
  have h2 : Nat.toDigits 10 (n / 10) = Nat.toDigitsCore 10 (n / 10 + 1) (n / 10) [] := rfl
  rw [h1, h2]
  by_cases h0 : n / 10 = 0
  · rw [if_pos h0, if_pos h0]
  · rw [if_neg h0, if_neg h0, toDigitsCore_append,
      toDigitsCore_fuel n (n / 10 + 1) (n / 10) [] (by omega) (by omega)]

theorem digitChar_value (k : Nat) (hk : k < 10) : (Nat.digitChar k).toNat - 48 = k := by
  interval_cases k <;> rfl

theorem decimalValue_snoc (l : List Char) (c : Char) :
    decimalValue (l ++ [c]) = 10 * decimalValue l + (c.toNat - 48) := by
  simp [decimalValue, List.foldl_append]

theorem decimalValue_toDigits (n : Nat) : decimalValue (Nat.toDigits 10 n) = n := by
  induction n using Nat.strong_induction_on with
  | _ n ih =>
    rw [toDigits_eq]
    by_cases h0 : n / 10 = 0
    · rw [if_pos h0]
      have hn : n < 10 := by omega
      have : decimalValue [Nat.digitChar (n % 10)] = (Nat.digitChar (n % 10)).toNat - 48 := by
        simp [decimalValue]
      rw [this, digitChar_value _ (Nat.mod_lt _ (by norm_num))]
      omega
    · rw [if_neg h0, decimalValue_snoc, ih (n / 10) (by omega),
        digitChar_value _ (Nat.mod_lt _ (by norm_num))]
      omega

theorem decimalValue_zeros (k : Nat) (l : List Char) :
    decimalValue (List.replicate k '0' ++ l) = decimalValue l := by
  induction k with
  | zero => rfl
  | succ k ih =>
    have : decimalValue ('0' :: (List.replicate k '0' ++ l))
        = decimalValue (List.replicate k '0' ++ l) := by
      simp [decimalValue]
    rw [List.replicate_succ, List.cons_append, this, ih]

theorem toDigits_length_pos (n : Nat) : 1 ≤ (Nat.toDigits 10 n).length := by
  rw [toDigits_eq]
  split <;> simp

theorem toDigits_length_lt_ten (n : Nat) (h : n < 10) : (Nat.toDigits 10 n).length = 1 := by
  rw [toDigits_eq, if_pos (by omega)]
  rfl

theorem toDigits_length_lt_hundred (n : Nat) (h1 : 10 ≤ n) (h2 : n < 100) :
    (Nat.toDigits 10 n).length = 2 := by
  rw [toDigits_eq, if_neg (by omega), List.length_append,
    toDigits_length_lt_ten (n / 10) (by omega)]
  rfl

theorem toDigits_length_ge_hundred (n : Nat) (h : 100 ≤ n) :
    3 ≤ (Nat.toDigits 10 n).length := by
  rw [toDigits_eq, if_neg (by omega), List.length_append]
  have h10 : 10 ≤ n / 10 := by omega
  rw [toDigits_eq (n / 10), if_neg (by omega), List.length_append]
  have := toDigits_length_pos (n / 10 / 10)
  simp only [List.length_singleton]
  omega

theorem repr_data (n : Nat) : (Nat.repr n).data = Nat.toDigits 10 n := rfl

theorem repr_length (n : Nat) : (Nat.repr n).length = (Nat.toDigits 10 n).length := rfl

theorem getMapFileName_data (ext : String) (n : Nat) :
    (getMapFileName ext n).data =
      List.replicate (3 - (Nat.toDigits 10 n).length) '0' ++ Nat.toDigits 10 n ++ ext.data := by
  simp only [getMapFileName, String.data_append, repr_data, repr_length]

/-! ## Claim about the map file name -/

/-- C20: for every map id, `getMapFileName(mapId)` is the decimal
representation of the id, left-padded with `0` to at least 3 characters and
never truncated, followed by the file extension: ids below 10 get two
zeros, ids from 10 to 99 get one, ids from 100 on (so also 1000 and more) are
written in full. Distinct map ids give distinct file names. -/
theorem getMapFileName_spec (ext : String) (mapId : Nat) :
    getMapFileName ext mapId =
      String.mk (List.replicate (3 - (Nat.repr mapId).length) '0') ++ Nat.repr mapId ++ ext ∧
    decimalValue (Nat.repr mapId).data = mapId ∧
    (mapId < 10 → getMapFileName ext mapId = "00" ++ Nat.repr mapId ++ ext) ∧
    (10 ≤ mapId → mapId < 100 → getMapFileName ext mapId = "0" ++ Nat.repr mapId ++ ext) ∧
    (100 ≤ mapId → getMapFileName ext mapId = Nat.repr mapId ++ ext) ∧
    (∀ other : Nat, getMapFileName ext other = getMapFileName ext mapId → other = mapId) := by
  refine ⟨rfl, decimalValue_toDigits mapId, ?_, ?_, ?_, ?_⟩
  · intro h
    simp only [getMapFileName, repr_length, toDigits_length_lt_ten mapId h]
    rfl
  · intro h1 h2
    simp only [getMapFileName, repr_length, toDigits_length_lt_hundred mapId h1 h2]
    rfl
  · intro h
    have hl := toDigits_length_ge_hundred mapId h
    have h0 : 3 - (Nat.toDigits 10 mapId).length = 0 := by omega
    simp only [getMapFileName, repr_length, h0]
    apply String.ext
    simp [String.data_append]
  · intro other heq
    have hdata := congrArg String.data heq
    rw [getMapFileName_data, getMapFileName_data] at hdata
    have hnum := List.append_cancel_right hdata
    have hval := congrArg decimalValue hnum
    rw [decimalValue_zeros, decimalValue_zeros, decimalValue_toDigits,
      decimalValue_toDigits] at hval
    exact hval

theorem getMapFileName_spec_witness :
    getMapFileName ".vmtree" 37 = "0" ++ Nat.repr 37 ++ ".vmtree" ∧
    getMapFileName ".vmtree" 37 = "037.vmtree" ∧
    getMapFileName ".vmtree" 1234 = "1234.vmtree" :=
  ⟨(getMapFileName_spec ".vmtree" 37).2.2.2.1 (by decide) (by decide), by decide, by decide⟩

/-! ## The registry under sequences of calls -/

theorem keys_loadMapTileOf {Tree : Type} (T : StaticMapTreeOps Tree) (vm : VMapManager2 Tree)
    (mapId : Nat) (tree : Tree) (tileX tileY : Nat) :
    StdMap.keys (loadMapTileOf T vm mapId tree tileX tileY).2.iInstanceMapTrees
      = StdMap.keys vm.iInstanceMapTrees := by
  simp only [loadMapTileOf, StdMap.keys_modify]

theorem keys_loadMap_nodup {Tree : Type} (T : StaticMapTreeOps Tree) (ext : String)
    (enabled : Bool) (vm : VMapManager2 Tree) (basePath : String) (mapId : Nat) (x y : Int)
    (hnd : (StdMap.keys vm.iInstanceMapTrees).Nodup) :
    (StdMap.keys (loadMap T ext enabled vm basePath mapId x y).2.iInstanceMapTrees).Nodup := by
  cases enabled with
  | false => simpa [loadMap] using hnd
  | true =>
    rw [loadMap_enabled_snd]
    cases hfind : StdMap.find mapId vm.iInstanceMapTrees with
    | some tree =>
      rw [_loadMap_registered T ext vm basePath mapId _ _ tree hfind, keys_loadMapTileOf]
      exact hnd
    | none =>
      cases hinit : (T.InitMap (T.create mapId basePath) (getMapFileName ext mapId) vm.models).1
      · rw [_loadMap_init_failed T ext vm basePath mapId _ _ hfind hinit]
        exact hnd
      · rw [_loadMap_init_ok T ext vm basePath mapId _ _ hfind hinit, keys_loadMapTileOf,
          StdMap.keys_insert_absent _ _ _ hfind, List.nodup_append]
        refine ⟨hnd, List.nodup_singleton _, ?_⟩
        intro a ha hb
        rw [List.mem_singleton] at hb
        exact (StdMap.find_eq_none_iff _ _).mp hfind (hb ▸ ha)

theorem keys_eraseIfEmpty_nodup {Tree : Type} (T : StaticMapTreeOps Tree) (mapId : Nat)
    (r : Tree × ModelCache) (vm : VMapManager2 Tree)
    (hnd : (StdMap.keys vm.iInstanceMapTrees).Nodup) :
    (StdMap.keys (eraseIfEmpty T mapId r vm).iInstanceMapTrees).Nodup := by
  unfold eraseIfEmpty
  by_cases h0 : T.numLoadedTiles r.1 = 0
  · simp only [h0, if_true, StdMap.keys_erase]
    exact hnd.filter _
  · simp only [h0, if_false, StdMap.keys_modify]
    exact hnd

theorem keys_mapCall_nodup {Tree : Type} (T : StaticMapTreeOps Tree) (ext : String)
    (vm : VMapManager2 Tree) (c : MapCall) (hnd : (StdMap.keys vm.iInstanceMapTrees).Nodup) :
    (StdMap.keys (c.apply T ext vm).iInstanceMapTrees).Nodup := by
  cases c with
  | load enabled basePath mapId x y => exact keys_loadMap_nodup T ext enabled vm basePath mapId x y hnd
  | unload mapId =>
    simp only [MapCall.apply]
    cases hfind : StdMap.find mapId vm.iInstanceMapTrees with
    | none => rw [unloadMap_unregistered T vm mapId hfind]; exact hnd
    | some tree =>
      rw [unloadMap_registered T vm mapId tree hfind]
      exact keys_eraseIfEmpty_nodup T mapId _ vm hnd
  | unloadTile mapId x y =>
    simp only [MapCall.apply]
    cases hfind : StdMap.find mapId vm.iInstanceMapTrees with
    | none => rw [unloadMapTile_unregistered T vm mapId x y hfind]; exact hnd
    | some tree =>
      rw [unloadMapTile_registered T vm mapId x y tree hfind]
      exact keys_eraseIfEmpty_nodup T mapId _ vm hnd

theorem keys_runMapCalls_nodup {Tree : Type} (T : StaticMapTreeOps Tree) (ext : String)
    (calls : List MapCall) (vm : VMapManager2 Tree)
    (hnd : (StdMap.keys vm.iInstanceMapTrees).Nodup) :
    (StdMap.keys (runMapCalls T ext vm calls).iInstanceMapTrees).Nodup := by
  induction calls generalizing vm with
  | nil => exact hnd
  | cons c rest ih => exact ih _ (keys_mapCall_nodup T ext vm c hnd)

theorem StdMap.modify_const_self {κ ν : Type} [DecidableEq κ] (k : κ) (v : ν)
    (m : StdMap κ ν) (hnd : (StdMap.keys m).Nodup) (hfind : StdMap.find k m = some v) :
    StdMap.modify k (fun _ => v) m = m := by
  unfold StdMap.modify
  conv_rhs => rw [← List.map_id m]
  apply List.map_congr_left
  intro e he
  by_cases hk : e.1 = k
  · have hfe : StdMap.find k m = some e.2 :=
      StdMap.find_of_mem k e.2 m hnd (by rw [← hk]; exact he)
    rw [hfind] at hfe
    rw [if_pos hk, Option.some.inj hfe]
    rfl
  · rw [if_neg hk]
    rfl

theorem sameOutsideIndex_refl {Tree : Type} (mapId : Nat) (vm : VMapManager2 Tree) :
    SameOutsideIndex mapId vm vm :=
  ⟨rfl, rfl, fun _ _ => rfl⟩

theorem sameOutsideIndex_afterTreeCall {Tree : Type} (mapId : Nat) (vm : VMapManager2 Tree)
    (tree : Tree) : SameOutsideIndex mapId vm (afterTreeCall vm mapId tree) := by
  refine ⟨rfl, ?_, fun id hid => ?_⟩
  · show StdMap.keys (StdMap.modify mapId (fun _ => tree) vm.iInstanceMapTrees) = _
    exact StdMap.keys_modify _ _ _
  show StdMap.find id (StdMap.modify mapId (fun _ => tree) vm.iInstanceMapTrees) = _
  rw [StdMap.find_modify, if_neg hid]

theorem afterTreeCall_self {Tree : Type} (mapId : Nat) (vm : VMapManager2 Tree) (tree : Tree)
    (hnd : (StdMap.keys vm.iInstanceMapTrees).Nodup)
    (hfind : StdMap.find mapId vm.iInstanceMapTrees = some tree) :
    afterTreeCall vm mapId tree = vm := by
  unfold afterTreeCall
  rw [StdMap.modify_const_self mapId tree _ hnd hfind]

/-! ## Claims about lazy construction, load errors and the query frame -/

/-- C23: `_loadMap` constructs a Tile Index and calls `InitMap` only when the
map id is absent from the registry. When the id is registered with `tree`,
the outcome is `LoadMapTile` on that tree whatever the constructor and
`InitMap` are (they are not called) and the keys of the registry are
unchanged; when it is absent and `InitMap` succeeds, the id is added once,
holding the tree that `InitMap` and `LoadMapTile` left. Hence in every state
reached from the empty manager by load and unload calls the registry holds
at most one Tile Index per map id. -/
theorem loadMap_lazy_construction {Tree : Type} (T : StaticMapTreeOps Tree) (ext : String)
    (vm : VMapManager2 Tree) (basePath : String) (mapId tileX tileY : Nat) :
    (∀ tree, StdMap.find mapId vm.iInstanceMapTrees = some tree →
      (∀ T' : StaticMapTreeOps Tree, T'.LoadMapTile = T.LoadMapTile →
        (_loadMap T' ext vm mapId basePath tileX tileY).1
          = (_loadMap T ext vm mapId basePath tileX tileY).1 ∧
        (_loadMap T' ext vm mapId basePath tileX tileY).2.iInstanceMapTrees
          = (_loadMap T ext vm mapId basePath tileX tileY).2.iInstanceMapTrees ∧
        (_loadMap T' ext vm mapId basePath tileX tileY).2.models
          = (_loadMap T ext vm mapId basePath tileX tileY).2.models) ∧
      (_loadMap T ext vm mapId basePath tileX tileY).1
        = (T.LoadMapTile tree tileX tileY vm.models).1 ∧
      StdMap.find mapId (_loadMap T ext vm mapId basePath tileX tileY).2.iInstanceMapTrees
        = some (T.LoadMapTile tree tileX tileY vm.models).2.1 ∧
      StdMap.keys (_loadMap T ext vm mapId basePath tileX tileY).2.iInstanceMapTrees
        = StdMap.keys vm.iInstanceMapTrees) ∧
    (StdMap.find mapId vm.iInstanceMapTrees = none →
      (T.InitMap (T.create mapId basePath) (getMapFileName ext mapId) vm.models).1 = true →
      StdMap.keys (_loadMap T ext vm mapId basePath tileX tileY).2.iInstanceMapTrees
        = StdMap.keys vm.iInstanceMapTrees ++ [mapId] ∧
      StdMap.find mapId (_loadMap T ext vm mapId basePath tileX tileY).2.iInstanceMapTrees
        = some (T.LoadMapTile
            (T.InitMap (T.create mapId basePath) (getMapFileName ext mapId) vm.models).2.1
            tileX tileY
            (T.InitMap (T.create mapId basePath) (getMapFileName ext mapId) vm.models).2.2).2.1) ∧
    (∀ calls : List MapCall,
      (StdMap.keys (runMapCalls T ext {} calls).iInstanceMapTrees).Nodup) := by
  refine ⟨?_, ?_, ?_⟩
  · intro tree hfind
    have hT : ∀ T' : StaticMapTreeOps Tree, T'.LoadMapTile = T.LoadMapTile →
        _loadMap T' ext vm mapId basePath tileX tileY
          = _loadMap T ext vm mapId basePath tileX tileY := by
      intro T' hT'
      rw [_loadMap_registered T' ext vm basePath mapId _ _ tree hfind,
        _loadMap_registered T ext vm basePath mapId _ _ tree hfind]
      simp only [loadMapTileOf, hT']
    refine ⟨fun T' hT' => by rw [hT T' hT']; exact ⟨rfl, rfl, rfl⟩, ?_, ?_, ?_⟩
    · rw [_loadMap_registered T ext vm basePath mapId _ _ tree hfind]
      rfl
    · rw [_loadMap_registered T ext vm basePath mapId _ _ tree hfind, find_loadMapTileOf,
        if_pos rfl, hfind]
      rfl
    · rw [_loadMap_registered T ext vm basePath mapId _ _ tree hfind, keys_loadMapTileOf]
  · intro hfind hinit
    rw [_loadMap_init_ok T ext vm basePath mapId _ _ hfind hinit]
    constructor
    · rw [keys_loadMapTileOf, StdMap.keys_insert_absent _ _ _ hfind]
    · rw [find_loadMapTileOf, if_pos rfl, StdMap.find_insert_absent _ _ _ _ hfind, if_pos rfl]
      rfl
  · intro calls
    exact keys_runMapCalls_nodup T ext calls {} List.nodup_nil

theorem loadMap_lazy_construction_witness :
    (_loadMap sampleTreeOps ".vmtree"
        ({ iInstanceMapTrees := [(0, [(32, 32)])] } : VMapManager2 (List (Nat × Nat)))
        0 "vmaps/" 32 33).1
      = (sampleTreeOps.LoadMapTile [(32, 32)] 32 33 {}).1 :=
  ((loadMap_lazy_construction sampleTreeOps ".vmtree"
      ({ iInstanceMapTrees := [(0, [(32, 32)])] } : VMapManager2 (List (Nat × Nat)))
      "vmaps/" 0 32 33).1 [(32, 32)] (by decide)).2.1

/-- C24, as stated, fails: with LOS calculation enabled and map `0`
registered but disabled for LOS, a Tile Index that would report a hit is not
consulted; `getObjectHitPos` returns `false` and `p2`. -/
theorem getObjectHitPos_map_disabled :
    ({ sampleTreeQueries with
        getObjectHitPos := fun _ _ _ _ _ => (true, Vector3.zero) }).getObjectHitPos [(32, 32)]
        (convertPositionToInternalRep (F32.lit 1 1) (F32.lit 2 1) (F32.lit 3 1))
        (convertPositionToInternalRep (F32.lit 4 1) (F32.lit 5 1) (F32.lit 6 1))
        Vector3.zero (F32.lit 0 1)
      = (true, Vector3.zero) ∧
    getObjectHitPos
        { sampleTreeQueries with getObjectHitPos := fun _ _ _ _ _ => (true, Vector3.zero) }
        { sampleConfig with IsVMAPDisabledForPtr := fun _ _ => true }
        ({ iInstanceMapTrees := [(0, [(32, 32)])] } : VMapManager2 (List (Nat × Nat)))
        0 (F32.lit 1 1) (F32.lit 2 1) (F32.lit 3 1) (F32.lit 4 1) (F32.lit 5 1) (F32.lit 6 1)
        (F32.lit 0 1)
      = { result := false, rx := F32.lit 4 1, ry := F32.lit 5 1, rz := F32.lit 6 1 } := by
  decide

/-- C24, amended: when LOS calculation is enabled, the map is not disabled
for LOS and the map id is registered, `getObjectHitPos` calls the Tile Index
with both end points in internal coordinates, the default-constructed result
position and the unchanged `pModifyDist`, returns the Tile Index's boolean,
and returns as `(rx, ry, rz)` the Tile Index's result position passed through
`convertPositionToInternalRep`: `rx = mid - r.x`, `ry = mid - r.y`,
`rz = r.z`, in `float` arithmetic. When the map is disabled for LOS, the
Tile Index is not consulted (the outcome is the same for every Tile Index,
registered or not) and the call returns `false` with `(rx, ry, rz) = p2`. -/
theorem getObjectHitPos_delegates {Tree Info : Type} (Q : StaticMapTreeQueries Tree Info)
    (cfg : QueryConfig) (vm : VMapManager2 Tree) (mapId : Nat)
    (x1 y1 z1 x2 y2 z2 dist : F32) :
    (∀ tree, cfg.isLineOfSightCalcEnabled = true →
      cfg.IsVMAPDisabledForPtr mapId .VMAP_DISABLE_LOS = false →
      StdMap.find mapId vm.iInstanceMapTrees = some tree →
      (getObjectHitPos Q cfg vm mapId x1 y1 z1 x2 y2 z2 dist).result
        = (Q.getObjectHitPos tree (convertPositionToInternalRep x1 y1 z1)
            (convertPositionToInternalRep x2 y2 z2) Vector3.zero dist).1 ∧
      (getObjectHitPos Q cfg vm mapId x1 y1 z1 x2 y2 z2 dist).rx
        = F32.sub mid (Q.getObjectHitPos tree (convertPositionToInternalRep x1 y1 z1)
            (convertPositionToInternalRep x2 y2 z2) Vector3.zero dist).2.x ∧
      (getObjectHitPos Q cfg vm mapId x1 y1 z1 x2 y2 z2 dist).ry
        = F32.sub mid (Q.getObjectHitPos tree (convertPositionToInternalRep x1 y1 z1)
            (convertPositionToInternalRep x2 y2 z2) Vector3.zero dist).2.y ∧
      (getObjectHitPos Q cfg vm mapId x1 y1 z1 x2 y2 z2 dist).rz
        = (Q.getObjectHitPos tree (convertPositionToInternalRep x1 y1 z1)
            (convertPositionToInternalRep x2 y2 z2) Vector3.zero dist).2.z) ∧
    (cfg.IsVMAPDisabledForPtr mapId .VMAP_DISABLE_LOS = true →
      ∀ (Q' : StaticMapTreeQueries Tree Info) (vm' : VMapManager2 Tree),
        getObjectHitPos Q' cfg vm' mapId x1 y1 z1 x2 y2 z2 dist
          = { result := false, rx := x2, ry := y2, rz := z2 }) := by
  constructor
  · intro tree hen hmap hfind
    rw [getObjectHitPos_registered Q cfg vm mapId x1 y1 z1 x2 y2 z2 dist tree hen hmap hfind]
    exact ⟨rfl, rfl, rfl, rfl⟩
  · intro hmap Q' vm'
    exact getObjectHitPos_unavailable Q' cfg vm' mapId x1 y1 z1 x2 y2 z2 dist
      (Or.inr (Or.inl hmap))

theorem getObjectHitPos_delegates_witness :
    (getObjectHitPos
        { sampleTreeQueries with getObjectHitPos := fun _ _ _ _ _ => (true, Vector3.zero) }
        sampleConfig
        ({ iInstanceMapTrees := [(0, [(32, 32)])] } : VMapManager2 (List (Nat × Nat)))
        0 (F32.lit 1 1) (F32.lit 2 1) (F32.lit 3 1) (F32.lit 4 1) (F32.lit 5 1) (F32.lit 6 1)
        (F32.lit 0 1)).result
      = true ∧
    getObjectHitPos
        { sampleTreeQueries with getObjectHitPos := fun _ _ _ _ _ => (true, Vector3.zero) }
        { sampleConfig with IsVMAPDisabledForPtr := fun mapId _ => decide (mapId = 0) }
        ({ iInstanceMapTrees := [(0, [(32, 32)])] } : VMapManager2 (List (Nat × Nat)))
        0 (F32.lit 1 1) (F32.lit 2 1) (F32.lit 3 1) (F32.lit 4 1) (F32.lit 5 1) (F32.lit 6 1)
        (F32.lit 0 1)
      = { result := false, rx := F32.lit 4 1, ry := F32.lit 5 1, rz := F32.lit 6 1 } :=
  ⟨((getObjectHitPos_delegates
      { sampleTreeQueries with getObjectHitPos := fun _ _ _ _ _ => (true, Vector3.zero) }
      sampleConfig
      ({ iInstanceMapTrees := [(0, [(32, 32)])] } : VMapManager2 (List (Nat × Nat)))
      0 (F32.lit 1 1) (F32.lit 2 1) (F32.lit 3 1) (F32.lit 4 1) (F32.lit 5 1) (F32.lit 6 1)
      (F32.lit 0 1)).1 [(32, 32)] (by decide) (by decide) (by decide)).1,
   (getObjectHitPos_delegates sampleTreeQueries
      { sampleConfig with IsVMAPDisabledForPtr := fun mapId _ => decide (mapId = 0) }
      ({} : VMapManager2 (List (Nat × Nat)))
      0 (F32.lit 1 1) (F32.lit 2 1) (F32.lit 3 1) (F32.lit 4 1) (F32.lit 5 1) (F32.lit 6 1)
      (F32.lit 0 1)).2 (by decide) _ _⟩

/-- C25: a `loadMap` call that returns `VMAP_LOAD_RESULT_ERROR` can change
the registry. When the map id was not registered, `InitMap` succeeds and
`LoadMapTile` fails, the result is the error code, the registry differs from
the one before, and the freshly created Tile Index, as `LoadMapTile` left it,
is registered under the map id. For a Tile Index that follows the spec (a new
index has no tile, `initMap` loads none, a failed `loadTile` inserts none) it
has zero loaded tiles; so if the call was made in a state reached from the
empty manager by load and unload calls, "every registered Tile Index has a
loaded tile" is not an invariant of these calls. -/
theorem loadMap_error_keeps_index {Tree : Type} (T : StaticMapTreeOps Tree) (ext : String)
    (vm : VMapManager2 Tree) (basePath : String) (mapId : Nat) (x y : Int)
    (hfind : StdMap.find mapId vm.iInstanceMapTrees = none)
    (hinit : (T.InitMap (T.create mapId basePath) (getMapFileName ext mapId) vm.models).1
      = true)
    (hload : (T.LoadMapTile
        (T.InitMap (T.create mapId basePath) (getMapFileName ext mapId) vm.models).2.1
        (toUInt32 x) (toUInt32 y)
        (T.InitMap (T.create mapId basePath) (getMapFileName ext mapId) vm.models).2.2).1
      = false) :
    (loadMap T ext true vm basePath mapId x y).1 = .VMAP_LOAD_RESULT_ERROR ∧
    StdMap.find mapId (loadMap T ext true vm basePath mapId x y).2.iInstanceMapTrees
      = some (T.LoadMapTile
          (T.InitMap (T.create mapId basePath) (getMapFileName ext mapId) vm.models).2.1
          (toUInt32 x) (toUInt32 y)
          (T.InitMap (T.create mapId basePath) (getMapFileName ext mapId) vm.models).2.2).2.1 ∧
    (loadMap T ext true vm basePath mapId x y).2.iInstanceMapTrees ≠ vm.iInstanceMapTrees ∧
    (TileIndexContract T →
      T.numLoadedTiles (T.LoadMapTile
          (T.InitMap (T.create mapId basePath) (getMapFileName ext mapId) vm.models).2.1
          (toUInt32 x) (toUInt32 y)
          (T.InitMap (T.create mapId basePath) (getMapFileName ext mapId) vm.models).2.2).2.1
        = 0 ∧
      ∀ before : List MapCall, vm = runMapCalls T ext {} before →
        ¬ ∀ (calls : List MapCall) (id : Nat) (tree : Tree),
          StdMap.find id (runMapCalls T ext {} calls).iInstanceMapTrees = some tree →
            0 < T.numLoadedTiles tree) := by
  have hfound : StdMap.find mapId
      (loadMap T ext true vm basePath mapId x y).2.iInstanceMapTrees
      = some (T.LoadMapTile
          (T.InitMap (T.create mapId basePath) (getMapFileName ext mapId) vm.models).2.1
          (toUInt32 x) (toUInt32 y)
          (T.InitMap (T.create mapId basePath) (getMapFileName ext mapId) vm.models).2.2).2.1 := by
    rw [loadMap_enabled_snd, _loadMap_init_ok T ext vm basePath mapId _ _ hfind hinit,
      find_loadMapTileOf, if_pos rfl, StdMap.find_insert_absent _ _ _ _ hfind, if_pos rfl]
    rfl
  refine ⟨?_, hfound, ?_, fun hT => ?_⟩
  · rw [loadMap_enabled_fst, _loadMap_init_ok T ext vm basePath mapId _ _ hfind hinit,
      loadMapTileOf_fst, hload]
    rfl
  · intro heq
    rw [heq, hfind] at hfound
    cases hfound
  · have hzero : T.numLoadedTiles (T.LoadMapTile
          (T.InitMap (T.create mapId basePath) (getMapFileName ext mapId) vm.models).2.1
          (toUInt32 x) (toUInt32 y)
          (T.InitMap (T.create mapId basePath) (getMapFileName ext mapId) vm.models).2.2).2.1
        = 0 := by
      rw [hT.2.2 _ _ _ _ hload, hT.2.1, hT.1]
    refine ⟨hzero, fun before hvm hall => ?_⟩
    have hrun : runMapCalls T ext {} (before ++ [.load true basePath mapId x y])
        = (loadMap T ext true vm basePath mapId x y).2 := by
      rw [hvm]
      simp [runMapCalls, MapCall.apply, List.foldl_append]
    have hpos := hall (before ++ [.load true basePath mapId x y]) mapId _
      (by rw [hrun]; exact hfound)
    rw [hzero] at hpos
    exact Nat.lt_irrefl 0 hpos

theorem sampleTreeOps_contract : TileIndexContract sampleTreeOps := by
  refine ⟨fun _ _ => rfl, fun _ _ _ => rfl, fun tree tileX tileY models hfail => ?_⟩
  have htree : (sampleTreeOps.LoadMapTile tree tileX tileY models).2.1 = tree := by
    revert hfail
    simp only [sampleTreeOps]
    split
    · split
      · intro _; rfl
      · intro h; cases h
    · intro _; rfl
  rw [htree]

theorem loadMap_error_keeps_index_witness :
    (loadMap sampleTreeOps ".vmtree" true {} "vmaps/" 0 64 64).1 = .VMAP_LOAD_RESULT_ERROR ∧
    StdMap.find 0 (loadMap sampleTreeOps ".vmtree" true {} "vmaps/" 0 64 64).2.iInstanceMapTrees
      = some [] ∧
    sampleTreeOps.numLoadedTiles [] = 0 ∧
    ¬ ∀ (calls : List MapCall) (id : Nat) (tree : List (Nat × Nat)),
        StdMap.find id (runMapCalls sampleTreeOps ".vmtree" {} calls).iInstanceMapTrees
          = some tree → 0 < sampleTreeOps.numLoadedTiles tree :=
  have h := loadMap_error_keeps_index sampleTreeOps ".vmtree" {} "vmaps/" 0 64 64
    (by decide) (by decide) (by decide)
  ⟨h.1, h.2.1, (h.2.2.2 sampleTreeOps_contract).1,
   (h.2.2.2 sampleTreeOps_contract).2 [] rfl⟩

/-- C26: output frame of `GetLiquidLevel`. When lookups are disabled for the
map, the map id is unregistered, or the Tile Index finds no location info,
the call returns `false` with `level`, `floor` and `type` unchanged. When
location info is found and a non-zero `ReqLiquidType` shares no bit with the
hit model's liquid type, the call returns `false` with `floor` overwritten by
the hit's `ground_Z` and `type` by the liquid type; only `level` is
unchanged. -/
theorem GetLiquidLevel_frame {Tree Info : Type} (Q : StaticMapTreeQueries Tree Info)
    (cfg : QueryConfig) (vm : VMapManager2 Tree) (mapId : Nat) (x y z : F32) (req : Nat)
    (level floor : F32) (type : Nat) :
    (cfg.IsVMAPDisabledForPtr mapId .VMAP_DISABLE_LIQUIDSTATUS = true ∨
      StdMap.find mapId vm.iInstanceMapTrees = none →
      GetLiquidLevel Q cfg vm mapId x y z req level floor type
        = { result := false, level := level, floor := floor, type := type }) ∧
    (∀ tree, cfg.IsVMAPDisabledForPtr mapId .VMAP_DISABLE_LIQUIDSTATUS = false →
      StdMap.find mapId vm.iInstanceMapTrees = some tree →
      (Q.GetLocationInfo tree (convertPositionToInternalRep x y z) = none →
        GetLiquidLevel Q cfg vm mapId x y z req level floor type
          = { result := false, level := level, floor := floor, type := type }) ∧
      (∀ info, Q.GetLocationInfo tree (convertPositionToInternalRep x y z) = some info →
        req ≠ 0 → Q.GetLiquidType info &&& req = 0 →
        GetLiquidLevel Q cfg vm mapId x y z req level floor type
          = { result := false, level := level, floor := Q.ground_Z info,
              type := Q.GetLiquidType info })) := by
  refine ⟨GetLiquidLevel_unavailable Q cfg vm mapId x y z req level floor type, ?_⟩
  intro tree hmap hfind
  rw [GetLiquidLevel_registered Q cfg vm mapId x y z req level floor type tree hmap hfind]
  constructor
  · intro hinfo
    rw [hinfo]
  · intro info hinfo hreq hmask
    rw [hinfo]
    simp only [if_pos (And.intro hreq hmask)]

theorem GetLiquidLevel_frame_witness :
    GetLiquidLevel { sampleTreeQueries with
          GetLocationInfo := fun _ _ => some (),
          ground_Z := fun _ => F32.lit 7 1,
          GetLiquidType := fun _ => 2 }
        sampleConfig
        ({ iInstanceMapTrees := [(0, [(32, 32)])] } : VMapManager2 (List (Nat × Nat)))
        0 (F32.lit 1 1) (F32.lit 2 1) (F32.lit 3 1) 1 (F32.lit 0 1) (F32.lit 0 1) 0
      = { result := false, level := F32.lit 0 1, floor := F32.lit 7 1, type := 2 } :=
  ((GetLiquidLevel_frame { sampleTreeQueries with
        GetLocationInfo := fun _ _ => some (),
        ground_Z := fun _ => F32.lit 7 1,
        GetLiquidType := fun _ => 2 }
      sampleConfig
      ({ iInstanceMapTrees := [(0, [(32, 32)])] } : VMapManager2 (List (Nat × Nat)))
      0 (F32.lit 1 1) (F32.lit 2 1) (F32.lit 3 1) 1 (F32.lit 0 1) (F32.lit 0 1) 0).2
    [(32, 32)] (by decide) (by decide)).2 () (by decide) (by decide) (by decide)

/-- C27: the query operations `isInLineOfSight`, `getObjectHitPos`,
`getHeight`, `getAreaInfo` and `GetLiquidLevel` as calls on the manager
object. Whatever the members of the Tile Index do, a query on map `mapId`
leaves the model cache, the registered map ids and the Tile Index of every
other map id as they were, and its answer is the value of the query on the
state it started in. With read-only Tile Index members and a registry that
holds each map id once, the manager state after each query is exactly the
state before it. -/
theorem queries_read_only {Tree Info : Type} (C : StaticMapTreeCalls Tree Info)
    (Q : StaticMapTreeQueries Tree Info) (cfg : QueryConfig) (vm : VMapManager2 Tree)
    (mapId : Nat) (x1 y1 z1 x2 y2 z2 dist : F32) (ids : AreaIds) (req : Nat)
    (level floor : F32) (type : Nat)
    (hkeys : (StdMap.keys vm.iInstanceMapTrees).Nodup) :
    (SameOutsideIndex mapId vm
        (VMapManager2.isInLineOfSight C cfg vm mapId x1 y1 z1 x2 y2 z2).2 ∧
      SameOutsideIndex mapId vm
        (VMapManager2.getObjectHitPos C cfg vm mapId x1 y1 z1 x2 y2 z2 dist).2 ∧
      SameOutsideIndex mapId vm (VMapManager2.getHeight C cfg vm mapId x1 y1 z1 dist).2 ∧
      SameOutsideIndex mapId vm (VMapManager2.getAreaInfo C cfg vm mapId x1 y1 z1 ids).2 ∧
      SameOutsideIndex mapId vm
        (VMapManager2.GetLiquidLevel C cfg vm mapId x1 y1 z1 req level floor type).2) ∧
    ((VMapManager2.isInLineOfSight C cfg vm mapId x1 y1 z1 x2 y2 z2).1
        = isInLineOfSight C.results cfg vm mapId x1 y1 z1 x2 y2 z2 ∧
      (VMapManager2.getObjectHitPos C cfg vm mapId x1 y1 z1 x2 y2 z2 dist).1
        = getObjectHitPos C.results cfg vm mapId x1 y1 z1 x2 y2 z2 dist ∧
      (VMapManager2.getHeight C cfg vm mapId x1 y1 z1 dist).1
        = getHeight C.results cfg vm mapId x1 y1 z1 dist ∧
      (VMapManager2.getAreaInfo C cfg vm mapId x1 y1 z1 ids).1
        = getAreaInfo C.results cfg vm mapId x1 y1 z1 ids ∧
      (VMapManager2.GetLiquidLevel C cfg vm mapId x1 y1 z1 req level floor type).1
        = GetLiquidLevel C.results cfg vm mapId x1 y1 z1 req level floor type) ∧
    ((VMapManager2.isInLineOfSight Q.calls cfg vm mapId x1 y1 z1 x2 y2 z2).2 = vm ∧
      (VMapManager2.getObjectHitPos Q.calls cfg vm mapId x1 y1 z1 x2 y2 z2 dist).2 = vm ∧
      (VMapManager2.getHeight Q.calls cfg vm mapId x1 y1 z1 dist).2 = vm ∧
      (VMapManager2.getAreaInfo Q.calls cfg vm mapId x1 y1 z1 ids).2 = vm ∧
      (VMapManager2.GetLiquidLevel Q.calls cfg vm mapId x1 y1 z1 req level floor type).2
        = vm) := by
  refine ⟨⟨?_, ?_, ?_, ?_, ?_⟩, ⟨?_, ?_, ?_, ?_, ?_⟩, ⟨?_, ?_, ?_, ?_, ?_⟩⟩
  · unfold VMapManager2.isInLineOfSight
    repeat' first | split | dsimp only
    all_goals first
      | exact sameOutsideIndex_refl _ _
      | exact sameOutsideIndex_afterTreeCall _ _ _
  · unfold VMapManager2.getObjectHitPos
    repeat' first | split | dsimp only
    all_goals first
      | exact sameOutsideIndex_refl _ _
      | exact sameOutsideIndex_afterTreeCall _ _ _
  · unfold VMapManager2.getHeight
    repeat' first | split | dsimp only
    all_goals first
      | exact sameOutsideIndex_refl _ _
      | exact sameOutsideIndex_afterTreeCall _ _ _
  · unfold VMapManager2.getAreaInfo
    repeat' first | split | dsimp only
    all_goals first
      | exact sameOutsideIndex_refl _ _
      | exact sameOutsideIndex_afterTreeCall _ _ _
  · unfold VMapManager2.GetLiquidLevel
    repeat' first | split | dsimp only
    all_goals first
      | exact sameOutsideIndex_refl _ _
      | exact sameOutsideIndex_afterTreeCall _ _ _
  · unfold VMapManager2.isInLineOfSight isInLineOfSight
    dsimp only [StaticMapTreeCalls.results]
    repeat' first | split | dsimp only
  · unfold VMapManager2.getObjectHitPos getObjectHitPos
    dsimp only [StaticMapTreeCalls.results]
    repeat' first | split | dsimp only
  · unfold VMapManager2.getHeight getHeight
    dsimp only [StaticMapTreeCalls.results]
    repeat' first | split | dsimp only
  · unfold VMapManager2.getAreaInfo getAreaInfo
    dsimp only [StaticMapTreeCalls.results]
    repeat' first | split | dsimp only
  · unfold VMapManager2.GetLiquidLevel GetLiquidLevel
    dsimp only [StaticMapTreeCalls.results]
    repeat' first | split | dsimp only
  · unfold VMapManager2.isInLineOfSight
    repeat' first | split | dsimp only
    all_goals first
      | rfl
      | exact afterTreeCall_self _ _ _ hkeys (by assumption)
  · unfold VMapManager2.getObjectHitPos
    repeat' first | split | dsimp only
    all_goals first
      | rfl
      | exact afterTreeCall_self _ _ _ hkeys (by assumption)
  · unfold VMapManager2.getHeight
    repeat' first | split | dsimp only
    all_goals first
      | rfl
      | exact afterTreeCall_self _ _ _ hkeys (by assumption)
  · unfold VMapManager2.getAreaInfo
    repeat' first | split | dsimp only
    all_goals first
      | rfl
      | exact afterTreeCall_self _ _ _ hkeys (by assumption)
  · unfold VMapManager2.GetLiquidLevel
    repeat' first | split | dsimp only
    all_goals first
      | rfl
      | exact afterTreeCall_self _ _ _ hkeys (by assumption)

theorem queries_read_only_witness :
    (VMapManager2.isInLineOfSight countingTreeCalls sampleConfig
        ({ iInstanceMapTrees := [(0, [(32, 32)]), (1, [(5, 5)])] } :
          VMapManager2 (List (Nat × Nat)))
        0 (F32.lit 1 1) (F32.lit 2 1) (F32.lit 3 1) (F32.lit 4 1) (F32.lit 5 1)
        (F32.lit 6 1)).2.iInstanceMapTrees
      = [(0, [(0, 0), (32, 32)]), (1, [(5, 5)])] ∧
    (VMapManager2.isInLineOfSight sampleTreeQueries.calls sampleConfig
        ({ iInstanceMapTrees := [(0, [(32, 32)]), (1, [(5, 5)])] } :
          VMapManager2 (List (Nat × Nat)))
        0 (F32.lit 1 1) (F32.lit 2 1) (F32.lit 3 1) (F32.lit 4 1) (F32.lit 5 1)
        (F32.lit 6 1)).2.iInstanceMapTrees
      = [(0, [(32, 32)]), (1, [(5, 5)])] :=
  ⟨by decide,
   congrArg VMapManager2.iInstanceMapTrees
    (queries_read_only countingTreeCalls sampleTreeQueries sampleConfig
      ({ iInstanceMapTrees := [(0, [(32, 32)]), (1, [(5, 5)])] } :
        VMapManager2 (List (Nat × Nat)))
      0 (F32.lit 1 1) (F32.lit 2 1) (F32.lit 3 1) (F32.lit 4 1) (F32.lit 5 1) (F32.lit 6 1)
      (F32.lit 0 1) { flags := 0, adtId := 0, rootId := 0, groupId := 0 } 0 (F32.lit 0 1)
      (F32.lit 0 1) 0 (by decide)).2.2.1⟩

end VMAP

namespace Mangos

/-! ## Claims about mail items -/

theorem removeItemLoop_found (item_guid : Nat) (items : List MailItemInfo)
    (h : (removeItemLoop item_guid items).1 = true) :
    ∃ front back e, items = front ++ e :: back ∧ e.item_guid = item_guid ∧
      (∀ f ∈ front, f.item_guid ≠ item_guid) ∧
      (removeItemLoop item_guid items).2 = front ++ back := by
  induction items with
  | nil => simp [removeItemLoop] at h
  | cons itr rest ih =>
    by_cases hg : itr.item_guid = item_guid
    · refine ⟨[], rest, itr, rfl, hg, fun f hf => absurd hf (List.not_mem_nil f), ?_⟩
      simp [removeItemLoop, hg]
    · simp only [removeItemLoop, hg, if_false] at h ⊢
      obtain ⟨front, back, e, hitems, he, hfront, hres⟩ := ih h
      refine ⟨itr :: front, back, e, by rw [hitems]; rfl, he, ?_, by rw [hres]; rfl⟩
      intro f hf
      rcases List.mem_cons.mp hf with hf | hf
      · rw [hf]; exact hg
      · exact hfront f hf

theorem removeItemLoop_true_iff (item_guid : Nat) (items : List MailItemInfo) :
    (removeItemLoop item_guid items).1 = true ↔ ∃ e ∈ items, e.item_guid = item_guid := by
  induction items with
  | nil => simp [removeItemLoop]
  | cons itr rest ih =>
    by_cases hg : itr.item_guid = item_guid
    · simp [removeItemLoop, hg]
    · simp only [removeItemLoop, hg, if_false, ih, List.mem_cons, exists_eq_or_imp, false_or]

theorem removeItemLoop_not_found (item_guid : Nat) (items : List MailItemInfo)
    (h : (removeItemLoop item_guid items).1 = false) :
    (removeItemLoop item_guid items).2 = items := by
  induction items with
  | nil => rfl
  | cons itr rest ih =>
    by_cases hg : itr.item_guid = item_guid
    · simp [removeItemLoop, hg] at h
    · simp only [removeItemLoop, hg, if_false] at h ⊢
      rw [ih h]

theorem has_items_of_items (calls : List MailCall) (m : Mail)
    (hinv : m.items ≠ [] → m.has_items = true) :
    (calls.foldl MailCall.apply m).items ≠ [] → (calls.foldl MailCall.apply m).has_items = true := by
  induction calls generalizing m with
  | nil => exact hinv
  | cons c rest ih =>
    apply ih
    cases c with
    | AddItem g t => intro _; rfl
    | RemoveItem g =>
      intro hne
      apply hinv
      intro hnil
      apply hne
      simp [MailCall.apply, Mail.RemoveItem, hnil, removeItemLoop]

/-- C21: `Mail::RemoveItem(item_guid)` returns `true` if and only if some
entry of `items` has that guid. When it returns `true`, exactly one entry,
the first one with that guid, is removed and the remaining entries keep their
order; when it returns `false`, `items` is unchanged. No other member is
touched. -/
theorem Mail_RemoveItem_spec (m : Mail) (item_guid : Nat) :
    ((m.RemoveItem item_guid).1 = true ↔ ∃ e ∈ m.items, e.item_guid = item_guid) ∧
    ((m.RemoveItem item_guid).1 = true →
      ∃ front back e, m.items = front ++ e :: back ∧ e.item_guid = item_guid ∧
        (∀ f ∈ front, f.item_guid ≠ item_guid) ∧
        (m.RemoveItem item_guid).2.items = front ++ back) ∧
    ((m.RemoveItem item_guid).1 = false → (m.RemoveItem item_guid).2 = m) ∧
    (m.RemoveItem item_guid).2 = { m with items := (m.RemoveItem item_guid).2.items } :=
  ⟨removeItemLoop_true_iff item_guid m.items,
   removeItemLoop_found item_guid m.items,
   fun h => by
    have := removeItemLoop_not_found item_guid m.items h
    simp only [Mail.RemoveItem, this],
   rfl⟩

theorem Mail_RemoveItem_spec_witness :
    ∃ front back e,
      (({} : Mail).AddItem 5 50 |>.AddItem 7 70 |>.AddItem 5 51).items = front ++ e :: back ∧
      e.item_guid = 5 ∧ (∀ f ∈ front, f.item_guid ≠ 5) ∧
      ((({} : Mail).AddItem 5 50 |>.AddItem 7 70 |>.AddItem 5 51).RemoveItem 5).2.items
        = front ++ back :=
  (Mail_RemoveItem_spec (({} : Mail).AddItem 5 50 |>.AddItem 7 70 |>.AddItem 5 51) 5).2.1
    (by decide)

/-- C22: in every `Mail` state reached from a default-constructed `Mail` by
`AddItem` and `RemoveItem` calls, a non-empty `items` vector implies
`HasItems()`. `AddItem` appends exactly one entry
`(itemGuidLow, item_template)` at the end, sets `has_items` and makes no check
against `MAX_MAIL_ITEMS`: the vector grows by one whatever its length. -/
theorem Mail_HasItems_invariant (calls : List MailCall) (m : Mail)
    (itemGuidLow item_template : Nat) :
    ((runMailCalls calls).items ≠ [] → (runMailCalls calls).HasItems = true) ∧
    (m.AddItem itemGuidLow item_template).items
      = m.items ++ [{ item_guid := itemGuidLow, item_template := item_template }] ∧
    (m.AddItem itemGuidLow item_template).items.length = m.items.length + 1 ∧
    (m.AddItem itemGuidLow item_template).HasItems = true ∧
    m.AddItem itemGuidLow item_template
      = { m with items := (m.AddItem itemGuidLow item_template).items, has_items := true } ∧
    (MAX_MAIL_ITEMS ≤ m.items.length →
      MAX_MAIL_ITEMS < (m.AddItem itemGuidLow item_template).items.length) :=
  ⟨has_items_of_items calls {} (fun h => absurd rfl h), rfl, by simp [Mail.AddItem], rfl, rfl,
   fun h => by simp only [Mail.AddItem, List.length_append, List.length_singleton]; omega⟩

theorem Mail_HasItems_invariant_witness :
    (runMailCalls [.AddItem 5 50, .AddItem 7 70, .RemoveItem 5]).HasItems = true :=
  (Mail_HasItems_invariant [.AddItem 5 50, .AddItem 7 70, .RemoveItem 5] {} 0 0).1 (by decide)

end Mangos

namespace ACE_Based

/-! ## Claim about the thread priority indices -/

theorem normPos_first (d : Int) (l : List Int) (k i : Nat) (hat : l[k]? = some d)
    (hfirst : ∀ j, j < k → l[j]? ≠ some d) : normPos d l i = i + k + 1 := by
  induction l generalizing k i with
  | nil => simp at hat
  | cons p rest ih =>
    cases k with
    | zero =>
      simp only [List.getElem?_cons_zero, Option.some.injEq] at hat
      simp [normPos, hat]
    | succ k =>
      have hp : p ≠ d := by
        intro hpd
        exact hfirst 0 (Nat.succ_pos k) (by simp [hpd])
      simp only [normPos, hp, if_false]
      rw [ih k (i + 1) (by simpa using hat)
        (fun j hj => by simpa using hfirst (j + 1) (Nat.succ_lt_succ hj))]
      omega

theorem priorityPositions_eq (n k : Nat) (hn : n < 2 ^ 63) (hk : k < n) :
    priorityPositions n (k + 1) =
      { low := sizeSub k (max 1 (k / 4)),
        lowest := sizeSub (sizeSub k (max 1 (k / 4))) (max 1 (k / 4)),
        high := k + max 1 ((n - k - 1) / 4),
        highest := k + 2 * max 1 ((n - k - 1) / 4) } := by
  have h1 : sizeSub (k + 1) 1 = k := by
    simp only [sizeSub]; norm_num at hn ⊢; omega
  have h2 : sizeSub n (k + 1) = n - k - 1 := by
    simp only [sizeSub]; norm_num at hn ⊢; omega
  have hd1 : (if k / 4 = 0 then 1 else k / 4) = max 1 (k / 4) := by
    split <;> omega
  have hd2 : (if (n - k - 1) / 4 = 0 then 1 else (n - k - 1) / 4) = max 1 ((n - k - 1) / 4) := by
    split <;> omega
  simp only [priorityPositions, h1, h2, hd1, hd2]
  have h3 : sizeAdd k (max 1 ((n - k - 1) / 4)) = k + max 1 ((n - k - 1) / 4) := by
    simp only [sizeAdd]; norm_num at hn ⊢; omega
  have h4 : sizeAdd (k + max 1 ((n - k - 1) / 4)) (max 1 ((n - k - 1) / 4))
      = k + 2 * max 1 ((n - k - 1) / 4) := by
    simp only [sizeAdd]; norm_num at hn ⊢; omega
  rw [h3, h4]

theorem sizeSub_of_le (a b : Nat) (hab : b ≤ a) (ha : a < 2 ^ 64) : sizeSub a b = a - b := by
  simp only [sizeSub]
  omega

theorem sizeSub_of_lt (a b : Nat) (hab : a < b) (hb : b < 2 ^ 64) :
    sizeSub a b = a + 2 ^ 64 - b := by
  simp only [sizeSub]
  omega

theorem priorityPositions_inBounds_iff (n k : Nat) (hn : n < 2 ^ 63) (hk : k < n) :
    ((priorityPositions n (k + 1)).low < n ∧ (priorityPositions n (k + 1)).lowest < n ∧
      (priorityPositions n (k + 1)).high < n ∧ (priorityPositions n (k + 1)).highest < n)
      ↔ (2 ≤ k ∧ k + 3 ≤ n) := by
  rw [priorityPositions_eq n k hn hk]
  have hd1 : max 1 (k / 4) = if k / 4 = 0 then 1 else k / 4 := by
    split <;> omega
  have hd2 : max 1 ((n - k - 1) / 4) = if (n - k - 1) / 4 = 0 then 1 else (n - k - 1) / 4 := by
    split <;> omega
  generalize max 1 (k / 4) = d1 at hd1
  generalize max 1 ((n - k - 1) / 4) = d2 at hd2
  show (sizeSub k d1 < n ∧ sizeSub (sizeSub k d1) d1 < n ∧ k + d2 < n ∧ k + 2 * d2 < n)
    ↔ (2 ≤ k ∧ k + 3 ≤ n)
  have h64 : (2 : Nat) ^ 63 < 2 ^ 64 := by norm_num
  by_cases hk2 : 2 ≤ k
  · have hd : 2 * d1 ≤ k := by split at hd1 <;> omega
    rw [sizeSub_of_le k d1 (by omega) (by omega),
      sizeSub_of_le (k - d1) d1 (by omega) (by omega)]
    constructor
    · rintro ⟨_, _, _, h4⟩
      split at hd2 <;> omega
    · rintro ⟨_, h2⟩
      split at hd2 <;> omega
  · have hd : d1 = 1 := by split at hd1 <;> omega
    subst hd
    have hlowest : n ≤ sizeSub (sizeSub k 1) 1 := by
      rcases Nat.lt_or_ge k 1 with h0 | h1
      · have hk0 : k = 0 := by omega
        subst hk0
        rw [sizeSub_of_lt 0 1 (by omega) (by omega),
          sizeSub_of_le _ 1 (by omega) (by omega)]
        omega
      · have hk1 : k = 1 := by omega
        subst hk1
        rw [sizeSub_of_le 1 1 (by omega) (by omega),
          sizeSub_of_lt _ 1 (by omega) (by omega)]
        omega
    constructor
    · rintro ⟨_, h2, _, _⟩
      omega
    · rintro ⟨h1, _⟩
      omega

theorem construct_outOfBounds_iff (E : SchedParams)
    (hlen : MAXPRIORITYNUM ≤ E.priorities.length) :
    ThreadPriority.construct E = .outOfBounds ↔
      ¬ ((priorityPositions E.priorities.length
            (normPos E.ACE_THR_PRI_OTHER_DEF E.priorities 0)).low < E.priorities.length ∧
          (priorityPositions E.priorities.length
            (normPos E.ACE_THR_PRI_OTHER_DEF E.priorities 0)).lowest < E.priorities.length ∧
          (priorityPositions E.priorities.length
            (normPos E.ACE_THR_PRI_OTHER_DEF E.priorities 0)).high < E.priorities.length ∧
          (priorityPositions E.priorities.length
            (normPos E.ACE_THR_PRI_OTHER_DEF E.priorities 0)).highest
              < E.priorities.length) := by
  have hne : E.priorities.isEmpty = false := by
    cases hl : E.priorities with
    | nil => rw [hl] at hlen; simp [MAXPRIORITYNUM] at hlen
    | cons a rest => rfl
  have hsome : ∀ i : Nat, (∃ v, E.priorities[i]? = some v) ↔ i < E.priorities.length := by
    intro i
    constructor
    · rintro ⟨v, hv⟩
      by_contra hge
      rw [List.getElem?_eq_none (by omega)] at hv
      cases hv
    · intro hi
      exact ⟨_, List.getElem?_eq_getElem hi⟩
  unfold ThreadPriority.construct
  simp only [hne, Bool.false_eq_true, if_false, hlen, if_true]
  generalize priorityPositions E.priorities.length
    (normPos E.ACE_THR_PRI_OTHER_DEF E.priorities 0) = pos
  rw [← hsome pos.low, ← hsome pos.lowest, ← hsome pos.high, ← hsome pos.highest]
  cases h1 : E.priorities[pos.low]? <;> cases h2 : E.priorities[pos.lowest]? <;>
    cases h3 : E.priorities[pos.high]? <;> cases h4 : E.priorities[pos.highest]? <;> simp

/-- C28: for a scheduler priority list of length `n` with
`MAXPRIORITYNUM ≤ n` (and `n < 2^63`) whose first occurrence of the default
priority is at index `k`, the search loop yields `norm_pos = k + 1`, the four
indices read for `Low`, `Lowest`, `High`, `Highest` are `k - d1`,
`k - d1 - d1`, `k + d2`, `k + 2 * d2` in `size_t` arithmetic with
`d1 = max 1 (k / 4)` and `d2 = max 1 ((n - k - 1) / 4)`, and all four lie
within `[0, n)` if and only if `2 ≤ k` and `k ≤ n - 3`; exactly then the
constructor makes no out-of-bounds read. -/
theorem ThreadPriority_index_safety (E : SchedParams) (k : Nat)
    (hlen : MAXPRIORITYNUM ≤ E.priorities.length) (hsize : E.priorities.length < 2 ^ 63)
    (hat : E.priorities[k]? = some E.ACE_THR_PRI_OTHER_DEF)
    (hfirst : ∀ j, j < k → E.priorities[j]? ≠ some E.ACE_THR_PRI_OTHER_DEF) :
    normPos E.ACE_THR_PRI_OTHER_DEF E.priorities 0 = k + 1 ∧
    priorityPositions E.priorities.length (k + 1) =
      { low := sizeSub k (max 1 (k / 4)),
        lowest := sizeSub (sizeSub k (max 1 (k / 4))) (max 1 (k / 4)),
        high := k + max 1 ((E.priorities.length - k - 1) / 4),
        highest := k + 2 * max 1 ((E.priorities.length - k - 1) / 4) } ∧
    (((priorityPositions E.priorities.length (k + 1)).low < E.priorities.length ∧
        (priorityPositions E.priorities.length (k + 1)).lowest < E.priorities.length ∧
        (priorityPositions E.priorities.length (k + 1)).high < E.priorities.length ∧
        (priorityPositions E.priorities.length (k + 1)).highest < E.priorities.length)
      ↔ (2 ≤ k ∧ k ≤ E.priorities.length - 3)) ∧
    (ThreadPriority.construct E ≠ .outOfBounds ↔ (2 ≤ k ∧ k ≤ E.priorities.length - 3)) := by
  have hk : k < E.priorities.length := by
    by_contra hge
    rw [List.getElem?_eq_none (by omega)] at hat
    cases hat
  have hnorm : normPos E.ACE_THR_PRI_OTHER_DEF E.priorities 0 = k + 1 := by
    rw [normPos_first _ _ k 0 hat hfirst]
    omega
  have hlen7 : 7 ≤ E.priorities.length := hlen
  have hiff := priorityPositions_inBounds_iff E.priorities.length k hsize hk
  have hrange : (2 ≤ k ∧ k + 3 ≤ E.priorities.length)
      ↔ (2 ≤ k ∧ k ≤ E.priorities.length - 3) := by omega
  refine ⟨hnorm, priorityPositions_eq _ k hsize hk, hiff.trans hrange, ?_⟩
  rw [Ne, construct_outOfBounds_iff E hlen, hnorm, not_not]
  exact hiff.trans hrange

theorem ThreadPriority_index_safety_witness :
    ThreadPriority.construct
        { ACE_THR_PRI_OTHER_DEF := 13, priority_min := 10, priority_max := 17,
          priorities := [10, 11, 12, 13, 14, 15, 16, 17] }
      ≠ .outOfBounds :=
  (ThreadPriority_index_safety
      { ACE_THR_PRI_OTHER_DEF := 13, priority_min := 10, priority_max := 17,
        priorities := [10, 11, 12, 13, 14, 15, 16, 17] }
      3 (by decide) (by norm_num) (by decide) (by decide)).2.2.2.mpr (by decide)

end ACE_Based

namespace Mangos

/-! ## Claim about the account data handlers -/

theorem HandleUpdateAccountData_rejects (S : SessionEnv) (type timestamp decompressedSize : Nat)
    (rest : List Nat) (h : S.NUM_ACCOUNT_DATA_TYPES < type) (t time_ : Nat) (data : List Nat) :
    SessionEvent.SetAccountData t time_ data
      ∉ HandleUpdateAccountData S type timestamp decompressedSize rest := by
  unfold HandleUpdateAccountData
  rw [if_pos h]
  simp

theorem HandleRequestAccountData_rejects (S : SessionEnv) (type : Nat)
    (h : S.NUM_ACCOUNT_DATA_TYPES < type) (t : Nat) :
    SessionEvent.GetAccountData t ∉ HandleRequestAccountData S type := by
  unfold HandleRequestAccountData
  rw [if_pos h]
  simp

/-- C29 (refuted at the boundary): both handlers test
`type > NUM_ACCOUNT_DATA_TYPES`, so the type value `NUM_ACCOUNT_DATA_TYPES`
itself, which is outside `0 .. NUM_ACCOUNT_DATA_TYPES - 1`, is not rejected:
`HandleUpdateAccountData` with a decompressed size of 0 calls
`SetAccountData` with that type and acknowledges it, and
`HandleRequestAccountData` calls `GetAccountData` with it. -/
theorem account_data_guard_admits_NUM (S : SessionEnv) (timestamp : Nat) (rest : List Nat) :
    HandleUpdateAccountData S S.NUM_ACCOUNT_DATA_TYPES timestamp 0 rest =
      [.DETAIL_LOG "WORLD: Received opcode CMSG_UPDATE_ACCOUNT_DATA",
       .DEBUG_LOG ("UAD: type " ++ toString S.NUM_ACCOUNT_DATA_TYPES ++ ", time "
          ++ toString timestamp ++ ", decompressedSize " ++ toString 0),
       .SetAccountData S.NUM_ACCOUNT_DATA_TYPES 0 [],
       .SendPacket .SMSG_UPDATE_ACCOUNT_DATA_COMPLETE
         [.uint32 S.NUM_ACCOUNT_DATA_TYPES, .uint32 0]] ∧
    SessionEvent.GetAccountData S.NUM_ACCOUNT_DATA_TYPES
      ∈ HandleRequestAccountData S S.NUM_ACCOUNT_DATA_TYPES := by
  constructor
  · unfold HandleUpdateAccountData
    rw [if_neg (Nat.lt_irrefl _), if_pos rfl]
    rfl
  · unfold HandleRequestAccountData
    rw [if_neg (Nat.lt_irrefl _)]
    simp only []
    split <;> simp

end Mangos

namespace Mangos

/-! ## Claim about the update packets -/

theorem resize_length (n : Nat) (l : List Nat) : (resize n l).length = n := by
  unfold resize
  rw [List.length_append, List.length_take, List.length_replicate]
  omega

theorem putUint32_length (v : Nat) : (putUint32 v).length = 4 := rfl

theorem getUint32_putUint32 (v : Nat) : getUint32 (putUint32 v) = v % 2 ^ 32 := by
  unfold getUint32 putUint32
  simp only []
  omega

theorem take_putUint32_append (v : Nat) (t : List Nat) :
    (putUint32 v ++ t).take 4 = putUint32 v := by
  rw [List.take_append_of_le_length (by rw [putUint32_length])]
  exact List.take_of_length_le (by rw [putUint32_length])

theorem take_resize_putUint32 (d v : Nat) (t : List Nat) :
    (resize (d + 4) (putUint32 v ++ t)).take 4 = putUint32 v := by
  unfold resize
  rw [List.take_append_of_le_length
    (by rw [List.length_take, List.length_append, putUint32_length]; omega),
    List.take_take, Nat.min_eq_left (by omega)]
  exact take_putUint32_append v t

theorem foldl_append_eq {α : Type} (f : α → List Nat) (l : List α) (init : List Nat) :
    l.foldl (fun buf i => buf ++ f i) init = init ++ (l.map f).flatten := by
  induction l generalizing init with
  | nil => simp
  | cons a rest ih => simp [List.foldl_cons, ih, List.append_assoc]

theorem buf_eq (E : UpdateEnv) (u : UpdateData) (hasTransport : Bool) :
    u.buf E hasTransport =
      putUint32 (if u.m_outOfRangeGUIDs = [] then u.m_blockCount else u.m_blockCount + 1)
        ++ (if E.classicOrTbc then putUint8 (if hasTransport then 1 else 0) else [])
        ++ (if u.m_outOfRangeGUIDs = [] then []
            else putUint8 E.UPDATETYPE_OUT_OF_RANGE_OBJECTS
              ++ putUint32 u.m_outOfRangeGUIDs.length
              ++ (u.m_outOfRangeGUIDs.map E.WriteAsPacked).flatten)
        ++ u.m_data := by
  unfold UpdateData.buf
  cases hg : u.m_outOfRangeGUIDs with
  | nil => cases E.classicOrTbc <;> simp
  | cons g rest =>
    cases E.classicOrTbc <;> simp [foldl_append_eq, List.append_assoc]

theorem BuildPacket_compressed_example :
    UpdateData.BuildPacket sampleUpdateEnv sampleZlib
        { m_blockCount := 2, m_outOfRangeGUIDs := [5, 9], m_data := List.replicate 100 7 }
        {} false =
      some (true,
        { opcode := .SMSG_COMPRESSED_UPDATE_OBJECT,
          storage := [113, 0, 0, 0, 120, 3, 0, 0, 0, 4, 2, 0, 0, 0, 1, 5, 1, 9]
            ++ List.replicate 100 7 }, []) := by
  decide

theorem BuildPacket_failed_example :
    (UpdateData.BuildPacket sampleUpdateEnv { sampleZlib with deflateEnd := fun _ => -2 }
        { m_blockCount := 2, m_outOfRangeGUIDs := [5, 9], m_data := List.replicate 100 7 }
        {} false).map (fun r => (r.1, r.2.2)) =
      some (false,
        ["Can\x27t compress update packet (zlib: deflateEnd) Error code: -2 (error)"]) := by
  decide

/-- C30: `UpdateData::BuildPacket` called with an empty packet. The buffer
is the `uint32` block count (`m_blockCount + 1` when there are out-of-range
guids, `m_blockCount` otherwise), the transport byte of the `CLASSIC` and `TBC`
builds, the out-of-range block when there are such guids, and the update data.
With `pSize` its length: if `pSize ≤ 100` the call returns `true` and the
packet has opcode `SMSG_UPDATE_OBJECT` and the buffer as contents; if
`pSize > 100` the call returns `false` exactly when `Compress` reports the
size 0, and otherwise returns `true` with opcode
`SMSG_COMPRESSED_UPDATE_OBJECT`, `pSize` as a `uint32` in the first four bytes
and a length of 4 plus the size that `Compress` reports. -/
theorem BuildPacket_size_threshold {σ : Type} (E : UpdateEnv) (Z : Zlib σ) (u : UpdateData)
    (packet : WorldPacket) (hasTransport : Bool) (hempty : packet.storage = []) :
    u.buf E hasTransport =
      putUint32 (if u.m_outOfRangeGUIDs = [] then u.m_blockCount else u.m_blockCount + 1)
        ++ (if E.classicOrTbc then putUint8 (if hasTransport then 1 else 0) else [])
        ++ (if u.m_outOfRangeGUIDs = [] then []
            else putUint8 E.UPDATETYPE_OUT_OF_RANGE_OBJECTS
              ++ putUint32 u.m_outOfRangeGUIDs.length
              ++ (u.m_outOfRangeGUIDs.map E.WriteAsPacked).flatten)
        ++ u.m_data ∧
    getUint32 ((u.buf E hasTransport).take 4) =
      (if u.m_outOfRangeGUIDs = [] then u.m_blockCount else u.m_blockCount + 1) % 2 ^ 32 ∧
    ((u.buf E hasTransport).length ≤ 100 →
      UpdateData.BuildPacket E Z u packet hasTransport =
        some (true, { opcode := .SMSG_UPDATE_OBJECT, storage := u.buf E hasTransport }, [])) ∧
    (100 < (u.buf E hasTransport).length →
      ∃ r p log, UpdateData.BuildPacket E Z u packet hasTransport = some (r, p, log) ∧
        (r = false ↔
          (UpdateData.Compress E Z (Z.compressBound (u.buf E hasTransport).length % 2 ^ 32)
            (u.buf E hasTransport) (u.buf E hasTransport).length).dst_size = 0) ∧
        (r = true →
          p.opcode = .SMSG_COMPRESSED_UPDATE_OBJECT ∧
          p.storage.take 4 = putUint32 (u.buf E hasTransport).length ∧
          getUint32 (p.storage.take 4) = (u.buf E hasTransport).length % 2 ^ 32 ∧
          p.storage.length =
            4 + (UpdateData.Compress E Z
              (Z.compressBound (u.buf E hasTransport).length % 2 ^ 32)
              (u.buf E hasTransport) (u.buf E hasTransport).length).dst_size)) := by
  refine ⟨buf_eq E u hasTransport, ?_, ?_, ?_⟩
  · rw [buf_eq, List.append_assoc, List.append_assoc, take_putUint32_append,
      getUint32_putUint32]
  · intro hsmall
    have hlen : (u.buf E hasTransport).length ≠ 0 := by
      rw [buf_eq]
      simp [putUint32_length]
    unfold UpdateData.BuildPacket
    simp only [hempty, List.isEmpty_nil, not_true_eq_false, if_false]
    rw [if_neg (by omega), if_pos hlen]
    simp
  · intro hbig
    unfold UpdateData.BuildPacket
    simp only [hempty, List.isEmpty_nil, not_true_eq_false, if_false]
    rw [if_pos hbig]
    generalize hc : UpdateData.Compress E Z
      (Z.compressBound (u.buf E hasTransport).length % 2 ^ 32)
      (u.buf E hasTransport) (u.buf E hasTransport).length = c
    by_cases hz : c.dst_size = 0
    · simp only [hz, if_true]
      exact ⟨false, _, _, rfl, by simp, by simp⟩
    · simp only [hz, if_false]
      refine ⟨true, _, _, rfl, by simp [hz], fun _ => ⟨rfl, ?_, ?_, ?_⟩⟩
      · show (resize (c.dst_size + 4) _).take 4 = _
        rw [take_putUint32_append]
        exact take_resize_putUint32 _ _ _
      · show getUint32 ((resize (c.dst_size + 4) _).take 4) = _
        rw [take_putUint32_append, take_resize_putUint32, getUint32_putUint32]
      · show (resize (c.dst_size + 4) _).length = _
        rw [resize_length]
        omega

theorem BuildPacket_size_threshold_witness :
    UpdateData.BuildPacket sampleUpdateEnv sampleZlib
        { m_blockCount := 2, m_outOfRangeGUIDs := [5, 9], m_data := [7, 7, 7] } {} false =
      some (true,
        { opcode := .SMSG_UPDATE_OBJECT,
          storage := [3, 0, 0, 0, 4, 2, 0, 0, 0, 1, 5, 1, 9, 7, 7, 7] }, []) :=
  (BuildPacket_size_threshold sampleUpdateEnv sampleZlib
      { m_blockCount := 2, m_outOfRangeGUIDs := [5, 9], m_data := [7, 7, 7] } {} false
      rfl).2.2.1 (by decide)

end Mangos
